import Mathlib

/-!
# Contact form of the portfolio site: validation, rate limit and submission

A shallow embedding of `src/js/contact-form.js`, and of the dark-mode code of
`src/js/main.js` (namespace `Main`).

* JavaScript strings are sequences of UTF-16 code units (`JSString`), so that
  `value.length`, `trim` and the regular expressions (which carry no `u` flag)
  work on the same units as in the browser.
* The page is an explicit `Page` record: the controls of the form in document
  order, the elements the script reaches through `getElementById`, the submit
  button, the one `sessionStorage` key, the `isSubmitting` flag, the network
  calls issued so far and the pending timers.
* `handleFormSubmit` is an `async` function: it is split at its suspension
  point into the part that runs when the submit event arrives and the part
  that runs when the network call has settled.
-/

namespace ContactForm

/-! ## Strings -/

/-- A JavaScript string, as its UTF-16 code units. -/
abbrev JSString := List Nat

/-- UTF-16 code units of one Unicode scalar value. -/
def utf16Char (c : Char) : List Nat :=
  if c.toNat < 65536 then [c.toNat]
  else [55296 + (c.toNat - 65536) / 1024, 56320 + (c.toNat - 65536) % 1024]

/-- The JavaScript string denoted by a literal. -/
def utf16 (s : String) : JSString :=
  s.toList.flatMap utf16Char

/-- Code units that `String.prototype.trim`, `parseInt` and the regular
expression class `\s` treat as white space (WhiteSpace and LineTerminator of
ECMAScript). -/
def isWhiteSpace (c : Nat) : Bool :=
  c == 9 || c == 10 || c == 11 || c == 12 || c == 13 || c == 32 || c == 160 ||
  c == 5760 || (8192 ≤ c && c ≤ 8202) || c == 8232 || c == 8233 || c == 8239 ||
  c == 8287 || c == 12288 || c == 65279

/-- Remove the white space at the end of a string. -/
def trimEnd (s : JSString) : JSString :=
  (s.reverse.dropWhile isWhiteSpace).reverse

/-- Model of `String.prototype.trim`. -/
def trim (s : JSString) : JSString :=
  trimEnd (s.dropWhile isWhiteSpace)

/-- Truthiness of a string: the empty string is the only falsy one. -/
def truthy (s : JSString) : Bool :=
  !s.isEmpty

/-- Decimal digits of `n`, most significant first; `fuel` bounds the recursion. -/
def decimalDigits : Nat → Nat → List Nat
  | 0, _ => []
  | fuel + 1, n =>
    if n < 10 then [48 + n] else decimalDigits fuel (n / 10) ++ [48 + n % 10]

/-- Model of `Number.prototype.toString` on a non-negative integer (below 1e21,
where JavaScript prints plain decimal digits). -/
def numberToString (n : Nat) : JSString :=
  decimalDigits (n + 1) n

/-- Model of number-to-string conversion on an integer. -/
def intToString (z : Int) : JSString :=
  if z < 0 then 45 :: numberToString z.natAbs else numberToString z.toNat

/-- Value of a code unit as a digit of the given radix, if it is one. -/
def digitValue (radix c : Nat) : Option Nat :=
  let v : Option Nat :=
    if 48 ≤ c ∧ c ≤ 57 then some (c - 48)
    else if 97 ≤ c ∧ c ≤ 122 then some (c - 97 + 10)
    else if 65 ≤ c ∧ c ≤ 90 then some (c - 65 + 10)
    else none
  v.bind fun d => if d < radix then some d else none

/-- Longest prefix of radix digits, as digit values. -/
def digitPrefix (radix : Nat) : JSString → List Nat
  | [] => []
  | c :: cs =>
    match digitValue radix c with
    | some d => d :: digitPrefix radix cs
    | none => []

/-- The optional sign that `parseInt` reads: whether it is a minus, and the rest. -/
def stripSign : JSString → Bool × JSString
  | 45 :: r => (true, r)
  | 43 :: r => (false, r)
  | r => (false, r)

/-- The radix `parseInt` settles on when it is given none (16 after a prefix
`0x` or `0X`, else 10), and the rest. -/
def stripRadix : JSString → Nat × JSString
  | 48 :: 120 :: r => (16, r)
  | 48 :: 88 :: r => (16, r)
  | r => (10, r)

/-- Model of `parseInt(s)` with no radix argument; `none` stands for `NaN`.
The result is the mathematical integer (JavaScript rounds it to a double,
which is exact below 2^53). -/
def parseInt (s : JSString) : Option Int :=
  let signed := stripSign (s.dropWhile isWhiteSpace)
  let based := stripRadix signed.2
  match digitPrefix based.1 based.2 with
  | [] => none
  | ds =>
    let n : Int := (ds.foldl (fun acc d => acc * based.1 + d) 0 : Nat)
    some (if signed.1 then -n else n)

/-! ## Regular expressions -/

/-- The regular expressions used by the validation rules, over code units. -/
inductive Regex where
  | fail : Regex
  | eps : Regex
  | cls : (Nat → Bool) → Regex
  | seq : Regex → Regex → Regex
  | alt : Regex → Regex → Regex
  | star : Regex → Regex

namespace Regex

/-- One or more repetitions: the quantifier `+`. -/
def plus (r : Regex) : Regex := seq r (star r)

/-- A single literal code unit. -/
def chr (c : Nat) : Regex := cls (fun d => d == c)

/-- Whether the expression accepts the empty string. -/
def nullable : Regex → Bool
  | fail => false
  | eps => true
  | cls _ => false
  | seq a b => nullable a && nullable b
  | alt a b => nullable a || nullable b
  | star _ => true

/-- Brzozowski derivative by one code unit. -/
def deriv : Regex → Nat → Regex
  | fail, _ => fail
  | eps, _ => fail
  | cls p, c => if p c then eps else fail
  | seq a b, c =>
    if nullable a then alt (seq (deriv a c) b) (deriv b c) else seq (deriv a c) b
  | alt a b, c => alt (deriv a c) (deriv b c)
  | star a, c => seq (deriv a c) (star a)

/-- Model of `pattern.test(value)` for a pattern written `/^r$/` (no flags):
the whole of `value` has to be matched by `r`. -/
def test (r : Regex) (value : JSString) : Bool :=
  nullable (value.foldl deriv r)

end Regex

/-- The class `[a-zA-Z\s\-']` of the name patterns. -/
def nameClass (c : Nat) : Bool :=
  (97 ≤ c && c ≤ 122) || (65 ≤ c && c ≤ 90) || isWhiteSpace c || c == 45 || c == 39

/-- The class `[^\s@]` of the email pattern. -/
def emailClass (c : Nat) : Bool :=
  !(isWhiteSpace c || c == 64)

/-- The pattern `/^[a-zA-Z\s\-']+$/`. -/
def namePattern : Regex :=
  Regex.plus (Regex.cls nameClass)

/-- The pattern `/^[^\s@]+@[^\s@]+\.[^\s@]+$/`. -/
def emailPattern : Regex :=
  Regex.seq (Regex.plus (Regex.cls emailClass))
    (Regex.seq (Regex.chr 64)
      (Regex.seq (Regex.plus (Regex.cls emailClass))
        (Regex.seq (Regex.chr 46) (Regex.plus (Regex.cls emailClass)))))

/-! ## Validation rules -/

/-- One entry of `validationRules`. -/
structure FieldRule where
  required : Bool
  minLength : Option Nat
  maxLength : Option Nat
  pattern : Option Regex
  message : JSString

def firstNameRule : FieldRule :=
  { required := true, minLength := some 2, maxLength := some 50,
    pattern := some namePattern,
    message := utf16 "Please enter a valid first name (2-50 characters, letters only)" }

def lastNameRule : FieldRule :=
  { required := true, minLength := some 2, maxLength := some 50,
    pattern := some namePattern,
    message := utf16 "Please enter a valid last name (2-50 characters, letters only)" }

def emailRule : FieldRule :=
  { required := true, minLength := none, maxLength := none,
    pattern := some emailPattern,
    message := utf16 "Please enter a valid email address" }

def inquiryRule : FieldRule :=
  { required := true, minLength := none, maxLength := none, pattern := none,
    message := utf16 "Please select an inquiry type" }

def messageRule : FieldRule :=
  { required := true, minLength := some 10, maxLength := some 1000, pattern := none,
    message := utf16 "Please enter a message (10-1000 characters)" }

/-- The keys of `validationRules`, in the order `Object.keys` lists them. -/
def ruleNames : List JSString :=
  [utf16 "firstName", utf16 "lastName", utf16 "email", utf16 "inquiry", utf16 "message"]

/-- The table `validationRules`, as the lookup `validationRules[fieldName]`. -/
def validationRules (fieldName : JSString) : Option FieldRule :=
  if fieldName = utf16 "firstName" then some firstNameRule
  else if fieldName = utf16 "lastName" then some lastNameRule
  else if fieldName = utf16 "email" then some emailRule
  else if fieldName = utf16 "inquiry" then some inquiryRule
  else if fieldName = utf16 "message" then some messageRule
  else none

/-- The two locals `isValid` and `errorMessage` of `validateField`. -/
structure Verdict where
  isValid : Bool
  errorMessage : JSString
deriving DecidableEq, Repr

/-- A length bound that is configured and truthy (`rules.minLength && ...`). -/
def boundSet (b : Option Nat) : Bool :=
  match b with
  | some n => n != 0
  | none => false

/-- First block of `validateField`: `if (rules.required && !value)`. -/
def requiredCheck (rules : FieldRule) (value : JSString) (v : Verdict) : Verdict :=
  if rules.required && !truthy value then
    { isValid := false, errorMessage := rules.message }
  else v

/-- Second block of `validateField`: the two length tests under
`if (isValid && value)`. -/
def lengthCheck (rules : FieldRule) (value : JSString) (v : Verdict) : Verdict :=
  if v.isValid && truthy value then
    let v := if boundSet rules.minLength && decide (value.length < rules.minLength.getD 0) then
        { isValid := false, errorMessage := rules.message } else v
    let v := if boundSet rules.maxLength && decide (value.length > rules.maxLength.getD 0) then
        { isValid := false, errorMessage := rules.message } else v
    v
  else v

/-- Third block of `validateField`: `if (isValid && value && rules.pattern)`. -/
def patternCheck (rules : FieldRule) (value : JSString) (v : Verdict) : Verdict :=
  match rules.pattern with
  | some p =>
    if v.isValid && truthy value then
      if !p.test value then { isValid := false, errorMessage := rules.message } else v
    else v
  | none => v

/-- Fourth block of `validateField`: the test on the inquiry group, where
`anyChecked` tells whether `input[name="inquiry"]:checked` finds an element. -/
def inquiryCheck (rules : FieldRule) (fieldName : JSString) (anyChecked : Bool)
    (v : Verdict) : Verdict :=
  if decide (fieldName = utf16 "inquiry") && !anyChecked then
    { isValid := false, errorMessage := rules.message }
  else v

/-- The checks of `validateField` (between reading the value and showing the
result), on the rule, the field name, the raw `field.value` and whether
`input[name="inquiry"]:checked` finds an element. -/
def checkField (rules : FieldRule) (fieldName rawValue : JSString) (anyChecked : Bool) :
    Verdict :=
  let value := trim rawValue
  let v : Verdict := { isValid := true, errorMessage := [] }
  let v := requiredCheck rules value v
  let v := lengthCheck rules value v
  let v := patternCheck rules value v
  inquiryCheck rules fieldName anyChecked v

/-! ## The page -/

/-- Kinds of form control the script meets through `input, textarea`: text-like
inputs (text, email, hidden, ...), text areas, radio buttons and checkboxes. -/
inductive ControlKind where
  | text
  | textarea
  | radio
  | checkbox
deriving DecidableEq, Repr

/-- An `input` or `textarea` element of the contact form. -/
structure Control where
  kind : ControlKind
  name : JSString
  value : JSString
  defaultValue : JSString
  checked : Bool
  defaultChecked : Bool
  disabled : Bool
  maxlength : Option JSString
  classList : List JSString
  ariaInvalid : Option JSString
  ariaDescribedby : Option JSString
deriving DecidableEq, Repr

/-- An element the script reaches by its id: a field's error container, the
two banners, the message counter. `span` is the text of its first `span`
descendant, when it has one; `inForm` tells whether it lies inside the form. -/
structure Element where
  id : JSString
  classList : List JSString
  textContent : JSString
  span : Option JSString
  inForm : Bool
deriving DecidableEq, Repr

/-- The element `button[type="submit"]` of the form. -/
structure Button where
  disabled : Bool
  innerHTML : JSString
deriving DecidableEq, Repr

/-- The page as the script of the contact form sees it, once
`initializeContactForm` has found the form. `controls` are the form's
`input, textarea` elements in document order, `messageTextarea` is the position
among them of the element with id `message` (when there is one),
`sessionStorage` is the item stored under `contactFormLastSubmit`,
`fetchCalls` are the bodies of the requests sent so far and `timers` the times
at which the pending callbacks that hide the success notice are due. -/
structure Page where
  controls : List Control
  elements : List Element
  submitButton : Option Button
  messageTextarea : Option Nat
  sessionStorage : Option JSString
  isSubmitting : Bool
  fetchCalls : List (List (JSString × JSString))
  timers : List Nat
deriving DecidableEq, Repr

/-- The constant `RATE_LIMIT_DURATION`. -/
def RATE_LIMIT_DURATION : Int := 60000

/-- Model of `classList.add`. -/
def classAdd (cl tokens : List JSString) : List JSString :=
  tokens.foldl (fun acc t => if t ∈ acc then acc else acc ++ [t]) cl

/-- Model of `classList.remove`. -/
def classRemove (cl tokens : List JSString) : List JSString :=
  cl.filter fun t => !decide (t ∈ tokens)

/-- Whether an element carries the class `hidden`. -/
def Element.hidden (e : Element) : Bool :=
  decide (utf16 "hidden" ∈ e.classList)

/-- Apply `f` to the entry at position `i`. -/
def modifyAt {α : Type} (f : α → α) : Nat → List α → List α
  | _, [] => []
  | 0, a :: l => f a :: l
  | i + 1, a :: l => a :: modifyAt f i l

/-- Position of the first entry that satisfies `q`. -/
def findFirst {α : Type} (q : α → Bool) : List α → Option Nat
  | [] => none
  | a :: l => if q a then some 0 else (findFirst q l).map (· + 1)

/-- Model of `document.getElementById`. -/
def getElementById (id : JSString) (els : List Element) : Option Element :=
  els.find? fun e => decide (e.id = id)

/-- Apply `f` to the element `document.getElementById(id)` returns. -/
def modifyById (id : JSString) (f : Element → Element) : List Element → List Element
  | [] => []
  | e :: l => if e.id = id then f e :: l else e :: modifyById id f l

/-- Model of `contactForm.querySelector('[name="..."]')`: the position of the
first control with that name. -/
def querySelectorName (p : Page) (fieldName : JSString) : Option Nat :=
  findFirst (fun c => decide (c.name = fieldName)) p.controls

/-- Whether `contactForm.querySelector('input[name="inquiry"]:checked')` finds
an element. -/
def inquiryChecked (p : Page) : Bool :=
  p.controls.any fun c =>
    (c.kind == ControlKind.radio || c.kind == ControlKind.checkbox) &&
      decide (c.name = utf16 "inquiry") && c.checked

/-- Id of the error container of a field: the template `${field.name}-error`. -/
def errorId (fieldName : JSString) : JSString :=
  fieldName ++ utf16 "-error"

/-- Model of `showFieldError(field, message)`, the field being the control at
position `i`. -/
def showFieldError (p : Page) (i : Nat) (message : JSString) : Page :=
  match p.controls[i]? with
  | none => p
  | some field =>
    let els := modifyById (errorId field.name)
      (fun e => { e with
        textContent := message, span := none,
        classList := classRemove e.classList [utf16 "hidden"] }) p.elements
    let cs := modifyAt
      (fun c => { c with
        classList := classRemove
          (classAdd c.classList [utf16 "border-red-500", utf16 "focus:ring-red-500"])
          [utf16 "border-dark-300", utf16 "dark:border-dark-600", utf16 "focus:ring-primary-500"],
        ariaInvalid := some (utf16 "true"),
        ariaDescribedby := some (errorId c.name) }) i p.controls
    { p with elements := els, controls := cs }

/-- Model of `clearFieldError(field)`, the field being the control at position `i`. -/
def clearFieldError (p : Page) (i : Nat) : Page :=
  match p.controls[i]? with
  | none => p
  | some field =>
    let els := modifyById (errorId field.name)
      (fun e => { e with classList := classAdd e.classList [utf16 "hidden"] }) p.elements
    let cs := modifyAt
      (fun c => { c with
        classList := classAdd
          (classRemove c.classList [utf16 "border-red-500", utf16 "focus:ring-red-500"])
          [utf16 "border-dark-300", utf16 "dark:border-dark-600", utf16 "focus:ring-primary-500"],
        ariaInvalid := none }) i p.controls
    { p with elements := els, controls := cs }

/-- Model of `clearAllErrors()`. -/
def clearAllErrors (p : Page) : Page :=
  let els := p.elements.map fun e =>
    if e.inForm && decide (utf16 "error-message" ∈ e.classList) then
      { e with classList := classAdd e.classList [utf16 "hidden"] }
    else e
  (List.range p.controls.length).foldl clearFieldError { p with elements := els }

/-- Model of `validateField(field)`, the field being the control at position
`i`: the page afterwards and the value returned. -/
def validateField (p : Page) (i : Nat) : Page × Bool :=
  match p.controls[i]? with
  | none => (p, true)
  | some field =>
    match validationRules field.name with
    | none => (p, true)
    | some rules =>
      let v := checkField rules field.name field.value (inquiryChecked p)
      if !v.isValid then (showFieldError p i v.errorMessage, false)
      else (clearFieldError p i, true)

/-- The callback that `validateForm` runs on each key of `validationRules`, on
the page and the local `isValid`. -/
def validateFormStep (acc : Page × Bool) (fieldName : JSString) : Page × Bool :=
  match querySelectorName acc.1 fieldName with
  | some i =>
    let r := validateField acc.1 i
    (r.1, if !r.2 then false else acc.2)
  | none => acc

/-- Model of `validateForm()`: the page afterwards and the value returned. -/
def validateForm (p : Page) : Page × Bool :=
  ruleNames.foldl validateFormStep (clearAllErrors p, true)

/-- Model of `showErrorMessage(message)`. -/
def showErrorMessage (p : Page) (message : JSString) : Page :=
  let els := modifyById (utf16 "form-error")
    (fun e => { e with
      classList := classRemove e.classList [utf16 "hidden"],
      span := e.span.map fun _ => message }) p.elements
  let els := modifyById (utf16 "form-success")
    (fun e => { e with classList := classAdd e.classList [utf16 "hidden"] }) els
  { p with elements := els }

/-- Model of `showSuccessMessage()` called at time `now`: the callback passed to
`setTimeout` is recorded with the time at which it is due. -/
def showSuccessMessage (p : Page) (now : Nat) : Page :=
  let els := modifyById (utf16 "form-success")
    (fun e => { e with classList := classRemove e.classList [utf16 "hidden"] }) p.elements
  let els := modifyById (utf16 "form-error")
    (fun e => { e with classList := classAdd e.classList [utf16 "hidden"] }) els
  { p with elements := els, timers := p.timers ++ [now + 5000] }

/-- The message of `checkRateLimit`, a template literal around the number of
seconds. -/
def waitMessage (remainingSeconds : Int) : JSString :=
  utf16 "Please wait " ++ intToString remainingSeconds ++
    utf16 " seconds before submitting again."

/-- Model of `Math.ceil(x / 1000)` on an integer `x`. -/
def ceilDiv1000 (x : Int) : Int :=
  -((-x) / 1000)

/-- The number `remainingSeconds` that `checkRateLimit` computes at time `now`,
when it refuses the submission. -/
def remainingSeconds (p : Page) (now : Nat) : Option Int :=
  match p.sessionStorage with
  | none => none
  | some lastSubmitTime =>
    if truthy lastSubmitTime then
      match parseInt lastSubmitTime with
      | none => none
      | some t =>
        let timeSinceLastSubmit : Int := (now : Int) - t
        if timeSinceLastSubmit < RATE_LIMIT_DURATION then
          some (ceilDiv1000 (RATE_LIMIT_DURATION - timeSinceLastSubmit))
        else none
    else none

/-- Model of `checkRateLimit()` called at time `now` (the value of
`Date.now()`): the page afterwards and the value returned. -/
def checkRateLimit (p : Page) (now : Nat) : Page × Bool :=
  match remainingSeconds p now with
  | some n => (showErrorMessage p (waitMessage n), false)
  | none => (p, true)

/-! ## Submission -/

/-- Model of `sanitizeInput` on a string: the text is stored as the text content
of a fresh `div` and read back as its `innerHTML`, which escapes `&`, `<`, `>`
and the no-break space. -/
def sanitizeInput (input : JSString) : JSString :=
  input.flatMap fun c =>
    if c = 38 then utf16 "&amp;"
    else if c = 60 then utf16 "&lt;"
    else if c = 62 then utf16 "&gt;"
    else if c = 160 then utf16 "&nbsp;"
    else [c]

/-- Conversion to a scalar value string, which `FormData` applies to names and
values: a surrogate that is not part of a pair becomes U+FFFD. -/
def toUSV : JSString → JSString
  | [] => []
  | [c] => if 55296 ≤ c ∧ c ≤ 57343 then [65533] else [c]
  | c :: d :: r =>
    if 55296 ≤ c ∧ c ≤ 56319 ∧ 56320 ≤ d ∧ d ≤ 57343 then c :: d :: toUSV r
    else if 55296 ≤ c ∧ c ≤ 57343 then 65533 :: toUSV (d :: r)
    else c :: toUSV (d :: r)

/-- Model of `new FormData(contactForm).entries()`: the named, enabled controls
in document order, radio buttons and checkboxes only when checked. -/
def formDataEntries (cs : List Control) : List (JSString × JSString) :=
  cs.filterMap fun c =>
    if c.disabled || c.name.isEmpty then none
    else
      match c.kind with
      | ControlKind.radio | ControlKind.checkbox =>
        if c.checked then some (toUSV c.name, toUSV c.value) else none
      | ControlKind.text | ControlKind.textarea => some (toUSV c.name, toUSV c.value)

/-- Model of the assignment `obj[key] = value` on an object with string values. -/
def objSet (o : List (JSString × JSString)) (key value : JSString) :
    List (JSString × JSString) :=
  if o.any (fun kv => decide (kv.1 = key)) then
    o.map fun kv => if kv.1 = key then (key, value) else kv
  else o ++ [(key, value)]

/-- The object `sanitizedData` that `handleFormSubmit` builds and sends. -/
def sanitizedData (cs : List Control) : List (JSString × JSString) :=
  (formDataEntries cs).foldl (fun o kv => objSet o kv.1 (sanitizeInput kv.2)) []

/-- The markup of the submit button while a submission is in flight. -/
def sendingLabel : JSString :=
  utf16 ("<span class=\"flex items-center justify-center\"><svg class=\"animate-spin -ml-1 mr-3 " ++
    "h-5 w-5 text-white\" xmlns=\"http://www.w3.org/2000/svg\" fill=\"none\" " ++
    "viewBox=\"0 0 24 24\"><circle class=\"opacity-25\" cx=\"12\" cy=\"12\" r=\"10\" " ++
    "stroke=\"currentColor\" stroke-width=\"4\"></circle><path class=\"opacity-75\" " ++
    "fill=\"currentColor\" d=\"M4 12a8 8 0 018-8V0C5.373 0 0 5.373 0 12h4zm2 5.291A7.962 " ++
    "7.962 0 014 12H0c0 3.042 1.135 5.824 3 7.938l3-2.647z\"></path></svg> Sending...</span>")

/-- Model of `updateMessageCounter()`. The comparison with `maxLength * 0.9` is
made on exact numbers. -/
def updateMessageCounter (p : Page) : Page :=
  match p.messageTextarea.bind (fun i => p.controls[i]?),
      getElementById (utf16 "message-count") p.elements with
  | some textarea, some _ =>
    let currentLength := textarea.value.length
    let maxLength := parseInt (textarea.maxlength.getD (utf16 "null"))
    let over : Bool :=
      match maxLength with
      | some m => decide (9 * m < 10 * (currentLength : Int))
      | none => false
    let els := modifyById (utf16 "message-count")
      (fun e => { e with
        textContent := numberToString currentLength, span := none,
        classList :=
          if over then
            classRemove (classAdd e.classList [utf16 "text-red-500", utf16 "dark:text-red-400"])
              [utf16 "text-dark-500", utf16 "dark:text-dark-400"]
          else
            classAdd (classRemove e.classList [utf16 "text-red-500", utf16 "dark:text-red-400"])
              [utf16 "text-dark-500", utf16 "dark:text-dark-400"] }) p.elements
    { p with elements := els }
  | _, _ => p

/-- What `form.reset()` does to one control. -/
def Control.reset (c : Control) : Control :=
  match c.kind with
  | ControlKind.text | ControlKind.textarea => { c with value := c.defaultValue }
  | ControlKind.radio | ControlKind.checkbox => { c with checked := c.defaultChecked }

/-- Model of `contactForm.reset()`. -/
def resetForm (p : Page) : Page :=
  { p with controls := p.controls.map Control.reset }

/-- A JSON value, as far as the script looks at it: arrays and objects are kept
as the text `String(value)` gives for them, numbers are integers. -/
inductive Json where
  | null
  | bool (b : Bool)
  | number (n : Int)
  | string (s : JSString)
  | other (rendered : JSString)
deriving DecidableEq, Repr

/-- Truthiness of a JSON value. -/
def Json.truthy : Json → Bool
  | Json.null => false
  | Json.bool b => b
  | Json.number n => n != 0
  | Json.string s => !s.isEmpty
  | Json.other _ => true

/-- The text a JSON value becomes when it is assigned to `textContent`. -/
def Json.toText : Json → JSString
  | Json.null => utf16 "null"
  | Json.bool b => if b then utf16 "true" else utf16 "false"
  | Json.number n => intToString n
  | Json.string s => s
  | Json.other r => r

/-- What `await response.json()` gives: a rejection, the value `null`, or any
other value, of which only the property `error` matters (`none` when the value
has no such property). -/
inductive ResponseBody where
  | unparseable
  | null
  | value (error : Option Json)
deriving DecidableEq, Repr

/-- How the network call settles: the promise of `fetch` rejects, or it
resolves to a response with its `ok` flag and its body. -/
inductive FetchOutcome where
  | rejected
  | response (ok : Bool) (body : ResponseBody)
deriving DecidableEq, Repr

/-- How the part of `handleFormSubmit` that runs on the submit event ends: it
returns, it throws (there is no submit button to read), or it is suspended at
`await fetch(...)`, holding the label `originalText` of the submit button. -/
inductive Completion where
  | returned
  | threw
  | awaiting (originalText : JSString)
deriving DecidableEq, Repr

/-- Model of `handleFormSubmit(e)` from the submit event, at time `now`, up to
its first suspension point. -/
def handleFormSubmit (p : Page) (now : Nat) : Page × Completion :=
  if p.isSubmitting then (p, Completion.returned)
  else
    let r := checkRateLimit p now
    if !r.2 then (r.1, Completion.returned)
    else
      let v := validateForm r.1
      if !v.2 then (v.1, Completion.returned)
      else
        let p := { v.1 with isSubmitting := true }
        match p.submitButton with
        | none => (p, Completion.threw)
        | some submitButton =>
          let originalText := submitButton.innerHTML
          let p := { p with
            submitButton := some { disabled := true, innerHTML := sendingLabel } }
          let p := { p with fetchCalls := p.fetchCalls ++ [sanitizedData p.controls] }
          (p, Completion.awaiting originalText)

/-- The generic message of a refused submission. -/
def genericErrorMessage : JSString :=
  utf16 "An error occurred while sending your message. Please try again."

/-- The message of the `catch` block. -/
def networkErrorMessage : JSString :=
  utf16 "Network error. Please check your connection and try again."

/-- The `try` and `catch` blocks of `handleFormSubmit` from the point where the
network call has settled, at time `now`. Nothing of the page is touched between
`await fetch(...)` and `await response.json()`, so the two suspensions are
taken as one. -/
def afterFetch (p : Page) (outcome : FetchOutcome) (now : Nat) : Page :=
  match outcome with
  | FetchOutcome.response true _ =>
    let p := { p with sessionStorage := some (numberToString now) }
    let p := showSuccessMessage p now
    let p := resetForm p
    updateMessageCounter p
  | FetchOutcome.response false (ResponseBody.value error) =>
    match error with
    | some e =>
      showErrorMessage p (if e.truthy then e.toText else genericErrorMessage)
    | none => showErrorMessage p genericErrorMessage
  | FetchOutcome.response false ResponseBody.null => showErrorMessage p networkErrorMessage
  | FetchOutcome.response false ResponseBody.unparseable =>
    showErrorMessage p networkErrorMessage
  | FetchOutcome.rejected => showErrorMessage p networkErrorMessage

/-- Model of the rest of `handleFormSubmit` once the network call has settled:
the `try` and `catch` blocks, then the `finally` block. -/
def handleFormSubmitSettled (p : Page) (originalText : JSString) (outcome : FetchOutcome)
    (now : Nat) : Page :=
  let p := afterFetch p outcome now
  { p with
    submitButton := p.submitButton.map fun b =>
      { b with disabled := false, innerHTML := originalText },
    isSubmitting := false }

/-! ## What the user sees, and sample pages -/

/-- The message displayed in the error container of a field: the text of the
element `${fieldName}-error` when it exists and is not hidden. -/
def displayedError (p : Page) (fieldName : JSString) : Option JSString :=
  match getElementById (errorId fieldName) p.elements with
  | some e => if e.hidden then none else some e.textContent
  | none => none

/-- Whether the control at position `i` carries `aria-invalid="true"`. -/
def flagged (p : Page) (i : Nat) : Bool :=
  match p.controls[i]? with
  | some c => decide (c.ariaInvalid = some (utf16 "true"))
  | none => false

/-- Whether the page has an error container for the field. -/
def hasErrorElement (p : Page) (fieldName : JSString) : Bool :=
  (getElementById (errorId fieldName) p.elements).isSome

/-- A control with the given kind, name, value and checkedness, and nothing else set. -/
def mkControl (kind : ControlKind) (name value : JSString) ( checked : Bool) : Control :=
  { kind := kind, name := name, value := value, defaultValue := [], checked := checked,
    defaultChecked := false, disabled := false, maxlength := none, classList := [],
    ariaInvalid := none, ariaDescribedby := none }

/-- A hidden element of the form with the given id and class. -/
def mkElement (id : JSString) (cls : JSString) (span : Option JSString) : Element :=
  { id := id, classList := [cls, utf16 "hidden"], textContent := [], span := span,
    inForm := true }

/-- A page with the five fields of the form (the inquiry group having the two
options `general` and `project`, the first one checked or not), their error
containers, the two banners, the counter and the submit button. -/
def samplePage (firstName lastName email message : JSString) (general : Bool) : Page :=
  { controls :=
      [ mkControl ControlKind.text (utf16 "firstName") firstName false,
        mkControl ControlKind.text (utf16 "lastName") lastName false,
        mkControl ControlKind.text (utf16 "email") email false,
        mkControl ControlKind.radio (utf16 "inquiry") (utf16 "general") general,
        mkControl ControlKind.radio (utf16 "inquiry") (utf16 "project") false,
        mkControl ControlKind.textarea (utf16 "message") message false ],
    elements :=
      [ mkElement (utf16 "firstName-error") (utf16 "error-message") none,
        mkElement (utf16 "lastName-error") (utf16 "error-message") none,
        mkElement (utf16 "email-error") (utf16 "error-message") none,
        mkElement (utf16 "inquiry-error") (utf16 "error-message") none,
        mkElement (utf16 "message-error") (utf16 "error-message") none,
        mkElement (utf16 "form-success") (utf16 "banner") (some []),
        mkElement (utf16 "form-error") (utf16 "banner") (some []),
        mkElement (utf16 "message-count") (utf16 "counter") none ],
    submitButton := some { disabled := false, innerHTML := utf16 "Send Message" },
    messageTextarea := some 5,
    sessionStorage := none,
    isSubmitting := false,
    fetchCalls := [],
    timers := [] }

/-- The snapshot of the specification's first example. -/
def validPage : Page :=
  samplePage (utf16 "Al") (utf16 "Lee") (utf16 "a@b.com") (utf16 "Hello there, testing.") true

/-- What validation reads of a control: its kind, name, value and checkedness. -/
def Control.snapshot (c : Control) : ControlKind × JSString × JSString × Bool :=
  (c.kind, c.name, c.value, c.checked)

/-- The form snapshot: what validation reads of the controls of the form. -/
def formSnapshot (p : Page) : List (ControlKind × JSString × JSString × Bool) :=
  p.controls.map Control.snapshot

/-- The form-level error message on display: the text of the `span` of the
element `form-error` when that element exists and is not hidden. -/
def bannerMessage (p : Page) : Option JSString :=
  match getElementById (utf16 "form-error") p.elements with
  | some e => if e.hidden then none else some (e.span.getD [])
  | none => none

/-- Whether the success notice `form-success` is on display. -/
def successShown (p : Page) : Bool :=
  match getElementById (utf16 "form-success") p.elements with
  | some e => !e.hidden
  | none => false

/-- The part of the page that showing and clearing messages never writes. -/
def Page.background (p : Page) :
    Option Button × Option Nat × Option JSString × Bool × List (List (JSString × JSString)) ×
      List Nat :=
  (p.submitButton, p.messageTextarea, p.sessionStorage, p.isSubmitting, p.fetchCalls, p.timers)

/-- The sample page with a successful submission recorded at time
1700000000000 (epoch milliseconds). -/
def limitedPage : Page :=
  { validPage with sessionStorage := some (numberToString 1700000000000) }

/-- Number of checked options of the inquiry group. -/
def checkedCount (p : Page) : Nat :=
  p.controls.countP fun c =>
    (c.kind == ControlKind.radio || c.kind == ControlKind.checkbox) &&
      decide (c.name = utf16 "inquiry") && c.checked

/-- A page whose inquiry group has a first option with an empty `value`
attribute and a second option `project`, which is the checked one. -/
def emptyValuePage : Page :=
  { validPage with
    controls :=
      [ mkControl ControlKind.text (utf16 "firstName") (utf16 "Al") false,
        mkControl ControlKind.text (utf16 "lastName") (utf16 "Lee") false,
        mkControl ControlKind.text (utf16 "email") (utf16 "a@b.com") false,
        mkControl ControlKind.radio (utf16 "inquiry") [] false,
        mkControl ControlKind.radio (utf16 "inquiry") (utf16 "project") true,
        mkControl ControlKind.textarea (utf16 "message") (utf16 "Hello there, testing.") false ] }

/-- The sample page while its submission is in flight: the page the first part
of `handleFormSubmit` leaves at time 0. -/
def inFlightPage : Page :=
  (handleFormSubmit validPage 0).1

/-- The sample page without an element `button[type="submit"]` in the form. -/
def noButtonPage : Page :=
  { validPage with submitButton := none }

/-- The character references that HTML escaping of text produces. -/
def entities : List JSString :=
  [utf16 "&amp;", utf16 "&lt;", utf16 "&gt;", utf16 "&nbsp;"]

/-- Whether every `&` of a string begins one of the four character references. -/
def ampersandsBeginEntities : JSString → Bool
  | [] => true
  | c :: r =>
    (c != 38 || decide (∃ e ∈ entities, e <+: c :: r)) && ampersandsBeginEntities r

/-- Un-escaping of the four character references: the reference decoder against
which `sanitizeInput` is read. -/
def unescapeEntities : JSString → JSString
  | 38 :: 97 :: 109 :: 112 :: 59 :: r => 38 :: unescapeEntities r
  | 38 :: 108 :: 116 :: 59 :: r => 60 :: unescapeEntities r
  | 38 :: 103 :: 116 :: 59 :: r => 62 :: unescapeEntities r
  | 38 :: 110 :: 98 :: 115 :: 112 :: 59 :: r => 160 :: unescapeEntities r
  | c :: r => c :: unescapeEntities r
  | [] => []

/-! ## Events on the fields, and timers -/

/-- The user's edit that precedes an `input` event: the control at position `i`
gets the value `v`. -/
def editValue (p : Page) (i : Nat) (v : JSString) : Page :=
  { p with controls := modifyAt (fun c => { c with value := v }) i p.controls }

/-- The listeners of the `input` event on the control at position `i`, in the
order `initializeContactForm` registers them: `clearFieldError`, then, on the
message text area, `updateMessageCounter`. -/
def onInput (p : Page) (i : Nat) : Page :=
  let p := clearFieldError p i
  if p.messageTextarea = some i then updateMessageCounter p else p

/-- The listener of the `blur` event on the control at position `i`. -/
def onBlur (p : Page) (i : Nat) : Page :=
  (validateField p i).1

/-- The listener of the `change` event, which `initializeContactForm` registers
on the elements `input[name="inquiry"]`. -/
def onChange (p : Page) (i : Nat) : Page :=
  match p.controls[i]? with
  | some c =>
    if c.kind ≠ ControlKind.textarea ∧ c.name = utf16 "inquiry" then clearFieldError p i else p
  | none => p

/-- The callback `showSuccessMessage` passes to `setTimeout`. -/
def hideSuccess (p : Page) : Page :=
  let els := modifyById (utf16 "form-success")
    (fun e => { e with classList := classAdd e.classList [utf16 "hidden"] }) p.elements
  { p with elements := els }

/-- The event loop at time `now`: every pending callback that is due runs and
leaves the list of timers. -/
def runTimers (p : Page) (now : Nat) : Page :=
  let due := p.timers.filter fun t => decide (t ≤ now)
  let q := due.foldl (fun q _ => hideSuccess q) p
  { q with timers := p.timers.filter fun t => decide (now < t) }

/-- The sample page right after a successful submission answered at time 1000. -/
def successPage : Page :=
  handleFormSubmitSettled inFlightPage (utf16 "Send Message")
    (FetchOutcome.response true ResponseBody.null) 1000

/-! ## Dark mode (`src/js/main.js`) -/

namespace Main

/-- What the dark-mode code of `main.js` reads and writes: the flag
`isDarkMode`, the class list and the attribute `data-theme` of the root
element, the item `darkMode` of `localStorage`, and the class lists of the
elements `sun-icon` and `moon-icon` when the page has them. -/
structure Theme where
  isDarkMode : Bool
  rootClassList : List JSString
  dataTheme : Option JSString
  darkMode : Option JSString
  sunIcon : Option (List JSString)
  moonIcon : Option (List JSString)
deriving DecidableEq, Repr

/-- The state in which the script starts: `isDarkMode` is declared `false`; the
root element, the stored item and the icons are what the page ships. -/
def initialTheme (rootClassList : List JSString) (dataTheme darkMode : Option JSString)
    (sunIcon moonIcon : Option (List JSString)) : Theme :=
  { isDarkMode := false, rootClassList := rootClassList, dataTheme := dataTheme,
    darkMode := darkMode, sunIcon := sunIcon, moonIcon := moonIcon }

/-- Model of `updateDarkModeIcons()`. -/
def updateDarkModeIcons (t : Theme) : Theme :=
  if t.isDarkMode then
    { t with
      sunIcon := t.sunIcon.map fun cl =>
        classAdd (classRemove cl [utf16 "hidden"]) [utf16 "opacity-100"],
      moonIcon := t.moonIcon.map fun cl =>
        classRemove (classAdd cl [utf16 "hidden"]) [utf16 "opacity-100"] }
  else
    { t with
      sunIcon := t.sunIcon.map fun cl =>
        classRemove (classAdd cl [utf16 "hidden"]) [utf16 "opacity-100"],
      moonIcon := t.moonIcon.map fun cl =>
        classAdd (classRemove cl [utf16 "hidden"]) [utf16 "opacity-100"] }

/-- Model of `enableDarkMode()`. -/
def enableDarkMode (t : Theme) : Theme :=
  if t.isDarkMode then t
  else
    updateDarkModeIcons
      { t with
        rootClassList := classAdd t.rootClassList [utf16 "dark"],
        dataTheme := some (utf16 "dark"),
        isDarkMode := true }

/-- Model of `disableDarkMode()`. -/
def disableDarkMode (t : Theme) : Theme :=
  if !t.isDarkMode then t
  else
    updateDarkModeIcons
      { t with
        rootClassList := classRemove t.rootClassList [utf16 "dark"],
        dataTheme := some (utf16 "light"),
        isDarkMode := false }

/-- Model of `initializeDarkMode()` up to the registration of the listener,
`prefersDark` being what `matchMedia('(prefers-color-scheme: dark)')` reports. -/
def initializeDarkMode (t : Theme) (prefersDark : Bool) : Theme :=
  if t.darkMode = some (utf16 "dark") then enableDarkMode t
  else if t.darkMode = some (utf16 "light") then disableDarkMode t
  else if prefersDark then enableDarkMode t
  else disableDarkMode t

/-- The listener `initializeDarkMode` registers for changes of the system
theme, `e.matches` being `isDark`. -/
def onSystemThemeChange (t : Theme) (isDark : Bool) : Theme :=
  match t.darkMode with
  | some currentTheme =>
    if truthy currentTheme then t
    else if isDark then enableDarkMode t else disableDarkMode t
  | none => if isDark then enableDarkMode t else disableDarkMode t

/-- The click listener `initializeNavigation` registers on the dark-mode toggle. -/
def onToggleClick (t : Theme) : Theme :=
  if t.isDarkMode then disableDarkMode { t with darkMode := some (utf16 "light") }
  else enableDarkMode { t with darkMode := some (utf16 "dark") }

/-- The flag and the document agree: class `dark` and `data-theme="dark"` on the
root element when the flag is true, no class `dark` and `data-theme="light"`
when it is false. -/
def Agree (t : Theme) : Prop :=
  if t.isDarkMode then
    utf16 "dark" ∈ t.rootClassList ∧ t.dataTheme = some (utf16 "dark")
  else
    utf16 "dark" ∉ t.rootClassList ∧ t.dataTheme = some (utf16 "light")

instance (t : Theme) : Decidable (Agree t) := by
  unfold Agree
  infer_instance

/-- A page that ships a bare root element (no class, no `data-theme`), with the
preference `light` saved. -/
def bareLight : Theme :=
  initialTheme [] none (some (utf16 "light")) (some [utf16 "hidden"]) (some [])

/-- A page that ships its root element with class `dark`, no preference saved. -/
def darkRoot : Theme :=
  initialTheme [utf16 "dark"] none none (some []) (some [utf16 "hidden"])

end Main

/-! ## Reference meanings of the patterns -/

/-- The strings a regular expression denotes. -/
def Regex.Matches : Regex → JSString → Prop
  | Regex.fail, _ => False
  | Regex.eps, s => s = []
  | Regex.cls p, s => ∃ c, s = [c] ∧ p c = true
  | Regex.seq a b, s => ∃ u v, s = u ++ v ∧ Regex.Matches a u ∧ Regex.Matches b v
  | Regex.alt a b, s => Regex.Matches a s ∨ Regex.Matches b s
  | Regex.star a, s =>
    ∃ L : List JSString, s = L.flatten ∧ ∀ u ∈ L, u ≠ [] ∧ Regex.Matches a u

/-- Reference meaning of the email pattern, in words: no white space anywhere,
exactly one `@`, at least one character before it, and after it a `.` that is
neither the first nor the last character of that part. -/
def emailReference (t : JSString) : Prop :=
  (∀ c ∈ t, isWhiteSpace c = false) ∧ t.count 64 = 1 ∧
  ∃ loc dom, t = loc ++ 64 :: dom ∧ loc ≠ [] ∧
    ∃ j, 0 < j ∧ j + 1 < dom.length ∧ dom[j]? = some 46

/-- A letter of the basic Latin alphabet. -/
def asciiLetter (c : Nat) : Bool :=
  (97 ≤ c && c ≤ 122) || (65 ≤ c && c ≤ 90)

/-- The sample page after a submission that failed with a transport error at
time 5 (its banner shows the connectivity message), the first name then having
been shortened to one letter. -/
def stalePage : Page :=
  editValue (handleFormSubmitSettled inFlightPage (utf16 "Send Message")
    FetchOutcome.rejected 5) 0 (utf16 "A")

/-! ## Lemmas on lists, classes and elements -/

theorem length_modifyAt {α : Type} (f : α → α) (i : Nat) (l : List α) :
    (modifyAt f i l).length = l.length := by
  induction l generalizing i with
  | nil => cases i <;> rfl
  | cons a l ih => cases i <;> simp [modifyAt, ih]

theorem getElem?_modifyAt {α : Type} (f : α → α) (i j : Nat) (l : List α) :
    (modifyAt f i l)[j]? = if j = i then (l[j]?).map f else l[j]? := by
  induction l generalizing i j with
  | nil => cases i <;> simp [modifyAt]
  | cons a l ih =>
    cases i with
    | zero => cases j <;> simp [modifyAt]
    | succ i => cases j <;> simp [modifyAt, ih]

theorem mem_classAdd (t : JSString) (cl tokens : List JSString) :
    t ∈ classAdd cl tokens ↔ t ∈ cl ∨ t ∈ tokens := by
  unfold classAdd
  induction tokens generalizing cl with
  | nil => simp
  | cons a l ih =>
    rw [List.foldl_cons, ih]
    by_cases h : a ∈ cl
    · simp only [h, if_true, List.mem_cons]
      constructor
      · rintro (h1 | h1)
        · exact Or.inl h1
        · exact Or.inr (Or.inr h1)
      · rintro (h1 | h1 | h1)
        · exact Or.inl h1
        · exact Or.inl (h1 ▸ h)
        · exact Or.inr h1
    · simp only [h, if_false, List.mem_append, List.mem_singleton, List.mem_cons]
      tauto

theorem mem_classRemove (t : JSString) (cl tokens : List JSString) :
    t ∈ classRemove cl tokens ↔ t ∈ cl ∧ t ∉ tokens := by
  simp [classRemove]

theorem getElementById_modifyById_same (id : JSString) (f : Element → Element)
    (hf : ∀ e, (f e).id = e.id) (els : List Element) :
    getElementById id (modifyById id f els) = (getElementById id els).map f := by
  induction els with
  | nil => rfl
  | cons e l ih =>
    unfold getElementById at ih ⊢
    by_cases h : e.id = id
    · simp [modifyById, h, hf]
    · simp [modifyById, h, ih]

theorem getElementById_modifyById_ne (id id2 : JSString) (hne : id2 ≠ id)
    (f : Element → Element) (hf : ∀ e, (f e).id = e.id) (els : List Element) :
    getElementById id2 (modifyById id f els) = getElementById id2 els := by
  induction els with
  | nil => rfl
  | cons e l ih =>
    unfold getElementById at ih ⊢
    by_cases h : e.id = id
    · have h2 : ¬ e.id = id2 := fun h3 => hne (h3 ▸ h)
      simp [modifyById, h, hf, h2, Ne.symm hne]
    · by_cases h2 : e.id = id2
      · simp [modifyById, h2, hne]
      · simp [modifyById, h, h2, ih]

/-! ## Lemmas on the rules and the checks -/

theorem validationRules_of_mem {n : JSString} (hn : n ∈ ruleNames) :
    ∃ rules, validationRules n = some rules ∧ rules.required = true := by
  simp only [ruleNames, List.mem_cons, List.mem_singleton, List.not_mem_nil, or_false] at hn
  rcases hn with h | h | h | h | h <;> subst h
  · exact ⟨firstNameRule, rfl, rfl⟩
  · exact ⟨lastNameRule, rfl, rfl⟩
  · exact ⟨emailRule, rfl, rfl⟩
  · exact ⟨inquiryRule, rfl, rfl⟩
  · exact ⟨messageRule, rfl, rfl⟩

theorem checkField_empty (rules : FieldRule) (n value : JSString) (c : Bool)
    (hreq : rules.required = true) (he : trim value = []) :
    checkField rules n value c = { isValid := false, errorMessage := rules.message } := by
  unfold checkField
  simp only [he]
  have h1 : requiredCheck rules [] { isValid := true, errorMessage := [] }
      = { isValid := false, errorMessage := rules.message } := by
    simp [requiredCheck, hreq, truthy]
  rw [h1]
  have h2 : lengthCheck rules [] { isValid := false, errorMessage := rules.message }
      = { isValid := false, errorMessage := rules.message } := by
    simp [lengthCheck]
  rw [h2]
  have h3 : patternCheck rules [] { isValid := false, errorMessage := rules.message }
      = { isValid := false, errorMessage := rules.message } := by
    unfold patternCheck
    cases rules.pattern <;> simp
  rw [h3]
  unfold inquiryCheck
  split <;> rfl

theorem showFieldError_flagged (p : Page) (i : Nat) (m : JSString) (field : Control)
    (hf : p.controls[i]? = some field) : flagged (showFieldError p i m) i = true := by
  simp [flagged, showFieldError, hf, getElem?_modifyAt]

theorem showFieldError_displayed (p : Page) (i : Nat) (m : JSString) (field : Control)
    (hf : p.controls[i]? = some field) (he : hasErrorElement p field.name = true) :
    displayedError (showFieldError p i m) field.name = some m := by
  unfold hasErrorElement at he
  obtain ⟨e, he⟩ := Option.isSome_iff_exists.mp he
  simp only [displayedError, showFieldError, hf]
  rw [getElementById_modifyById_same, he]
  · simp [Element.hidden, mem_classRemove]
  · intro _
    rfl

/-- C1: for each of the five rule-bearing fields, a value that is empty after
trimming makes `validateField` return false, and what it shows is the field's
configured message: `showFieldError` is called with `rules.message`, so the
control is flagged `aria-invalid` and its error container (when the page has
one) displays that message. -/
theorem validateField_empty_required (p : Page) (i : Nat) (field : Control)
    (hf : p.controls[i]? = some field) (hn : field.name ∈ ruleNames)
    (he : trim field.value = []) :
    ∃ rules, validationRules field.name = some rules ∧
      validateField p i = (showFieldError p i rules.message, false) ∧
      flagged (validateField p i).1 i = true ∧
      (hasErrorElement p field.name = true →
        displayedError (validateField p i).1 field.name = some rules.message) := by
  obtain ⟨rules, hr, hreq⟩ := validationRules_of_mem hn
  have hv : validateField p i = (showFieldError p i rules.message, false) := by
    simp [validateField, hf, hr, checkField_empty rules _ _ _ hreq he]
  refine ⟨rules, hr, hv, ?_, ?_⟩
  · rw [hv]
    exact showFieldError_flagged p i _ field hf
  · intro h
    rw [hv]
    exact showFieldError_displayed p i _ field hf h

/-- C1 at a page whose email field holds only white space. -/
theorem validateField_empty_required_witness :
    ∃ rules, validationRules (utf16 "email") = some rules ∧
      validateField (samplePage (utf16 "Al") (utf16 "Lee") (utf16 " \t ") [] true) 2
        = (showFieldError (samplePage (utf16 "Al") (utf16 "Lee") (utf16 " \t ") [] true) 2
            rules.message, false) ∧
      flagged (validateField
        (samplePage (utf16 "Al") (utf16 "Lee") (utf16 " \t ") [] true) 2).1 2 = true ∧
      (hasErrorElement (samplePage (utf16 "Al") (utf16 "Lee") (utf16 " \t ") [] true)
          (utf16 "email") = true →
        displayedError (validateField
          (samplePage (utf16 "Al") (utf16 "Lee") (utf16 " \t ") [] true) 2).1 (utf16 "email")
          = some rules.message) :=
  validateField_empty_required (samplePage (utf16 "Al") (utf16 "Lee") (utf16 " \t ") [] true) 2
    (mkControl ControlKind.text (utf16 "email") (utf16 " \t ") false) rfl (by decide) (by decide)

theorem truthy_of_ne_nil {t : JSString} (h : t ≠ []) : truthy t = true := by
  cases t with
  | nil => exact absurd rfl h
  | cons a l => rfl

theorem requiredCheck_of_ne_nil (rules : FieldRule) {t : JSString} (h : t ≠ []) (v : Verdict) :
    requiredCheck rules t v = v := by
  simp [requiredCheck, truthy_of_ne_nil h]

theorem check_tail_invalid (rules : FieldRule) (n t : JSString) (c : Bool) :
    inquiryCheck rules n c (patternCheck rules t { isValid := false, errorMessage := rules.message })
      = { isValid := false, errorMessage := rules.message } := by
  have h3 : patternCheck rules t { isValid := false, errorMessage := rules.message }
      = { isValid := false, errorMessage := rules.message } := by
    unfold patternCheck
    cases rules.pattern <;> simp
  rw [h3]
  unfold inquiryCheck
  split <;> rfl

theorem checkField_short (rules : FieldRule) (n value : JSString) (c : Bool) (lo : Nat)
    (hlo : rules.minLength = some lo) (hne : trim value ≠ [])
    (hlen : (trim value).length < lo) :
    checkField rules n value c = { isValid := false, errorMessage := rules.message } := by
  unfold checkField
  simp only []
  rw [requiredCheck_of_ne_nil rules hne]
  have hlo0 : lo ≠ 0 := by omega
  have h2 : lengthCheck rules (trim value) { isValid := true, errorMessage := [] }
      = { isValid := false, errorMessage := rules.message } := by
    simp [lengthCheck, truthy_of_ne_nil hne, hlo, boundSet, hlo0, hlen]
  rw [h2]
  exact check_tail_invalid rules n _ c

theorem checkField_long (rules : FieldRule) (n value : JSString) (c : Bool) (hi : Nat)
    (hhi : rules.maxLength = some hi) (hhi0 : hi ≠ 0) (hlen : hi < (trim value).length) :
    checkField rules n value c = { isValid := false, errorMessage := rules.message } := by
  have hne : trim value ≠ [] := by
    intro h
    rw [h] at hlen
    simp at hlen
  unfold checkField
  simp only []
  rw [requiredCheck_of_ne_nil rules hne]
  have h2 : lengthCheck rules (trim value) { isValid := true, errorMessage := [] }
      = { isValid := false, errorMessage := rules.message } := by
    simp [lengthCheck, truthy_of_ne_nil hne, hhi, boundSet, hhi0, hlen]
  rw [h2]
  exact check_tail_invalid rules n _ c

theorem lengthCheck_within (rules : FieldRule) (t : JSString) (v : Verdict)
    (hlo : ∀ lo, rules.minLength = some lo → lo ≤ t.length)
    (hhi : ∀ hi, rules.maxLength = some hi → t.length ≤ hi) :
    lengthCheck rules t v = v := by
  unfold lengthCheck
  split
  · have h1 : (boundSet rules.minLength && decide (t.length < rules.minLength.getD 0)) = false := by
      cases h : rules.minLength with
      | none => simp [boundSet]
      | some lo =>
        have := hlo lo h
        simp [Nat.not_lt.mpr this]
    have h2 : (boundSet rules.maxLength && decide (t.length > rules.maxLength.getD 0)) = false := by
      cases h : rules.maxLength with
      | none => simp [boundSet]
      | some hi =>
        have := hhi hi h
        simp [Nat.not_lt.mpr this]
    simp [h1, h2]
  · rfl

theorem checkField_within (rules : FieldRule) (n value : JSString) (c : Bool)
    (hn : n ≠ utf16 "inquiry") (hne : trim value ≠ [])
    (hlo : ∀ lo, rules.minLength = some lo → lo ≤ (trim value).length)
    (hhi : ∀ hi, rules.maxLength = some hi → (trim value).length ≤ hi) :
    (checkField rules n value c).isValid =
      (match rules.pattern with
        | some r => r.test (trim value)
        | none => true) := by
  unfold checkField
  simp only []
  rw [requiredCheck_of_ne_nil rules hne, lengthCheck_within rules _ _ hlo hhi]
  unfold inquiryCheck patternCheck
  simp only [hn, decide_False, Bool.false_and, Bool.false_eq_true, if_false]
  cases rules.pattern with
  | none => rfl
  | some r =>
    simp only [truthy_of_ne_nil hne, Bool.and_self, if_true]
    cases h : r.test (trim value) <;> simp

theorem validateField_of_invalid (p : Page) (i : Nat) (field : Control) (rules : FieldRule)
    (hf : p.controls[i]? = some field) (hr : validationRules field.name = some rules)
    (hc : checkField rules field.name field.value (inquiryChecked p)
      = { isValid := false, errorMessage := rules.message }) :
    validateField p i = (showFieldError p i rules.message, false) := by
  simp [validateField, hf, hr, hc]

/-- C2: for the fields with a minimum length (first name and last name: 2 to
50, message: 10 to 1000), a value whose trimmed form is non-empty and shorter
than the minimum makes `validateField` return false with the field's message;
a trimmed value of exactly the minimum or exactly the maximum length passes
the length check (the verdict is then the one of the pattern, valid when the
field has none); a trimmed value one longer than the maximum is refused with
the field's message. -/
theorem length_check_bounds (n : JSString)
    (hn : n = utf16 "firstName" ∨ n = utf16 "lastName" ∨ n = utf16 "message") :
    ∃ rules lo hi, validationRules n = some rules ∧
      rules.minLength = some lo ∧ rules.maxLength = some hi ∧
      (lo, hi) = (if n = utf16 "message" then (10, 1000) else (2, 50)) ∧
      (∀ p i field, p.controls[i]? = some field → field.name = n →
        trim field.value ≠ [] → (trim field.value).length < lo →
        validateField p i = (showFieldError p i rules.message, false)) ∧
      (∀ value, (trim value).length = lo ∨ (trim value).length = hi →
        (lengthCheck rules (trim value)
          (requiredCheck rules (trim value) { isValid := true, errorMessage := [] })).isValid
          = true ∧
        ∀ c, (checkField rules n value c).isValid =
          (match rules.pattern with
            | some r => r.test (trim value)
            | none => true)) ∧
      (∀ p i field, p.controls[i]? = some field → field.name = n →
        (trim field.value).length = hi + 1 →
        validateField p i = (showFieldError p i rules.message, false)) := by
  have key : ∀ (rules : FieldRule) (lo hi : Nat), validationRules n = some rules →
      rules.minLength = some lo → rules.maxLength = some hi → 0 < lo → lo ≤ hi →
      n ≠ utf16 "inquiry" →
      (∀ p i field, p.controls[i]? = some field → field.name = n →
        trim field.value ≠ [] → (trim field.value).length < lo →
        validateField p i = (showFieldError p i rules.message, false)) ∧
      (∀ value, (trim value).length = lo ∨ (trim value).length = hi →
        (lengthCheck rules (trim value)
          (requiredCheck rules (trim value) { isValid := true, errorMessage := [] })).isValid
          = true ∧
        ∀ c, (checkField rules n value c).isValid =
          (match rules.pattern with
            | some r => r.test (trim value)
            | none => true)) ∧
      (∀ p i field, p.controls[i]? = some field → field.name = n →
        (trim field.value).length = hi + 1 →
        validateField p i = (showFieldError p i rules.message, false)) := by
    intro rules lo hi hr hlo hhi hpos hle hni
    refine ⟨?_, ?_, ?_⟩
    · intro p i field hf hname hne hlen
      subst hname
      exact validateField_of_invalid p i field rules hf hr
        (checkField_short rules _ _ _ lo hlo hne hlen)
    · intro value hlen
      have hne : trim value ≠ [] := by
        intro h
        rw [h] at hlen
        simp at hlen
        omega
      have h1 : ∀ lo2, rules.minLength = some lo2 → lo2 ≤ (trim value).length := by
        intro lo2 h
        rw [hlo] at h
        cases h
        omega
      have h2 : ∀ hi2, rules.maxLength = some hi2 → (trim value).length ≤ hi2 := by
        intro hi2 h
        rw [hhi] at h
        cases h
        omega
      refine ⟨?_, fun c => checkField_within rules n value c hni hne h1 h2⟩
      rw [requiredCheck_of_ne_nil rules hne, lengthCheck_within rules _ _ h1 h2]
    · intro p i field hf hname hlen
      subst hname
      exact validateField_of_invalid p i field rules hf hr
        (checkField_long rules _ _ _ hi hhi (by omega) (by omega))
  rcases hn with h | h | h <;> subst h
  · exact ⟨firstNameRule, 2, 50, rfl, rfl, rfl, by decide,
      key firstNameRule 2 50 rfl rfl rfl (by decide) (by decide) (by decide)⟩
  · exact ⟨lastNameRule, 2, 50, rfl, rfl, rfl, by decide,
      key lastNameRule 2 50 rfl rfl rfl (by decide) (by decide) (by decide)⟩
  · exact ⟨messageRule, 10, 1000, rfl, rfl, rfl, by decide,
      key messageRule 10 1000 rfl rfl rfl (by decide) (by decide) (by decide)⟩

/-- C2 at the first-name field: the value "A" is refused with the first-name
message, and the two-letter value "Al" passes the length check. -/
theorem length_check_bounds_witness :
    validateField (samplePage (utf16 "A") (utf16 "Lee") (utf16 "a@b.com") [] true) 0
      = (showFieldError (samplePage (utf16 "A") (utf16 "Lee") (utf16 "a@b.com") [] true) 0
          firstNameRule.message, false) ∧
    (lengthCheck firstNameRule (trim (utf16 "Al"))
      (requiredCheck firstNameRule (trim (utf16 "Al"))
        { isValid := true, errorMessage := [] })).isValid = true := by
  obtain ⟨rules, lo, hi, hr, hlo, hhi, hb, h1, h2, _⟩ :=
    length_check_bounds (utf16 "firstName") (Or.inl rfl)
  have hrules : rules = firstNameRule := by
    have : some rules = some firstNameRule := hr.symm.trans rfl
    exact Option.some.inj this
  subst hrules
  have hlo2 : lo = 2 := by
    have : some lo = some 2 := hlo.symm.trans rfl
    exact Option.some.inj this
  subst hlo2
  refine ⟨?_, ?_⟩
  · exact h1 _ 0 (mkControl ControlKind.text (utf16 "firstName") (utf16 "A") false) rfl rfl
      (by decide) (by decide)
  · exact (h2 (utf16 "Al") (Or.inl (by decide))).1

theorem inquiryChecked_iff (p : Page) : inquiryChecked p = true ↔ 0 < checkedCount p := by
  unfold inquiryChecked checkedCount
  rw [List.any_eq_true, List.countP_pos_iff]

theorem checkField_inquiry (value : JSString) (c : Bool) :
    checkField inquiryRule (utf16 "inquiry") value c =
      if c = true ∧ trim value ≠ [] then { isValid := true, errorMessage := [] }
      else { isValid := false, errorMessage := inquiryRule.message } := by
  by_cases he : trim value = []
  · rw [checkField_empty inquiryRule _ _ _ rfl he]
    simp [he]
  · unfold checkField
    simp only []
    rw [requiredCheck_of_ne_nil inquiryRule he,
      lengthCheck_within inquiryRule _ _ (fun lo h => by cases h) (fun hi h => by cases h)]
    cases c <;> simp [patternCheck, inquiryCheck, inquiryRule, he]

/-- C3, as the claim states it, fails: on `emptyValuePage` exactly one option of
the inquiry group is checked, yet `validateField` on the inquiry field (the
first radio button, whose `value` is empty) returns false and shows the
message. -/
theorem inquiry_one_checked_invalid :
    checkedCount emptyValuePage = 1 ∧
    querySelectorName emptyValuePage (utf16 "inquiry") = some 3 ∧
    (validateField emptyValuePage 3).2 = false ∧
    displayedError (validateField emptyValuePage 3).1 (utf16 "inquiry")
      = some (utf16 "Please select an inquiry type") := by
  decide

/-- C3, amended: `validateField` on an inquiry field returns false, showing
'Please select an inquiry type', whenever no option of the group is checked;
it returns true whenever an option is checked (exactly one in particular) and
the value of the element passed in is not empty after trimming; it returns
true in no other case. -/
theorem validateField_inquiry (p : Page) (i : Nat) (field : Control)
    (hf : p.controls[i]? = some field) (hn : field.name = utf16 "inquiry") :
    (checkedCount p = 0 →
      validateField p i = (showFieldError p i (utf16 "Please select an inquiry type"), false)) ∧
    (checkedCount p = 1 → trim field.value ≠ [] →
      validateField p i = (clearFieldError p i, true)) ∧
    ((validateField p i).2 = true ↔ 0 < checkedCount p ∧ trim field.value ≠ []) := by
  have hr : validationRules (utf16 "inquiry") = some inquiryRule := rfl
  have hv : validateField p i =
      if inquiryChecked p = true ∧ trim field.value ≠ [] then (clearFieldError p i, true)
      else (showFieldError p i inquiryRule.message, false) := by
    simp only [validateField, hf, hn, hr, checkField_inquiry]
    by_cases h : inquiryChecked p = true ∧ trim field.value ≠ []
    · rw [if_pos h, if_pos h]
      rfl
    · rw [if_neg h, if_neg h]
      rfl
  refine ⟨?_, ?_, ?_⟩
  · intro h0
    have : ¬ (inquiryChecked p = true ∧ trim field.value ≠ []) := by
      rw [inquiryChecked_iff]
      omega
    rw [hv, if_neg this]
    rfl
  · intro h1 hne
    have : inquiryChecked p = true ∧ trim field.value ≠ [] := by
      refine ⟨?_, hne⟩
      rw [inquiryChecked_iff]
      omega
    rw [hv, if_pos this]
  · rw [hv, ← inquiryChecked_iff]
    by_cases h : inquiryChecked p = true ∧ trim field.value ≠ []
    · rw [if_pos h]
      exact ⟨fun _ => h, fun _ => rfl⟩
    · rw [if_neg h]
      exact ⟨fun h2 => (by cases h2), fun h2 => absurd h2 h⟩

/-- C3 amended, at the sample page with the option `general` checked. -/
theorem validateField_inquiry_witness :
    (checkedCount validPage = 0 →
      validateField validPage 3
        = (showFieldError validPage 3 (utf16 "Please select an inquiry type"), false)) ∧
    (checkedCount validPage = 1 → trim (utf16 "general") ≠ [] →
      validateField validPage 3 = (clearFieldError validPage 3, true)) ∧
    ((validateField validPage 3).2 = true ↔
      0 < checkedCount validPage ∧ trim (utf16 "general") ≠ []) :=
  validateField_inquiry validPage 3
    (mkControl ControlKind.radio (utf16 "inquiry") (utf16 "general") true) rfl rfl

/-! ## Validation reads the snapshot and writes the display -/

theorem map_modifyAt_of_preserve {α β : Type} (f : α → α) (g : α → β)
    (h : ∀ a, g (f a) = g a) (i : Nat) (l : List α) :
    (modifyAt f i l).map g = l.map g := by
  induction l generalizing i with
  | nil => cases i <;> rfl
  | cons a l ih => cases i <;> simp [modifyAt, ih, h]

theorem findFirst_map {α β : Type} (q : β → Bool) (g : α → β) (l : List α) :
    findFirst q (l.map g) = findFirst (fun a => q (g a)) l := by
  induction l with
  | nil => rfl
  | cons a l ih => simp [findFirst, ih]

theorem any_map_eq {α β : Type} (g : α → β) (q : β → Bool) (l : List α) :
    (l.map g).any q = l.any (fun a => q (g a)) := by
  induction l with
  | nil => rfl
  | cons a l ih => simp [List.any_cons, ih]

theorem findFirst_some {α : Type} (q : α → Bool) (l : List α) (i : Nat)
    (h : findFirst q l = some i) : ∃ a, l[i]? = some a ∧ q a = true := by
  induction l generalizing i with
  | nil => simp [findFirst] at h
  | cons a l ih =>
    unfold findFirst at h
    by_cases hq : q a = true
    · simp only [hq, if_true, Option.some.injEq] at h
      subst h
      exact ⟨a, by simp, hq⟩
    · simp only [hq, Bool.false_eq_true, if_false, Option.map_eq_some'] at h
      obtain ⟨j, hj, rfl⟩ := h
      obtain ⟨b, hb, hqb⟩ := ih j hj
      exact ⟨b, by simpa using hb, hqb⟩

theorem formSnapshot_showFieldError (p : Page) (i : Nat) (m : JSString) :
    formSnapshot (showFieldError p i m) = formSnapshot p := by
  unfold showFieldError formSnapshot
  split
  · rfl
  · apply map_modifyAt_of_preserve
    intro _
    rfl

theorem formSnapshot_clearFieldError (p : Page) (i : Nat) :
    formSnapshot (clearFieldError p i) = formSnapshot p := by
  unfold clearFieldError formSnapshot
  split
  · rfl
  · apply map_modifyAt_of_preserve
    intro _
    rfl

theorem formSnapshot_validateField (p : Page) (i : Nat) :
    formSnapshot (validateField p i).1 = formSnapshot p := by
  unfold validateField
  split
  · rfl
  · split
    · rfl
    · simp only []
      split
      · exact formSnapshot_showFieldError p i _
      · exact formSnapshot_clearFieldError p i

theorem foldl_clearFieldError_snapshot (l : List Nat) (p : Page) :
    formSnapshot (l.foldl clearFieldError p) = formSnapshot p := by
  induction l generalizing p with
  | nil => rfl
  | cons i l ih => rw [List.foldl_cons, ih, formSnapshot_clearFieldError]

theorem formSnapshot_clearAllErrors (p : Page) :
    formSnapshot (clearAllErrors p) = formSnapshot p := by
  unfold clearAllErrors
  rw [foldl_clearFieldError_snapshot]
  rfl

theorem querySelectorName_congr {p q : Page} (h : formSnapshot p = formSnapshot q)
    (n : JSString) : querySelectorName p n = querySelectorName q n := by
  have key : ∀ r : Page, querySelectorName r n
      = findFirst (fun s : ControlKind × JSString × JSString × Bool => decide (s.2.1 = n))
          (formSnapshot r) := by
    intro r
    unfold querySelectorName formSnapshot
    rw [findFirst_map]
    rfl
  rw [key p, key q, h]

theorem inquiryChecked_congr {p q : Page} (h : formSnapshot p = formSnapshot q) :
    inquiryChecked p = inquiryChecked q := by
  have key : ∀ r : Page, inquiryChecked r
      = (formSnapshot r).any (fun s : ControlKind × JSString × JSString × Bool =>
          (s.1 == ControlKind.radio || s.1 == ControlKind.checkbox) &&
            decide (s.2.1 = utf16 "inquiry") && s.2.2.2) := by
    intro r
    unfold inquiryChecked formSnapshot
    rw [any_map_eq]
    rfl
  rw [key p, key q, h]

theorem getElem?_snapshot_congr {p q : Page} (h : formSnapshot p = formSnapshot q) (i : Nat) :
    (p.controls[i]?).map Control.snapshot = (q.controls[i]?).map Control.snapshot := by
  have := congrArg (fun l => l[i]?) h
  simpa [formSnapshot, List.getElem?_map] using this

theorem validateField_snd_congr {p q : Page} (h : formSnapshot p = formSnapshot q) (i : Nat) :
    (validateField p i).2 = (validateField q i).2 := by
  have hi := getElem?_snapshot_congr h i
  have hc := inquiryChecked_congr h
  unfold validateField
  cases hp : p.controls[i]? with
  | none =>
    cases hq : q.controls[i]? with
    | none => rfl
    | some c => simp [hp, hq] at hi
  | some c =>
    cases hq : q.controls[i]? with
    | none => simp [hp, hq] at hi
    | some d =>
      simp only [hp, hq, Option.map_some', Option.some.injEq, Control.snapshot,
        Prod.mk.injEq] at hi
      obtain ⟨_, hname, hvalue, _⟩ := hi
      simp only [hname, hvalue, hc]
      cases validationRules d.name with
      | none => rfl
      | some rules =>
        simp only []
        split <;> rfl

theorem validateFormStep_fold (p : Page) (l : List JSString) (q : Page) (b : Bool)
    (hq : formSnapshot q = formSnapshot p) :
    formSnapshot (l.foldl validateFormStep (q, b)).1 = formSnapshot p ∧
    ((l.foldl validateFormStep (q, b)).2 = true ↔
      b = true ∧ ∀ n ∈ l, ∀ i, querySelectorName p n = some i → (validateField p i).2 = true) := by
  induction l generalizing q b with
  | nil => simp [hq]
  | cons n l ih =>
    rw [List.foldl_cons]
    have hsel : querySelectorName q n = querySelectorName p n := querySelectorName_congr hq n
    unfold validateFormStep
    rw [hsel]
    cases hn : querySelectorName p n with
    | none =>
      simp only []
      obtain ⟨h1, h2⟩ := ih q b hq
      refine ⟨h1, h2.trans ?_⟩
      simp [hn]
    | some i =>
      simp only []
      have hs : formSnapshot (validateField q i).1 = formSnapshot p :=
        (formSnapshot_validateField q i).trans hq
      have hv : (validateField q i).2 = (validateField p i).2 := validateField_snd_congr hq i
      obtain ⟨h1, h2⟩ := ih (validateField q i).1
        (if !(validateField q i).2 then false else b) hs
      refine ⟨h1, h2.trans ?_⟩
      rw [hv]
      cases hvp : (validateField p i).2
      · simp only [Bool.not_false, if_true, Bool.false_eq_true, false_and, false_iff,
          not_and, not_forall]
        intro _
        exact ⟨n, List.mem_cons_self _ _, i, hn, by simp [hvp]⟩
      · simp only [Bool.not_true, Bool.false_eq_true, if_false, List.mem_cons, forall_eq_or_imp,
          hn, Option.some.injEq, forall_eq', hvp, true_and]

theorem validateForm_valid_iff (p : Page) :
    (validateForm p).2 = true ↔
      ∀ n ∈ ruleNames, ∀ i, querySelectorName p n = some i → (validateField p i).2 = true := by
  unfold validateForm
  have h := (validateFormStep_fold p ruleNames (clearAllErrors p) true
    (formSnapshot_clearAllErrors p)).2
  simpa using h

/-- C4: `validateForm` returns true exactly when `validateField` returns true
on the snapshot for the field of every rule-bearing name (firstName, lastName,
email, inquiry, message); on the specification's example snapshot it returns
true. -/
theorem validateForm_iff_all_fields (p : Page) :
    ((validateForm p).2 = true ↔
      ∀ n ∈ ruleNames, ∀ i, querySelectorName p n = some i → (validateField p i).2 = true) ∧
    (validateForm validPage).2 = true :=
  ⟨validateForm_valid_iff p, by decide⟩

/-! ## What one call of `validateField` displays -/

theorem errorId_injective {a b : JSString} (h : errorId a = errorId b) : a = b :=
  List.append_cancel_right h

theorem flagged_showFieldError_ne (p : Page) (i j : Nat) (m : JSString) (hne : j ≠ i) :
    flagged (showFieldError p i m) j = flagged p j := by
  unfold showFieldError
  split
  · rfl
  · simp [flagged, getElem?_modifyAt, hne]

theorem flagged_clearFieldError (p : Page) (i j : Nat) :
    flagged (clearFieldError p i) j = if j = i then false else flagged p j := by
  unfold clearFieldError
  split
  · next h =>
    by_cases hj : j = i
    · subst hj
      simp [flagged, h]
    · simp [hj]
  · next field h =>
    by_cases hj : j = i
    · subst hj
      simp [flagged, getElem?_modifyAt, h]
    · simp [flagged, getElem?_modifyAt, hj]

theorem hasErrorElement_modifyById (els : List Element) (id : JSString) (f : Element → Element)
    (hf : ∀ e, (f e).id = e.id) (n : JSString) :
    (getElementById (errorId n) (modifyById id f els)).isSome
      = (getElementById (errorId n) els).isSome := by
  by_cases h : errorId n = id
  · subst h
    rw [getElementById_modifyById_same _ _ hf]
    cases getElementById (errorId n) els <;> rfl
  · rw [getElementById_modifyById_ne _ _ h _ hf]

theorem hasErrorElement_showFieldError (p : Page) (i : Nat) (m n : JSString) :
    hasErrorElement (showFieldError p i m) n = hasErrorElement p n := by
  unfold showFieldError hasErrorElement
  split
  · rfl
  · exact hasErrorElement_modifyById _ _ _ (by intro _; rfl) n

theorem hasErrorElement_clearFieldError (p : Page) (i : Nat) (n : JSString) :
    hasErrorElement (clearFieldError p i) n = hasErrorElement p n := by
  unfold clearFieldError hasErrorElement
  split
  · rfl
  · exact hasErrorElement_modifyById _ _ _ (by intro _; rfl) n

theorem displayedError_showFieldError (p : Page) (i : Nat) (m : JSString) (field : Control)
    (hf : p.controls[i]? = some field) :
    displayedError (showFieldError p i m) field.name
      = if hasErrorElement p field.name = true then some m else none := by
  by_cases he : hasErrorElement p field.name = true
  · rw [showFieldError_displayed p i m field hf he, if_pos he]
  · rw [if_neg he]
    have h2 : hasErrorElement (showFieldError p i m) field.name = false := by
      rw [hasErrorElement_showFieldError]
      simpa using he
    unfold hasErrorElement at h2
    unfold displayedError
    cases hg : getElementById (errorId field.name) (showFieldError p i m).elements with
    | none => rfl
    | some e => simp [hg] at h2

theorem displayedError_showFieldError_ne (p : Page) (i : Nat) (m n : JSString) (field : Control)
    (hf : p.controls[i]? = some field) (hne : n ≠ field.name) :
    displayedError (showFieldError p i m) n = displayedError p n := by
  simp only [displayedError, showFieldError, hf]
  rw [getElementById_modifyById_ne _ _ (fun h => hne (errorId_injective h)) _ (by intro _; rfl)]

theorem displayedError_clearFieldError (p : Page) (i : Nat) (field : Control)
    (hf : p.controls[i]? = some field) :
    displayedError (clearFieldError p i) field.name = none := by
  simp only [displayedError, clearFieldError, hf]
  rw [getElementById_modifyById_same _ _ (by intro _; rfl)]
  cases getElementById (errorId field.name) p.elements with
  | none => rfl
  | some e => simp [Element.hidden, mem_classAdd]

theorem displayedError_clearFieldError_ne (p : Page) (i : Nat) (n : JSString) (field : Control)
    (hf : p.controls[i]? = some field) (hne : n ≠ field.name) :
    displayedError (clearFieldError p i) n = displayedError p n := by
  simp only [displayedError, clearFieldError, hf]
  rw [getElementById_modifyById_ne _ _ (fun h => hne (errorId_injective h)) _ (by intro _; rfl)]

theorem requiredCheck_cases (rules : FieldRule) (t : JSString) (v : Verdict) :
    requiredCheck rules t v = v ∨
      requiredCheck rules t v = { isValid := false, errorMessage := rules.message } := by
  unfold requiredCheck
  split
  · exact Or.inr rfl
  · exact Or.inl rfl

theorem lengthCheck_cases (rules : FieldRule) (t : JSString) (v : Verdict) :
    lengthCheck rules t v = v ∨
      lengthCheck rules t v = { isValid := false, errorMessage := rules.message } := by
  unfold lengthCheck
  split
  · simp only []
    split
    · exact Or.inr rfl
    · split
      · exact Or.inr rfl
      · exact Or.inl rfl
  · exact Or.inl rfl

theorem patternCheck_cases (rules : FieldRule) (t : JSString) (v : Verdict) :
    patternCheck rules t v = v ∨
      patternCheck rules t v = { isValid := false, errorMessage := rules.message } := by
  unfold patternCheck
  split
  · split
    · split
      · exact Or.inr rfl
      · exact Or.inl rfl
    · exact Or.inl rfl
  · exact Or.inl rfl

theorem inquiryCheck_cases (rules : FieldRule) (n : JSString) (c : Bool) (v : Verdict) :
    inquiryCheck rules n c v = v ∨
      inquiryCheck rules n c v = { isValid := false, errorMessage := rules.message } := by
  unfold inquiryCheck
  split
  · exact Or.inr rfl
  · exact Or.inl rfl

theorem checkField_message (rules : FieldRule) (n value : JSString) (c : Bool)
    (h : (checkField rules n value c).isValid = false) :
    (checkField rules n value c).errorMessage = rules.message := by
  unfold checkField at h ⊢
  simp only [] at h ⊢
  rcases inquiryCheck_cases rules n c (patternCheck rules (trim value)
    (lengthCheck rules (trim value) (requiredCheck rules (trim value)
      { isValid := true, errorMessage := [] }))) with h4 | h4
  · rw [h4] at h ⊢
    rcases patternCheck_cases rules (trim value) (lengthCheck rules (trim value)
      (requiredCheck rules (trim value) { isValid := true, errorMessage := [] })) with h3 | h3
    · rw [h3] at h ⊢
      rcases lengthCheck_cases rules (trim value)
        (requiredCheck rules (trim value) { isValid := true, errorMessage := [] }) with h2 | h2
      · rw [h2] at h ⊢
        rcases requiredCheck_cases rules (trim value)
          { isValid := true, errorMessage := [] } with h1 | h1
        · rw [h1] at h
          cases h
        · rw [h1]
      · rw [h2]
    · rw [h3]
  · rw [h4]

theorem validateField_eq (p : Page) (i : Nat) (field : Control) (rules : FieldRule)
    (hf : p.controls[i]? = some field) (hr : validationRules field.name = some rules) :
    validateField p i =
      if (validateField p i).2 = true then (clearFieldError p i, true)
      else (showFieldError p i rules.message, false) := by
  have hv : validateField p i =
      if (checkField rules field.name field.value (inquiryChecked p)).isValid = true then
        (clearFieldError p i, true)
      else (showFieldError p i
        (checkField rules field.name field.value (inquiryChecked p)).errorMessage, false) := by
    simp only [validateField, hf, hr]
    cases (checkField rules field.name field.value (inquiryChecked p)).isValid <;> rfl
  cases hc : (checkField rules field.name field.value (inquiryChecked p)).isValid with
  | true =>
    rw [hc] at hv
    rw [hv]
    rfl
  | false =>
    have hm := checkField_message rules _ _ _ hc
    rw [hc, hm] at hv
    rw [hv]
    rfl

theorem flagged_validateField (p : Page) (i : Nat) (field : Control) (rules : FieldRule)
    (hf : p.controls[i]? = some field) (hr : validationRules field.name = some rules) :
    flagged (validateField p i).1 i = !(validateField p i).2 := by
  have h := validateField_eq p i field rules hf hr
  cases hv : (validateField p i).2 with
  | true =>
    rw [hv] at h
    rw [h]
    simp [flagged_clearFieldError]
  | false =>
    rw [hv] at h
    rw [h]
    simpa using showFieldError_flagged p i _ field hf

theorem flagged_validateField_ne (p : Page) (i j : Nat) (hne : j ≠ i) :
    flagged (validateField p i).1 j = flagged p j := by
  unfold validateField
  split
  · rfl
  · split
    · rfl
    · simp only []
      split
      · exact flagged_showFieldError_ne p i j _ hne
      · simp [flagged_clearFieldError, hne]

theorem displayedError_validateField (p : Page) (i : Nat) (field : Control) (rules : FieldRule)
    (hf : p.controls[i]? = some field) (hr : validationRules field.name = some rules) :
    displayedError (validateField p i).1 field.name =
      if (validateField p i).2 = true then none
      else if hasErrorElement p field.name = true then some rules.message else none := by
  have h := validateField_eq p i field rules hf hr
  cases hv : (validateField p i).2 with
  | true =>
    rw [hv] at h
    rw [h]
    simpa using displayedError_clearFieldError p i field hf
  | false =>
    rw [hv] at h
    rw [h]
    simpa using displayedError_showFieldError p i _ field hf

theorem displayedError_validateField_ne (p : Page) (i : Nat) (n : JSString) (field : Control)
    (hf : p.controls[i]? = some field) (hne : n ≠ field.name) :
    displayedError (validateField p i).1 n = displayedError p n := by
  simp only [validateField, hf]
  split
  · rfl
  · split
    · exact displayedError_showFieldError_ne p i _ n field hf hne
    · exact displayedError_clearFieldError_ne p i n field hf hne

theorem hasErrorElement_validateField (p : Page) (i : Nat) (n : JSString) :
    hasErrorElement (validateField p i).1 n = hasErrorElement p n := by
  unfold validateField
  split
  · rfl
  · split
    · rfl
    · simp only []
      split
      · exact hasErrorElement_showFieldError p i _ n
      · exact hasErrorElement_clearFieldError p i n

/-! ## What `validateForm` displays -/

theorem querySelectorName_some (p : Page) (n : JSString) (i : Nat)
    (h : querySelectorName p n = some i) :
    ∃ field, p.controls[i]? = some field ∧ field.name = n := by
  obtain ⟨a, ha, hq⟩ := findFirst_some _ _ _ h
  exact ⟨a, ha, by simpa using hq⟩

theorem flagged_foldl_clearFieldError (l : List Nat) (p : Page) (j : Nat) :
    flagged (l.foldl clearFieldError p) j = if j ∈ l then false else flagged p j := by
  induction l generalizing p with
  | nil => simp
  | cons i l ih =>
    rw [List.foldl_cons, ih, flagged_clearFieldError]
    by_cases h1 : j ∈ l
    · simp [h1]
    · by_cases h2 : j = i
      · simp [h2]
      · simp [h1, h2]

theorem flagged_clearAllErrors (p : Page) (j : Nat) : flagged (clearAllErrors p) j = false := by
  unfold clearAllErrors
  rw [flagged_foldl_clearFieldError]
  split
  · rfl
  · next h =>
    have hj : p.controls.length ≤ j := by simpa using h
    simp [flagged, List.getElem?_eq_none hj]

theorem validateFormStep_display (p : Page) (l : List JSString) (hnd : l.Nodup) (q : Page)
    (b : Bool) (hq : formSnapshot q = formSnapshot p)
    (he : ∀ n, hasErrorElement q n = hasErrorElement p n) :
    (∀ n ∈ l, ∀ i rules, querySelectorName p n = some i → validationRules n = some rules →
      flagged (l.foldl validateFormStep (q, b)).1 i = !(validateField p i).2 ∧
      displayedError (l.foldl validateFormStep (q, b)).1 n =
        if (validateField p i).2 = true then none
        else if hasErrorElement p n = true then some rules.message else none) ∧
    (∀ j, (∀ n ∈ l, querySelectorName p n ≠ some j) →
      flagged (l.foldl validateFormStep (q, b)).1 j = flagged q j) ∧
    (∀ n, n ∉ l → displayedError (l.foldl validateFormStep (q, b)).1 n = displayedError q n) := by
  induction l generalizing q b with
  | nil => simp
  | cons n l ih =>
    rw [List.foldl_cons]
    have hnl : n ∉ l := (List.nodup_cons.mp hnd).1
    have hndl : l.Nodup := (List.nodup_cons.mp hnd).2
    have hsel : querySelectorName q n = querySelectorName p n := querySelectorName_congr hq n
    cases hn : querySelectorName p n with
    | none =>
      have hstep : validateFormStep (q, b) n = (q, b) := by
        simp [validateFormStep, hsel, hn]
      rw [hstep]
      obtain ⟨hB, hC, hD⟩ := ih hndl q b hq he
      refine ⟨?_, ?_, ?_⟩
      · intro n2 hn2 i rules hi hr
        rcases List.mem_cons.mp hn2 with h | h
        · subst h
          rw [hn] at hi
          cases hi
        · exact hB n2 h i rules hi hr
      · intro j hj
        exact hC j (fun m hm => hj m (List.mem_cons_of_mem _ hm))
      · intro n2 hn2
        exact hD n2 (fun h => hn2 (List.mem_cons_of_mem _ h))
    | some i =>
      have hstep : validateFormStep (q, b) n
          = ((validateField q i).1, if !(validateField q i).2 then false else b) := by
        simp [validateFormStep, hsel, hn]
      rw [hstep]
      have hq1 : formSnapshot (validateField q i).1 = formSnapshot p :=
        (formSnapshot_validateField q i).trans hq
      have he1 : ∀ m, hasErrorElement (validateField q i).1 m = hasErrorElement p m :=
        fun m => (hasErrorElement_validateField q i m).trans (he m)
      have hv : (validateField q i).2 = (validateField p i).2 := validateField_snd_congr hq i
      obtain ⟨field, hfield, hname⟩ := querySelectorName_some q n i (hsel.trans hn)
      obtain ⟨hB, hC, hD⟩ := ih hndl (validateField q i).1
        (if !(validateField q i).2 then false else b) hq1 he1
      have hother : ∀ m ∈ l, querySelectorName p m ≠ some i := by
        intro m hm hmi
        obtain ⟨f2, hf2, hname2⟩ := querySelectorName_some q m i
          ((querySelectorName_congr hq m).trans hmi)
        rw [hfield] at hf2
        cases hf2
        exact hnl (hname ▸ hname2 ▸ hm)
      refine ⟨?_, ?_, ?_⟩
      · intro n2 hn2 i2 rules hi hr
        rcases List.mem_cons.mp hn2 with h | h
        · subst h
          rw [hn] at hi
          cases hi
          have hr2 : validationRules field.name = some rules := by rw [hname]; exact hr
          refine ⟨?_, ?_⟩
          · rw [hC i hother, flagged_validateField q i field rules hfield hr2, hv]
          · rw [hD n2 hnl, ← hname, displayedError_validateField q i field rules hfield hr2,
              hv, he]
        · exact hB n2 h i2 rules hi hr
      · intro j hj
        have hji : j ≠ i := by
          intro h
          exact hj n (List.mem_cons_self _ _) (h ▸ hn)
        rw [hC j (fun m hm => hj m (List.mem_cons_of_mem _ hm)),
          flagged_validateField_ne q i j hji]
      · intro n2 hn2
        have hne : n2 ≠ field.name := by
          intro h
          exact hn2 (h ▸ hname ▸ List.mem_cons_self _ _)
        rw [hD n2 (fun h => hn2 (List.mem_cons_of_mem _ h)),
          displayedError_validateField_ne q i n2 field hfield hne]

theorem hasErrorElement_foldl_clearFieldError (l : List Nat) (p : Page) (n : JSString) :
    hasErrorElement (l.foldl clearFieldError p) n = hasErrorElement p n := by
  induction l generalizing p with
  | nil => rfl
  | cons i l ih => rw [List.foldl_cons, ih, hasErrorElement_clearFieldError]

theorem getElementById_map (id : JSString) (g : Element → Element)
    (hg : ∀ e, (g e).id = e.id) (els : List Element) :
    getElementById id (els.map g) = (getElementById id els).map g := by
  induction els with
  | nil => rfl
  | cons e l ih =>
    unfold getElementById at ih ⊢
    by_cases h : e.id = id
    · simp [List.find?_cons, hg, h]
    · simp [List.find?_cons, hg, h, ih]

theorem hasErrorElement_clearAllErrors (p : Page) (n : JSString) :
    hasErrorElement (clearAllErrors p) n = hasErrorElement p n := by
  unfold clearAllErrors
  rw [hasErrorElement_foldl_clearFieldError]
  unfold hasErrorElement
  simp only []
  rw [getElementById_map]
  · cases getElementById (errorId n) p.elements <;> rfl
  · intro e
    split <;> rfl

theorem validateForm_flagged_iff (p : Page) (j : Nat) :
    flagged (validateForm p).1 j = true ↔
      ∃ n ∈ ruleNames, querySelectorName p n = some j ∧ (validateField p j).2 = false := by
  obtain ⟨hB, hC, _⟩ := validateFormStep_display p ruleNames (by decide) (clearAllErrors p) true
    (formSnapshot_clearAllErrors p) (hasErrorElement_clearAllErrors p)
  unfold validateForm
  constructor
  · intro h
    by_contra hcon
    have hnone : ∀ n ∈ ruleNames, querySelectorName p n ≠ some j := by
      intro n hn hsel
      obtain ⟨rules, hr, _⟩ := validationRules_of_mem hn
      have := (hB n hn j rules hsel hr).1
      rw [h] at this
      apply hcon
      refine ⟨n, hn, hsel, ?_⟩
      cases hv : (validateField p j).2
      · rfl
      · rw [hv] at this
        cases this
    rw [hC j hnone, flagged_clearAllErrors] at h
    cases h
  · rintro ⟨n, hn, hsel, hv⟩
    obtain ⟨rules, hr, _⟩ := validationRules_of_mem hn
    rw [(hB n hn j rules hsel hr).1, hv]
    rfl

theorem validateForm_displayedError (p : Page) (n : JSString) (hn : n ∈ ruleNames) (i : Nat)
    (rules : FieldRule) (hsel : querySelectorName p n = some i)
    (hr : validationRules n = some rules) :
    displayedError (validateForm p).1 n =
      if (validateField p i).2 = true then none
      else if hasErrorElement p n = true then some rules.message else none := by
  obtain ⟨hB, _, _⟩ := validateFormStep_display p ruleNames (by decide) (clearAllErrors p) true
    (formSnapshot_clearAllErrors p) (hasErrorElement_clearAllErrors p)
  exact (hB n hn i rules hsel hr).2

/-- C5: `validateForm` does not stop at the first invalid field. After it has
run, a control is flagged `aria-invalid` exactly when it is the field of a
rule-bearing name that is invalid on the snapshot, and the error container of
each rule-bearing field displays the field's message when the field is invalid
(and the page has the container) and nothing when it is valid. So every
invalid field shows its error at once, and when the form is valid no control is
flagged and no container of a rule-bearing field displays anything, whatever
was displayed before. -/
theorem validateForm_displays_all (p : Page) :
    (∀ j, flagged (validateForm p).1 j = true ↔
      ∃ n ∈ ruleNames, querySelectorName p n = some j ∧ (validateField p j).2 = false) ∧
    (∀ n ∈ ruleNames, ∀ i rules, querySelectorName p n = some i →
      validationRules n = some rules →
      displayedError (validateForm p).1 n =
        if (validateField p i).2 = true then none
        else if hasErrorElement p n = true then some rules.message else none) ∧
    ((validateForm p).2 = true →
      (∀ j, flagged (validateForm p).1 j = false) ∧
      ∀ n ∈ ruleNames, ∀ i, querySelectorName p n = some i →
        displayedError (validateForm p).1 n = none) := by
  refine ⟨validateForm_flagged_iff p,
    fun n hn i rules hsel hr => validateForm_displayedError p n hn i rules hsel hr, ?_⟩
  intro hvalid
  have hall := (validateForm_valid_iff p).mp hvalid
  refine ⟨?_, ?_⟩
  · intro j
    cases hf : flagged (validateForm p).1 j
    · rfl
    · obtain ⟨n, hn, hsel, hv⟩ := (validateForm_flagged_iff p j).mp hf
      rw [hall n hn j hsel] at hv
      cases hv
  · intro n hn i hsel
    obtain ⟨rules, hr, _⟩ := validationRules_of_mem hn
    rw [validateForm_displayedError p n hn i rules hsel hr, hall n hn i hsel]
    rfl

/-- C5 on a page with a one-letter first name, a malformed email address and a
short message: all three fields are flagged and show their messages at once,
the valid last name shows none. -/
theorem validateForm_displays_all_witness :
    flagged (validateForm (samplePage (utf16 "A") (utf16 "Lee") (utf16 "a@b")
      (utf16 "Hi") true)).1 0 = true ∧
    flagged (validateForm (samplePage (utf16 "A") (utf16 "Lee") (utf16 "a@b")
      (utf16 "Hi") true)).1 2 = true ∧
    flagged (validateForm (samplePage (utf16 "A") (utf16 "Lee") (utf16 "a@b")
      (utf16 "Hi") true)).1 5 = true ∧
    displayedError (validateForm (samplePage (utf16 "A") (utf16 "Lee") (utf16 "a@b")
      (utf16 "Hi") true)).1 (utf16 "lastName") = none :=
  ⟨((validateForm_displays_all _).1 0).mpr ⟨utf16 "firstName", by decide, by decide, by decide⟩,
   ((validateForm_displays_all _).1 2).mpr ⟨utf16 "email", by decide, by decide, by decide⟩,
   ((validateForm_displays_all _).1 5).mpr ⟨utf16 "message", by decide, by decide, by decide⟩,
   ((validateForm_displays_all _).2.1 (utf16 "lastName") (by decide) 1 lastNameRule
      (by decide) rfl).trans (by decide)⟩

/-! ## The rate limit -/

theorem decimalDigits_spec (fuel n : Nat) (h : n < fuel) :
    (∀ d ∈ decimalDigits fuel n, 48 ≤ d ∧ d ≤ 57) ∧ decimalDigits fuel n ≠ [] ∧
    ((decimalDigits fuel n).map (fun d => d - 48)).foldl (fun acc d => acc * 10 + d) 0 = n := by
  induction fuel generalizing n with
  | zero => omega
  | succ fuel ih =>
    unfold decimalDigits
    by_cases hn : n < 10
    · simp only [hn, if_true]
      refine ⟨?_, by simp, ?_⟩
      · intro d hd
        simp only [List.mem_singleton] at hd
        omega
      · simp
    · simp only [hn, if_false]
      obtain ⟨h1, _, h3⟩ := ih (n / 10) (by omega)
      refine ⟨?_, by simp, ?_⟩
      · intro d hd
        rcases List.mem_append.mp hd with hd | hd
        · exact h1 d hd
        · simp only [List.mem_singleton] at hd
          omega
      · rw [List.map_append, List.foldl_append, h3]
        simp only [List.map_cons, List.map_nil, List.foldl_cons, List.foldl_nil]
        omega

theorem digitPrefix_digits (s : JSString) (h : ∀ d ∈ s, 48 ≤ d ∧ d ≤ 57) :
    digitPrefix 10 s = s.map (fun d => d - 48) := by
  induction s with
  | nil => rfl
  | cons c r ih =>
    have hc := h c (List.mem_cons_self _ _)
    have hv : digitValue 10 c = some (c - 48) := by
      unfold digitValue
      have : c - 48 < 10 := by omega
      simp [hc.1, hc.2, this]
    simp only [digitPrefix, hv, List.map_cons]
    rw [ih (fun d hd => h d (List.mem_cons_of_mem _ hd))]

theorem not_isWhiteSpace_digit (c : Nat) (h : 48 ≤ c ∧ c ≤ 57) : isWhiteSpace c = false := by
  unfold isWhiteSpace
  have h1 : c ≠ 9 := by omega
  have h2 : c ≠ 10 := by omega
  have h3 : c ≠ 11 := by omega
  have h4 : c ≠ 12 := by omega
  have h5 : c ≠ 13 := by omega
  have h6 : c ≠ 32 := by omega
  have h7 : c ≠ 160 := by omega
  have h8 : c ≠ 5760 := by omega
  have h9 : ¬ (8192 ≤ c) := by omega
  have h10 : c ≠ 8232 := by omega
  have h11 : c ≠ 8233 := by omega
  have h12 : c ≠ 8239 := by omega
  have h13 : c ≠ 8287 := by omega
  have h14 : c ≠ 12288 := by omega
  have h15 : c ≠ 65279 := by omega
  simp [h1, h2, h3, h4, h5, h6, h7, h8, h9, h10, h11, h12, h13, h14, h15]

theorem stripSign_digits (s : JSString) (h : ∀ d ∈ s, 48 ≤ d ∧ d ≤ 57) :
    stripSign s = (false, s) := by
  unfold stripSign
  split
  · have := h 45 (List.mem_cons_self _ _)
    omega
  · have := h 43 (List.mem_cons_self _ _)
    omega
  · rfl

theorem stripRadix_digits (s : JSString) (h : ∀ d ∈ s, 48 ≤ d ∧ d ≤ 57) :
    stripRadix s = (10, s) := by
  unfold stripRadix
  split
  · have := h 120 (List.mem_cons_of_mem _ (List.mem_cons_self _ _))
    omega
  · have := h 88 (List.mem_cons_of_mem _ (List.mem_cons_self _ _))
    omega
  · rfl

theorem parseInt_numberToString (n : Nat) : parseInt (numberToString n) = some (n : Int) := by
  obtain ⟨h1, h2, h3⟩ := decimalDigits_spec (n + 1) n (Nat.lt_succ_self n)
  unfold numberToString
  have hdrop : (decimalDigits (n + 1) n).dropWhile isWhiteSpace = decimalDigits (n + 1) n := by
    cases hd : decimalDigits (n + 1) n with
    | nil => exact absurd hd h2
    | cons c r =>
      have hc := h1 c (by rw [hd]; exact List.mem_cons_self _ _)
      simp [List.dropWhile, not_isWhiteSpace_digit c hc]
  unfold parseInt
  simp only [hdrop, stripSign_digits _ h1, stripRadix_digits _ h1, digitPrefix_digits _ h1]
  cases hm : (decimalDigits (n + 1) n).map (fun d => d - 48) with
  | nil =>
    rw [List.map_eq_nil_iff] at hm
    exact absurd hm h2
  | cons a l =>
    rw [hm] at h3
    simp only [Bool.false_eq_true, if_false]
    rw [h3]

theorem truthy_numberToString (n : Nat) : truthy (numberToString n) = true := by
  obtain ⟨_, h2, _⟩ := decimalDigits_spec (n + 1) n (Nat.lt_succ_self n)
  exact truthy_of_ne_nil h2

theorem ceilDiv1000_eq (x : Int) : ceilDiv1000 x = ⌈(x : ℚ) / 1000⌉ := by
  unfold ceilDiv1000
  have h := Rat.floor_intCast_div_natCast (-x) 1000
  have h2 : ((-x : Int) : ℚ) / ((1000 : ℕ) : ℚ) = -((x : ℚ) / 1000) := by
    push_cast
    ring
  rw [h2, Int.floor_neg] at h
  have h3 : ((1000 : ℕ) : Int) = 1000 := rfl
  rw [h3] at h
  omega

theorem remainingSeconds_record (p : Page) (now t : Nat)
    (h : p.sessionStorage = some (numberToString t)) :
    remainingSeconds p now =
      if (now : Int) - t < 60000 then some (ceilDiv1000 (60000 - ((now : Int) - t))) else none := by
  unfold remainingSeconds
  simp only [h, truthy_numberToString, if_true, parseInt_numberToString, RATE_LIMIT_DURATION]

/-- C6: with the stored record being the text of a time `t` (or absent),
`checkRateLimit` at time `now` returns false exactly when a record is present
and `now - t < 60000`; the number of seconds it then reports is
`ceil((60000 - (now - t)) / 1000)`; and in every case the stored record is left
as it was. -/
theorem checkRateLimit_spec (p : Page) (now : Nat) (record : Option Nat)
    (hrec : p.sessionStorage = record.map numberToString) :
    ((checkRateLimit p now).2 = false ↔ ∃ t, record = some t ∧ (now : Int) - t < 60000) ∧
    (∀ t, record = some t → (now : Int) - t < 60000 →
      remainingSeconds p now = some ⌈((60000 - ((now : Int) - t) : Int) : ℚ) / 1000⌉ ∧
      (checkRateLimit p now).1
        = showErrorMessage p (waitMessage ⌈((60000 - ((now : Int) - t) : Int) : ℚ) / 1000⌉)) ∧
    (checkRateLimit p now).1.sessionStorage = p.sessionStorage := by
  cases record with
  | none =>
    have hs : p.sessionStorage = none := hrec
    have hr : remainingSeconds p now = none := by simp [remainingSeconds, hs]
    simp [checkRateLimit, hr]
  | some t =>
    have hs : p.sessionStorage = some (numberToString t) := hrec
    have hr := remainingSeconds_record p now t hs
    by_cases hlt : (now : Int) - t < 60000
    · rw [if_pos hlt, ceilDiv1000_eq] at hr
      refine ⟨?_, ?_, ?_⟩
      · simp [checkRateLimit, hr, hlt]
      · intro t2 ht2 _
        cases ht2
        exact ⟨hr, by simp [checkRateLimit, hr]⟩
      · simp [checkRateLimit, hr, showErrorMessage]
    · rw [if_neg hlt] at hr
      refine ⟨?_, ?_, ?_⟩
      · simp [checkRateLimit, hr, hlt]
      · intro t2 ht2 hlt2
        cases ht2
        exact absurd hlt2 hlt
      · simp [checkRateLimit, hr]

/-- C6 at the sample page, 30 seconds after the recorded submission. -/
theorem checkRateLimit_spec_witness :
    ((checkRateLimit limitedPage 1700000030000).2 = false ↔
      ∃ t : Nat, some 1700000000000 = some t ∧ ((1700000030000 : Nat) : Int) - t < 60000) ∧
    (∀ t : Nat, some 1700000000000 = some t → ((1700000030000 : Nat) : Int) - t < 60000 →
      remainingSeconds limitedPage 1700000030000
        = some ⌈((60000 - (((1700000030000 : Nat) : Int) - t) : Int) : ℚ) / 1000⌉ ∧
      (checkRateLimit limitedPage 1700000030000).1
        = showErrorMessage limitedPage
            (waitMessage ⌈((60000 - (((1700000030000 : Nat) : Int) - t) : Int) : ℚ) / 1000⌉)) ∧
    (checkRateLimit limitedPage 1700000030000).1.sessionStorage = limitedPage.sessionStorage :=
  checkRateLimit_spec limitedPage 1700000030000 (some 1700000000000) rfl

/-! ## The submit handler -/

theorem bannerMessage_showErrorMessage (p : Page) (m : JSString) (e : Element)
    (he : getElementById (utf16 "form-error") p.elements = some e) (hs : e.span.isSome = true) :
    bannerMessage (showErrorMessage p m) = some m := by
  unfold bannerMessage showErrorMessage
  simp only []
  rw [getElementById_modifyById_ne _ _ (by decide) _ (by intro _; rfl),
    getElementById_modifyById_same _ _ (by intro _; rfl), he]
  obtain ⟨t, ht⟩ := Option.isSome_iff_exists.mp hs
  simp [Element.hidden, mem_classRemove, ht]

theorem errorId_ne_banner {n : JSString} (hn : n ∈ ruleNames) :
    errorId n ≠ utf16 "form-error" ∧ errorId n ≠ utf16 "form-success" := by
  simp only [ruleNames, List.mem_cons, List.mem_singleton, List.not_mem_nil, or_false] at hn
  rcases hn with h | h | h | h | h <;> subst h <;> decide

theorem waitMessage_text (N : Int) (h : 0 ≤ N) :
    waitMessage N = utf16 "Please wait " ++ numberToString N.toNat ++
      utf16 " seconds before submitting again." ∧
    parseInt (numberToString N.toNat) = some N := by
  refine ⟨?_, ?_⟩
  · have : ¬ N < 0 := by omega
    simp [waitMessage, intToString, this]
  · rw [parseInt_numberToString, Int.toNat_of_nonneg h]

/-- C7: a submit trigger that arrives while the handler is idle, at a time
`now` after a recorded submission at `t` with `now - t < 60000`, is refused by
the rate check: `handleFormSubmit` returns at once with the page on which
`showErrorMessage` has put 'Please wait N seconds before submitting again.',
where N is the number of seconds left, between 1 and 60, written in decimal
digits. No validation runs (controls and field errors are untouched) and no
network call is issued. -/
theorem handleFormSubmit_rate_limited (p : Page) (now t : Nat)
    (hidle : p.isSubmitting = false) (hrec : p.sessionStorage = some (numberToString t))
    (hafter : t ≤ now) (hwin : (now : Int) - t < 60000) :
    ∃ N : Int, remainingSeconds p now = some N ∧ 1 ≤ N ∧ N ≤ 60 ∧
      N = ⌈((60000 - ((now : Int) - t) : Int) : ℚ) / 1000⌉ ∧
      handleFormSubmit p now = (showErrorMessage p (waitMessage N), Completion.returned) ∧
      (handleFormSubmit p now).1.fetchCalls = p.fetchCalls ∧
      (handleFormSubmit p now).1.controls = p.controls ∧
      (handleFormSubmit p now).1.isSubmitting = false ∧
      (∀ n ∈ ruleNames, displayedError (handleFormSubmit p now).1 n = displayedError p n) ∧
      (∀ e, getElementById (utf16 "form-error") p.elements = some e → e.span.isSome = true →
        bannerMessage (handleFormSubmit p now).1 = some (waitMessage N)) ∧
      parseInt (numberToString N.toNat) = some N ∧
      (handleFormSubmit p now).1 =
        showErrorMessage p (utf16 "Please wait " ++ numberToString N.toNat ++
          utf16 " seconds before submitting again.") ∧
      (∀ e, getElementById (utf16 "form-error") p.elements = some e → e.span.isSome = true →
        bannerMessage (handleFormSubmit p now).1 =
          some (utf16 "Please wait " ++ numberToString N.toNat ++
            utf16 " seconds before submitting again.")) := by
  have hr := remainingSeconds_record p now t hrec
  rw [if_pos hwin] at hr
  have hN : 1 ≤ ceilDiv1000 (60000 - ((now : Int) - t)) ∧
      ceilDiv1000 (60000 - ((now : Int) - t)) ≤ 60 := by
    unfold ceilDiv1000
    omega
  have hh : handleFormSubmit p now
      = (showErrorMessage p (waitMessage (ceilDiv1000 (60000 - ((now : Int) - t)))),
          Completion.returned) := by
    simp [handleFormSubmit, hidle, checkRateLimit, hr]
  obtain ⟨htext, hback⟩ :=
    waitMessage_text (ceilDiv1000 (60000 - ((now : Int) - t))) (by omega)
  refine ⟨_, hr, hN.1, hN.2, ceilDiv1000_eq _, hh, ?_, ?_, ?_, ?_, ?_, hback, ?_, ?_⟩
  · rw [hh]
    rfl
  · rw [hh]
    rfl
  · rw [hh]
    exact hidle
  · intro n hn
    rw [hh]
    obtain ⟨h1, h2⟩ := errorId_ne_banner hn
    unfold displayedError showErrorMessage
    simp only []
    rw [getElementById_modifyById_ne _ _ h2 _ (by intro _; rfl),
      getElementById_modifyById_ne _ _ h1 _ (by intro _; rfl)]
  · intro e he hs
    rw [hh]
    exact bannerMessage_showErrorMessage p _ e he hs
  · rw [hh, htext]
  · intro e he hs
    rw [hh, ← htext]
    exact bannerMessage_showErrorMessage p _ e he hs

/-- C7 at the sample page, 30 seconds after the recorded submission: the banner
reads 'Please wait 30 seconds before submitting again.'. -/
theorem handleFormSubmit_rate_limited_witness :
    bannerMessage (handleFormSubmit limitedPage 1700000030000).1
      = some (utf16 "Please wait 30 seconds before submitting again.") ∧
    ∃ N : Int, remainingSeconds limitedPage 1700000030000 = some N ∧ 1 ≤ N ∧ N ≤ 60 ∧
      N = ⌈((60000 - (((1700000030000 : Nat) : Int) - (1700000000000 : Nat)) : Int) : ℚ) / 1000⌉ ∧
      handleFormSubmit limitedPage 1700000030000
        = (showErrorMessage limitedPage (waitMessage N), Completion.returned) ∧
      (handleFormSubmit limitedPage 1700000030000).1.fetchCalls = limitedPage.fetchCalls ∧
      (handleFormSubmit limitedPage 1700000030000).1.controls = limitedPage.controls ∧
      (handleFormSubmit limitedPage 1700000030000).1.isSubmitting = false ∧
      (∀ n ∈ ruleNames, displayedError (handleFormSubmit limitedPage 1700000030000).1 n
        = displayedError limitedPage n) ∧
      (∀ e, getElementById (utf16 "form-error") limitedPage.elements = some e →
        e.span.isSome = true →
        bannerMessage (handleFormSubmit limitedPage 1700000030000).1 = some (waitMessage N)) ∧
      parseInt (numberToString N.toNat) = some N ∧
      (handleFormSubmit limitedPage 1700000030000).1 =
        showErrorMessage limitedPage (utf16 "Please wait " ++ numberToString N.toNat ++
          utf16 " seconds before submitting again.") ∧
      (∀ e, getElementById (utf16 "form-error") limitedPage.elements = some e →
        e.span.isSome = true →
        bannerMessage (handleFormSubmit limitedPage 1700000030000).1 =
          some (utf16 "Please wait " ++ numberToString N.toNat ++
            utf16 " seconds before submitting again.")) :=
  ⟨by decide, handleFormSubmit_rate_limited limitedPage 1700000030000 1700000000000 rfl rfl
    (by decide) (by decide)⟩

theorem background_showFieldError (p : Page) (i : Nat) (m : JSString) :
    (showFieldError p i m).background = p.background := by
  unfold showFieldError
  split <;> rfl

theorem background_clearFieldError (p : Page) (i : Nat) :
    (clearFieldError p i).background = p.background := by
  unfold clearFieldError
  split <;> rfl

theorem background_validateField (p : Page) (i : Nat) :
    (validateField p i).1.background = p.background := by
  unfold validateField
  split
  · rfl
  · split
    · rfl
    · simp only []
      split
      · exact background_showFieldError p i _
      · exact background_clearFieldError p i

theorem background_clearAllErrors (p : Page) : (clearAllErrors p).background = p.background := by
  unfold clearAllErrors
  have key : ∀ (l : List Nat) (q : Page), (l.foldl clearFieldError q).background = q.background := by
    intro l
    induction l with
    | nil => intro q; rfl
    | cons i l ih =>
      intro q
      rw [List.foldl_cons, ih, background_clearFieldError]
  rw [key]
  rfl

theorem background_validateFormStep (acc : Page × Bool) (n : JSString) :
    (validateFormStep acc n).1.background = acc.1.background := by
  unfold validateFormStep
  split
  · exact background_validateField acc.1 _
  · rfl

theorem background_validateForm (p : Page) : (validateForm p).1.background = p.background := by
  unfold validateForm
  have key : ∀ (l : List JSString) (acc : Page × Bool),
      (l.foldl validateFormStep acc).1.background = acc.1.background := by
    intro l
    induction l with
    | nil => intro acc; rfl
    | cons n l ih =>
      intro acc
      rw [List.foldl_cons, ih, background_validateFormStep]
  rw [key]
  exact background_clearAllErrors p

theorem background_ext {p q : Page} (h : q.background = p.background) :
    q.submitButton = p.submitButton ∧ q.sessionStorage = p.sessionStorage ∧
    q.isSubmitting = p.isSubmitting ∧ q.fetchCalls = p.fetchCalls ∧ q.timers = p.timers := by
  simp only [Page.background, Prod.mk.injEq] at h
  exact ⟨h.1, h.2.2.1, h.2.2.2.1, h.2.2.2.2.1, h.2.2.2.2.2⟩

theorem checkRateLimit_true (p : Page) (now : Nat) (h : (checkRateLimit p now).2 = true) :
    checkRateLimit p now = (p, true) := by
  unfold checkRateLimit at h ⊢
  split
  · next n hn =>
    rw [hn] at h
    cases h
  · rfl

theorem handleFormSubmit_awaiting (p : Page) (now : Nat) (p1 : Page) (orig : JSString)
    (h : handleFormSubmit p now = (p1, Completion.awaiting orig)) :
    p.isSubmitting = false ∧ (checkRateLimit p now).2 = true ∧ (validateForm p).2 = true ∧
    (∃ b, p.submitButton = some b ∧ b.innerHTML = orig) ∧
    p1 = { (validateForm p).1 with
      isSubmitting := true,
      submitButton := some { disabled := true, innerHTML := sendingLabel },
      fetchCalls := p.fetchCalls ++ [sanitizedData (validateForm p).1.controls] } := by
  unfold handleFormSubmit at h
  cases hs : p.isSubmitting with
  | true => simp [hs] at h
  | false =>
    cases hr : (checkRateLimit p now).2 with
    | false => simp [hs, hr] at h
    | true =>
      have hr1 := checkRateLimit_true p now hr
      rw [hr1] at h
      cases hv : (validateForm p).2 with
      | false => simp [hs, hv] at h
      | true =>
        obtain ⟨hb, _, _, hf, _⟩ := background_ext (background_validateForm p)
        cases hbtn : (validateForm p).1.submitButton with
        | none => simp [hs, hv, hbtn] at h
        | some b =>
          simp only [hs, hv, hbtn, Bool.false_eq_true, if_false, Bool.not_true,
            Prod.mk.injEq, Completion.awaiting.injEq] at h
          refine ⟨rfl, rfl, rfl, ⟨b, hb ▸ hbtn, h.2⟩, ?_⟩
          rw [← h.1, hf]

/-- C8: a submit trigger that finds `isSubmitting` true is ignored: the page is
left exactly as it was (no message, no network call). So once a first trigger
has issued its network call and is waiting for it, any further trigger leaves
the count of network calls at one more than before the first. -/
theorem handleFormSubmit_ignored_while_submitting :
    (∀ p now, p.isSubmitting = true → handleFormSubmit p now = (p, Completion.returned)) ∧
    (∀ p now1 p1 orig, handleFormSubmit p now1 = (p1, Completion.awaiting orig) →
      p1.isSubmitting = true ∧ p1.fetchCalls.length = p.fetchCalls.length + 1 ∧
      ∀ now2, handleFormSubmit p1 now2 = (p1, Completion.returned) ∧
        (handleFormSubmit p1 now2).1.fetchCalls.length = p.fetchCalls.length + 1) := by
  have h1 : ∀ p now, p.isSubmitting = true → handleFormSubmit p now = (p, Completion.returned) := by
    intro p now h
    simp [handleFormSubmit, h]
  refine ⟨h1, ?_⟩
  intro p now1 p1 orig h
  obtain ⟨_, _, _, _, hp1⟩ := handleFormSubmit_awaiting p now1 p1 orig h
  have hsub : p1.isSubmitting = true := by rw [hp1]
  have hlen : p1.fetchCalls.length = p.fetchCalls.length + 1 := by
    rw [hp1]
    simp
  refine ⟨hsub, hlen, fun now2 => ?_⟩
  rw [h1 p1 now2 hsub]
  exact ⟨rfl, hlen⟩

/-- C8 on the sample page: the first trigger issues one network call, a second
trigger before it has settled issues none. -/
theorem handleFormSubmit_ignored_witness :
    (handleFormSubmit validPage 0).1.isSubmitting = true ∧
    (handleFormSubmit validPage 0).1.fetchCalls.length = validPage.fetchCalls.length + 1 ∧
    ∀ now2, handleFormSubmit (handleFormSubmit validPage 0).1 now2
        = ((handleFormSubmit validPage 0).1, Completion.returned) ∧
      (handleFormSubmit (handleFormSubmit validPage 0).1 now2).1.fetchCalls.length
        = validPage.fetchCalls.length + 1 :=
  handleFormSubmit_ignored_while_submitting.2 validPage 0 (handleFormSubmit validPage 0).1
    (utf16 "Send Message") (Prod.ext rfl (by decide))

/-! ## The form-level banner during validation -/

theorem validationRules_some_mem {n : JSString} {rules : FieldRule}
    (h : validationRules n = some rules) : n ∈ ruleNames := by
  unfold validationRules at h
  simp only [ruleNames, List.mem_cons, List.mem_singleton, List.not_mem_nil, or_false]
  by_cases h1 : n = utf16 "firstName"
  · exact Or.inl h1
  · by_cases h2 : n = utf16 "lastName"
    · exact Or.inr (Or.inl h2)
    · by_cases h3 : n = utf16 "email"
      · exact Or.inr (Or.inr (Or.inl h3))
      · by_cases h4 : n = utf16 "inquiry"
        · exact Or.inr (Or.inr (Or.inr (Or.inl h4)))
        · by_cases h5 : n = utf16 "message"
          · exact Or.inr (Or.inr (Or.inr (Or.inr h5)))
          · simp [h1, h2, h3, h4, h5] at h

theorem banner_clearFieldError (p : Page) (i : Nat) :
    bannerMessage (clearFieldError p i) = none ∨
      bannerMessage (clearFieldError p i) = bannerMessage p := by
  unfold clearFieldError
  split
  · exact Or.inr rfl
  · next field hf =>
    by_cases h : utf16 "form-error" = errorId field.name
    · left
      unfold bannerMessage
      simp only []
      rw [h, getElementById_modifyById_same _ _ (by intro _; rfl)]
      cases getElementById (errorId field.name) p.elements with
      | none => rfl
      | some e => simp [Element.hidden, mem_classAdd]
    · right
      unfold bannerMessage
      simp only []
      rw [getElementById_modifyById_ne _ _ h _ (by intro _; rfl)]

theorem banner_validateField (p : Page) (i : Nat) :
    bannerMessage (validateField p i).1 = none ∨
      bannerMessage (validateField p i).1 = bannerMessage p := by
  unfold validateField
  split
  · exact Or.inr rfl
  · next field hf =>
    split
    · exact Or.inr rfl
    · next rules hr =>
      simp only []
      split
      · right
        have hne := (errorId_ne_banner (validationRules_some_mem hr)).1
        simp only [bannerMessage, showFieldError, hf]
        rw [getElementById_modifyById_ne _ _ (Ne.symm hne) _ (by intro _; rfl)]
      · exact banner_clearFieldError p i

theorem banner_trans {a b c : Option JSString} (h1 : b = none ∨ b = a) (h2 : c = none ∨ c = b) :
    c = none ∨ c = a := by
  rcases h2 with h2 | h2
  · exact Or.inl h2
  · rcases h1 with h1 | h1
    · exact Or.inl (h2.trans h1)
    · exact Or.inr (h2.trans h1)

theorem banner_clearAllErrors (p : Page) :
    bannerMessage (clearAllErrors p) = none ∨
      bannerMessage (clearAllErrors p) = bannerMessage p := by
  unfold clearAllErrors
  have key : ∀ (l : List Nat) (q : Page), bannerMessage (l.foldl clearFieldError q) = none ∨
      bannerMessage (l.foldl clearFieldError q) = bannerMessage q := by
    intro l
    induction l with
    | nil => intro q; exact Or.inr rfl
    | cons i l ih =>
      intro q
      rw [List.foldl_cons]
      exact banner_trans (banner_clearFieldError q i) (ih _)
  refine banner_trans ?_ (key _ _)
  unfold bannerMessage
  simp only []
  rw [getElementById_map]
  · cases getElementById (utf16 "form-error") p.elements with
    | none => exact Or.inr rfl
    | some e =>
      simp only [Option.map_some']
      split
      · left
        simp [Element.hidden, mem_classAdd]
      · exact Or.inr rfl
  · intro e
    split <;> rfl

theorem banner_validateForm (p : Page) :
    bannerMessage (validateForm p).1 = none ∨
      bannerMessage (validateForm p).1 = bannerMessage p := by
  unfold validateForm
  have key : ∀ (l : List JSString) (acc : Page × Bool),
      bannerMessage (l.foldl validateFormStep acc).1 = none ∨
        bannerMessage (l.foldl validateFormStep acc).1 = bannerMessage acc.1 := by
    intro l
    induction l with
    | nil => intro acc; exact Or.inr rfl
    | cons n l ih =>
      intro acc
      rw [List.foldl_cons]
      refine banner_trans ?_ (ih _)
      unfold validateFormStep
      split
      · exact banner_validateField acc.1 _
      · exact Or.inr rfl
  exact banner_trans (banner_clearAllErrors p) (key _ _)

/-- C9, as the claim states it, fails: on `stalePage` the error banner shows the
connectivity message of an earlier failed attempt; the handler is idle, the
rate check passes and the first name is invalid. The trigger ends with no
network call and the first-name message shown, but a form-level error message
is on display at the end: the banner still reads 'Network error. ...'. -/
theorem stale_banner_stays_after_invalid_submit :
    stalePage.isSubmitting = false ∧
    (checkRateLimit stalePage 10).2 = true ∧
    querySelectorName stalePage (utf16 "firstName") = some 0 ∧
    (validateField stalePage 0).2 = false ∧
    (handleFormSubmit stalePage 10).2 = Completion.returned ∧
    (handleFormSubmit stalePage 10).1.fetchCalls = stalePage.fetchCalls ∧
    bannerMessage stalePage
      = some (utf16 "Network error. Please check your connection and try again.") ∧
    bannerMessage (handleFormSubmit stalePage 10).1
      = some (utf16 "Network error. Please check your connection and try again.") := by
  decide

/-- C9, amended: when the handler is idle, the rate check passes and some
rule-bearing field is invalid on the snapshot, `handleFormSubmit` returns after
`validateForm`: no network call is issued, `isSubmitting` stays false, every
invalid rule-bearing field is flagged and shows its message (when the page has
its error container), and the run itself shows no form-level message: the
error banner is afterwards hidden or exactly as it was before the trigger, so
it is hidden when it was hidden before. -/
theorem handleFormSubmit_invalid (p : Page) (now : Nat) (hidle : p.isSubmitting = false)
    (hrate : (checkRateLimit p now).2 = true)
    (hinv : ∃ n ∈ ruleNames, ∃ i, querySelectorName p n = some i ∧
      (validateField p i).2 = false) :
    handleFormSubmit p now = ((validateForm p).1, Completion.returned) ∧
    (handleFormSubmit p now).1.fetchCalls = p.fetchCalls ∧
    (handleFormSubmit p now).1.isSubmitting = false ∧
    (∀ n ∈ ruleNames, ∀ i rules, querySelectorName p n = some i →
      validationRules n = some rules → (validateField p i).2 = false →
      flagged (handleFormSubmit p now).1 i = true ∧
      (hasErrorElement p n = true →
        displayedError (handleFormSubmit p now).1 n = some rules.message)) ∧
    (bannerMessage (handleFormSubmit p now).1 = none ∨
      bannerMessage (handleFormSubmit p now).1 = bannerMessage p) ∧
    (bannerMessage p = none → bannerMessage (handleFormSubmit p now).1 = none) := by
  have hv : (validateForm p).2 = false := by
    cases h : (validateForm p).2
    · rfl
    · obtain ⟨n, hn, i, hsel, hi⟩ := hinv
      rw [(validateForm_valid_iff p).mp h n hn i hsel] at hi
      cases hi
  have hh : handleFormSubmit p now = ((validateForm p).1, Completion.returned) := by
    unfold handleFormSubmit
    rw [checkRateLimit_true p now hrate]
    simp [hidle, hv]
  obtain ⟨_, _, hsub, hf, _⟩ := background_ext (background_validateForm p)
  rw [hh]
  refine ⟨rfl, hf, hsub.trans hidle, ?_, banner_validateForm p, ?_⟩
  · intro n hn i rules hsel hr hi
    refine ⟨(validateForm_flagged_iff p i).mpr ⟨n, hn, hsel, hi⟩, ?_⟩
    intro he
    rw [validateForm_displayedError p n hn i rules hsel hr, hi, he]
    rfl
  · intro hnone
    rcases banner_validateForm p with h | h
    · exact h
    · exact h.trans hnone

/-- C9 amended, on the specification's second example, a first name of one
letter. -/
theorem handleFormSubmit_invalid_witness :
    handleFormSubmit (samplePage (utf16 "A") (utf16 "Lee") (utf16 "a@b.com")
        (utf16 "Hello there, testing.") true) 0
      = ((validateForm (samplePage (utf16 "A") (utf16 "Lee") (utf16 "a@b.com")
        (utf16 "Hello there, testing.") true)).1, Completion.returned) ∧
    displayedError (handleFormSubmit (samplePage (utf16 "A") (utf16 "Lee") (utf16 "a@b.com")
        (utf16 "Hello there, testing.") true) 0).1 (utf16 "firstName")
      = some (utf16 "Please enter a valid first name (2-50 characters, letters only)") := by
  have h := handleFormSubmit_invalid (samplePage (utf16 "A") (utf16 "Lee") (utf16 "a@b.com")
    (utf16 "Hello there, testing.") true) 0 rfl (by decide)
    ⟨utf16 "firstName", by decide, 0, by decide, by decide⟩
  exact ⟨h.1, (h.2.2.2.1 (utf16 "firstName") (by decide) 0 firstNameRule (by decide) rfl
    (by decide)).2 (by decide)⟩

/-! ## A successful submission -/

theorem updateMessageCounter_frame (p : Page) :
    (updateMessageCounter p).controls = p.controls ∧
    (updateMessageCounter p).background = p.background := by
  unfold updateMessageCounter
  split
  · exact ⟨rfl, rfl⟩
  · exact ⟨rfl, rfl⟩

theorem getElementById_updateMessageCounter (p : Page) (id : JSString)
    (h : id ≠ utf16 "message-count") :
    getElementById id (updateMessageCounter p).elements = getElementById id p.elements := by
  unfold updateMessageCounter
  split
  · simp only []
    rw [getElementById_modifyById_ne _ _ h _ (by intro _; rfl)]
  · rfl

theorem afterFetch_ok (p : Page) (body : ResponseBody) (now : Nat) :
    afterFetch p (FetchOutcome.response true body) now =
      updateMessageCounter (resetForm
        (showSuccessMessage { p with sessionStorage := some (numberToString now) } now)) := by
  cases body <;> rfl

theorem Control.reset_spec (c : Control) :
    (c.reset.kind = ControlKind.text ∨ c.reset.kind = ControlKind.textarea →
      c.reset.value = c.reset.defaultValue) ∧
    (c.reset.kind = ControlKind.radio ∨ c.reset.kind = ControlKind.checkbox →
      c.reset.checked = c.reset.defaultChecked) := by
  unfold Control.reset
  cases hk : c.kind <;> simp [hk]

/-- C10: when the network call of an accepted submission resolves to a 2xx
response, the rest of `handleFormSubmit`, run at time `now` on a page that
still has its submit button, stores the text of `now` as the rate-limit record
(which reads back as the number `now`), resets every control of the form,
displays the success notice (when the page has one) and leaves no error banner
on display, and ends with `isSubmitting` false and the submit button enabled
under the label it had when the submission was triggered. -/
theorem handleFormSubmit_success (p0 : Page) (now0 : Nat) (p1 : Page) (orig : JSString)
    (hstart : handleFormSubmit p0 now0 = (p1, Completion.awaiting orig))
    (p : Page) (hbutton : p.submitButton.isSome = true) (body : ResponseBody) (now : Nat) :
    p1.submitButton.isSome = true ∧
    (∃ b0, p0.submitButton = some b0 ∧
      (handleFormSubmitSettled p orig (FetchOutcome.response true body) now).submitButton
        = some { disabled := false, innerHTML := b0.innerHTML }) ∧
    (handleFormSubmitSettled p orig (FetchOutcome.response true body) now).sessionStorage
      = some (numberToString now) ∧
    parseInt (numberToString now) = some (now : Int) ∧
    (handleFormSubmitSettled p orig (FetchOutcome.response true body) now).controls
      = p.controls.map Control.reset ∧
    (∀ c ∈ (handleFormSubmitSettled p orig (FetchOutcome.response true body) now).controls,
      (c.kind = ControlKind.text ∨ c.kind = ControlKind.textarea → c.value = c.defaultValue) ∧
      (c.kind = ControlKind.radio ∨ c.kind = ControlKind.checkbox →
        c.checked = c.defaultChecked)) ∧
    ((getElementById (utf16 "form-success") p.elements).isSome = true →
      successShown (handleFormSubmitSettled p orig (FetchOutcome.response true body) now)
        = true) ∧
    bannerMessage (handleFormSubmitSettled p orig (FetchOutcome.response true body) now) = none ∧
    (handleFormSubmitSettled p orig (FetchOutcome.response true body) now).isSubmitting
      = false := by
  obtain ⟨_, _, _, ⟨b0, hb0, horig⟩, hp1⟩ := handleFormSubmit_awaiting p0 now0 p1 orig hstart
  obtain ⟨b, hb⟩ := Option.isSome_iff_exists.mp hbutton
  have hctl : (handleFormSubmitSettled p orig (FetchOutcome.response true body) now).controls
      = p.controls.map Control.reset := by
    unfold handleFormSubmitSettled
    simp only [afterFetch_ok]
    rw [(updateMessageCounter_frame _).1]
    rfl
  have hbg := (updateMessageCounter_frame (resetForm
    (showSuccessMessage { p with sessionStorage := some (numberToString now) } now))).2
  obtain ⟨hbtn, hsto, _, _, _⟩ := background_ext hbg
  have hels : ∀ id, id ≠ utf16 "message-count" →
      getElementById id
        (handleFormSubmitSettled p orig (FetchOutcome.response true body) now).elements
      = getElementById id
        (showSuccessMessage { p with sessionStorage := some (numberToString now) } now).elements := by
    intro id hid
    unfold handleFormSubmitSettled
    simp only [afterFetch_ok]
    rw [getElementById_updateMessageCounter _ id hid]
    rfl
  refine ⟨by rw [hp1]; rfl, ⟨b0, hb0, ?_⟩, ?_, parseInt_numberToString now, hctl, ?_, ?_, ?_, rfl⟩
  · unfold handleFormSubmitSettled
    simp only [afterFetch_ok]
    rw [hbtn]
    simp [resetForm, showSuccessMessage, hb, horig]
  · unfold handleFormSubmitSettled
    simp only [afterFetch_ok]
    rw [hsto]
    rfl
  · intro c hc
    rw [hctl] at hc
    obtain ⟨c0, _, rfl⟩ := List.mem_map.mp hc
    exact Control.reset_spec c0
  · intro hex
    obtain ⟨e, he⟩ := Option.isSome_iff_exists.mp hex
    unfold successShown
    rw [hels _ (by decide)]
    unfold showSuccessMessage
    simp only []
    rw [getElementById_modifyById_ne _ _ (by decide) _ (by intro _; rfl),
      getElementById_modifyById_same _ _ (by intro _; rfl), he]
    simp [Element.hidden, mem_classRemove]
  · unfold bannerMessage
    rw [hels _ (by decide)]
    unfold showSuccessMessage
    simp only []
    rw [getElementById_modifyById_same _ _ (by intro _; rfl)]
    cases getElementById (utf16 "form-error")
      (modifyById (utf16 "form-success")
        (fun e => { e with classList := classRemove e.classList [utf16 "hidden"] })
        p.elements) with
    | none => rfl
    | some e => simp [Element.hidden, mem_classAdd]

/-- C10 on the sample page: submitted at time 0, answered with a 2xx response
at time 1700000000000. -/
theorem handleFormSubmit_success_witness :
    (handleFormSubmitSettled (handleFormSubmit validPage 0).1 (utf16 "Send Message")
      (FetchOutcome.response true ResponseBody.null) 1700000000000).sessionStorage
      = some (numberToString 1700000000000) ∧
    successShown (handleFormSubmitSettled (handleFormSubmit validPage 0).1 (utf16 "Send Message")
      (FetchOutcome.response true ResponseBody.null) 1700000000000) = true ∧
    (handleFormSubmitSettled (handleFormSubmit validPage 0).1 (utf16 "Send Message")
      (FetchOutcome.response true ResponseBody.null) 1700000000000).isSubmitting = false := by
  have h := handleFormSubmit_success validPage 0 (handleFormSubmit validPage 0).1
    (utf16 "Send Message") (Prod.ext rfl (by decide)) (handleFormSubmit validPage 0).1
    (by decide) ResponseBody.null 1700000000000
  exact ⟨h.2.2.1, h.2.2.2.2.2.2.1 (by decide), h.2.2.2.2.2.2.2.2⟩

/-! ## Every way the handler ends -/

theorem handleFormSubmit_cases (p : Page) (now : Nat) (hidle : p.isSubmitting = false) :
    (handleFormSubmit p now = ((checkRateLimit p now).1, Completion.returned) ∧
      (checkRateLimit p now).2 = false) ∨
    (handleFormSubmit p now = ((validateForm p).1, Completion.returned) ∧
      (checkRateLimit p now).2 = true ∧ (validateForm p).2 = false) ∨
    (handleFormSubmit p now = ({ (validateForm p).1 with isSubmitting := true }, Completion.threw) ∧
      p.submitButton = none) ∨
    (∃ b, p.submitButton = some b ∧
      handleFormSubmit p now =
        ({ (validateForm p).1 with
            isSubmitting := true,
            submitButton := some { disabled := true, innerHTML := sendingLabel },
            fetchCalls := p.fetchCalls ++ [sanitizedData (validateForm p).1.controls] },
          Completion.awaiting b.innerHTML)) := by
  obtain ⟨hb, _, _, hf, _⟩ := background_ext (background_validateForm p)
  unfold handleFormSubmit
  cases hr : (checkRateLimit p now).2 with
  | false =>
    left
    simp [hidle, hr]
  | true =>
    right
    rw [checkRateLimit_true p now hr]
    cases hv : (validateForm p).2 with
    | false =>
      left
      simp [hidle, hv]
    | true =>
      right
      cases hbtn : p.submitButton with
      | none =>
        left
        have h2 : (validateForm p).1.submitButton = none := hb.trans hbtn
        simp [hidle, hv, h2]
      | some b =>
        right
        have h2 : (validateForm p).1.submitButton = some b := hb.trans hbtn
        refine ⟨b, rfl, ?_⟩
        simp [hidle, hv, h2, hf]

theorem checkRateLimit_background (p : Page) (now : Nat) :
    (checkRateLimit p now).1.background = p.background := by
  unfold checkRateLimit
  split <;> rfl

theorem handleFormSubmitSettled_cleanup (p : Page) (orig : JSString) (outcome : FetchOutcome)
    (now : Nat) :
    (handleFormSubmitSettled p orig outcome now).isSubmitting = false ∧
    (handleFormSubmitSettled p orig outcome now).submitButton =
      (afterFetch p outcome now).submitButton.map
        (fun b => { b with disabled := false, innerHTML := orig }) :=
  ⟨rfl, rfl⟩

theorem afterFetch_background_of_failure (p : Page) (outcome : FetchOutcome) (now : Nat)
    (h : ∀ body, outcome ≠ FetchOutcome.response true body) :
    (afterFetch p outcome now).background = p.background := by
  cases outcome with
  | rejected => rfl
  | response ok body =>
    cases ok with
    | true => exact absurd rfl (h body)
    | false =>
      cases body with
      | unparseable => rfl
      | null => rfl
      | value error => cases error <;> rfl

theorem afterFetch_submitButton (p : Page) (outcome : FetchOutcome) (now : Nat) :
    (afterFetch p outcome now).submitButton = p.submitButton := by
  cases outcome with
  | rejected => rfl
  | response ok body =>
    cases ok with
    | true =>
      rw [afterFetch_ok]
      exact (background_ext (updateMessageCounter_frame _).2).1
    | false =>
      exact (background_ext (afterFetch_background_of_failure p _ now
        (fun b h => by cases h))).1

/-- With its submit button in the form, a run of `handleFormSubmit` that starts idle
never leaves the workflow in the submitting state. Either the handler
returns before the submission is accepted, with `isSubmitting` false and the
button untouched, or it issues the network call; then, however that call
settles (2xx, non-2xx with any body, unparseable body, rejection), the rest of
the handler ends with `isSubmitting` false and the button enabled under the
label it had when the submission was triggered. -/
theorem handleFormSubmit_never_stuck (p0 : Page) (now0 : Nat) (b0 : Button)
    (hidle : p0.isSubmitting = false) (hb : p0.submitButton = some b0) :
    ((handleFormSubmit p0 now0).2 = Completion.returned ∧
      (handleFormSubmit p0 now0).1.isSubmitting = false ∧
      (handleFormSubmit p0 now0).1.submitButton = some b0) ∨
    ((handleFormSubmit p0 now0).2 = Completion.awaiting b0.innerHTML ∧
      (handleFormSubmit p0 now0).1.submitButton.isSome = true ∧
      ∀ (p : Page), p.submitButton.isSome = true → ∀ (outcome : FetchOutcome) (now : Nat),
        (handleFormSubmitSettled p b0.innerHTML outcome now).isSubmitting = false ∧
        (handleFormSubmitSettled p b0.innerHTML outcome now).submitButton
          = some { disabled := false, innerHTML := b0.innerHTML }) := by
  rcases handleFormSubmit_cases p0 now0 hidle with h | h | h | h
  · left
    obtain ⟨hbtn, _, hsub, _, _⟩ := background_ext (checkRateLimit_background p0 now0)
    rw [h.1]
    exact ⟨rfl, hsub.trans hidle, hbtn.trans hb⟩
  · left
    obtain ⟨hbtn, _, hsub, _, _⟩ := background_ext (background_validateForm p0)
    rw [h.1]
    exact ⟨rfl, hsub.trans hidle, hbtn.trans hb⟩
  · rw [hb] at h
    cases h.2
  · right
    obtain ⟨b, hb2, h⟩ := h
    rw [hb] at hb2
    cases hb2
    rw [h]
    refine ⟨rfl, rfl, ?_⟩
    intro p hp outcome now
    obtain ⟨b1, hb1⟩ := Option.isSome_iff_exists.mp hp
    refine ⟨rfl, ?_⟩
    rw [(handleFormSubmitSettled_cleanup p _ outcome now).2, afterFetch_submitButton, hb1]
    rfl

theorem handleFormSubmit_threw (p : Page) (now : Nat) (hidle : p.isSubmitting = false)
    (hrate : (checkRateLimit p now).2 = true) (hvalid : (validateForm p).2 = true)
    (hb : p.submitButton = none) :
    handleFormSubmit p now = ({ (validateForm p).1 with isSubmitting := true }, Completion.threw) := by
  rcases handleFormSubmit_cases p now hidle with h | h | h | h
  · rw [hrate] at h
    cases h.2
  · rw [hvalid] at h
    cases h.2.2
  · exact h.1
  · obtain ⟨b, hb2, _⟩ := h
    rw [hb] at hb2
    cases hb2

/-- C11: the code at the failing input. On a form without an element
`button[type="submit"]` (the sample page otherwise), an idle, valid submission
that passes the rate check sets `isSubmitting`, then throws when it reads the
label of the missing button: these statements stand before the `try` block, so
the `finally` block does not run. The handler ends with `isSubmitting` true
and no network call, and every later trigger is ignored. The same holds on
every such page. -/
theorem handleFormSubmit_without_button :
    ((handleFormSubmit noButtonPage 0).2 = Completion.threw ∧
      (handleFormSubmit noButtonPage 0).1.isSubmitting = true ∧
      (handleFormSubmit noButtonPage 0).1.fetchCalls = [] ∧
      ∀ later, handleFormSubmit (handleFormSubmit noButtonPage 0).1 later
        = ((handleFormSubmit noButtonPage 0).1, Completion.returned)) ∧
    (∀ (p : Page) (now : Nat), p.isSubmitting = false → (checkRateLimit p now).2 = true →
      (validateForm p).2 = true → p.submitButton = none →
      (handleFormSubmit p now).2 = Completion.threw ∧
      (handleFormSubmit p now).1.isSubmitting = true ∧
      (handleFormSubmit p now).1.fetchCalls = p.fetchCalls ∧
      ∀ later, handleFormSubmit (handleFormSubmit p now).1 later
        = ((handleFormSubmit p now).1, Completion.returned)) := by
  have hgen : ∀ (p : Page) (now : Nat), p.isSubmitting = false →
      (checkRateLimit p now).2 = true → (validateForm p).2 = true → p.submitButton = none →
      (handleFormSubmit p now).2 = Completion.threw ∧
      (handleFormSubmit p now).1.isSubmitting = true ∧
      (handleFormSubmit p now).1.fetchCalls = p.fetchCalls ∧
      ∀ later, handleFormSubmit (handleFormSubmit p now).1 later
        = ((handleFormSubmit p now).1, Completion.returned) := by
    intro p now hidle hrate hvalid hb
    have hf := (background_ext (background_validateForm p)).2.2.2.1
    rw [handleFormSubmit_threw p now hidle hrate hvalid hb]
    refine ⟨rfl, rfl, hf, ?_⟩
    intro later
    simp [handleFormSubmit]
  exact ⟨hgen noButtonPage 0 rfl (by decide) (by decide) rfl, hgen⟩

/-- The sample page with its button, a transport error being the outcome. -/
theorem handleFormSubmit_never_stuck_witness :
    (handleFormSubmitSettled inFlightPage (utf16 "Send Message") FetchOutcome.rejected 7).isSubmitting
      = false ∧
    (handleFormSubmitSettled inFlightPage (utf16 "Send Message") FetchOutcome.rejected 7).submitButton
      = some { disabled := false, innerHTML := utf16 "Send Message" } := by
  rcases handleFormSubmit_never_stuck validPage 0
    { disabled := false, innerHTML := utf16 "Send Message" } rfl rfl with h | h
  · exact absurd h.1 (by decide)
  · exact h.2.2 inFlightPage (by decide) FetchOutcome.rejected 7

/-- C12: the stored rate-limit record is written on a 2xx response only. The
part of `handleFormSubmit` that runs on the submit event never writes it
(trigger ignored, rate-limited, validation failed, or network call issued), and
the part that runs once the call has settled leaves it as it was for every
outcome other than a 2xx response (non-2xx with any body, rejection). -/
theorem record_written_on_success_only :
    (∀ (p : Page) (now : Nat), (handleFormSubmit p now).1.sessionStorage = p.sessionStorage) ∧
    (∀ (p : Page) (orig : JSString) (outcome : FetchOutcome) (now : Nat),
      (∀ body, outcome ≠ FetchOutcome.response true body) →
      (handleFormSubmitSettled p orig outcome now).sessionStorage = p.sessionStorage) := by
  refine ⟨?_, ?_⟩
  · intro p now
    cases hs : p.isSubmitting with
    | true =>
      have : handleFormSubmit p now = (p, Completion.returned) := by
        simp [handleFormSubmit, hs]
      rw [this]
    | false =>
      have h1 := (background_ext (checkRateLimit_background p now)).2.1
      have h2 := (background_ext (background_validateForm p)).2.1
      rcases handleFormSubmit_cases p now hs with h | h | h | h
      · rw [h.1]
        exact h1
      · rw [h.1]
        exact h2
      · rw [h.1]
        exact h2
      · obtain ⟨b, _, h⟩ := h
        rw [h]
        exact h2
  · intro p orig outcome now h
    exact (background_ext (afterFetch_background_of_failure p outcome now h)).2.1

/-- C12 on the sample page with a stored record: a rate-limited trigger and a
refused submission both leave the record as it was. -/
theorem record_written_on_success_only_witness :
    (handleFormSubmit limitedPage 1700000030000).1.sessionStorage
      = some (numberToString 1700000000000) ∧
    (handleFormSubmitSettled limitedPage (utf16 "Send Message")
      (FetchOutcome.response false ResponseBody.unparseable) 1700000090000).sessionStorage
      = some (numberToString 1700000000000) :=
  ⟨record_written_on_success_only.1 limitedPage 1700000030000,
   record_written_on_success_only.2 limitedPage (utf16 "Send Message")
     (FetchOutcome.response false ResponseBody.unparseable) 1700000090000
     (fun _ h => by cases h)⟩

/-! ## The message of a refused submission -/

/-- C13, as the claim states it, fails: for a non-2xx response whose body cannot
be parsed as JSON, no transport exception occurred, yet the message shown is
the connectivity message, not the generic one; and for a body whose `error`
field is present but is the empty string, the message shown is the generic
one, not the field. -/
theorem unparseable_body_shows_network_error :
    bannerMessage (handleFormSubmitSettled inFlightPage (utf16 "Send Message")
      (FetchOutcome.response false ResponseBody.unparseable) 5)
      = some (utf16 "Network error. Please check your connection and try again.") ∧
    bannerMessage (handleFormSubmitSettled inFlightPage (utf16 "Send Message")
      (FetchOutcome.response false (ResponseBody.value (some (Json.string [])))) 5)
      = some (utf16 "An error occurred while sending your message. Please try again.") := by
  decide

/-- C13, amended: on a page whose error banner has its `span`, a non-2xx
response whose body parses to a JSON value other than `null` shows the `error`
property of that value when it is present and truthy (a non-empty string as it
is, any other truthy value as text), and the generic message otherwise; a
network call that throws shows the connectivity message. -/
theorem refused_submission_message (p : Page) (orig : JSString) (now : Nat) (e : Element)
    (he : getElementById (utf16 "form-error") p.elements = some e)
    (hs : e.span.isSome = true) :
    (∀ error : Option Json,
      bannerMessage (handleFormSubmitSettled p orig
        (FetchOutcome.response false (ResponseBody.value error)) now) =
        some (match error with
          | some v => if v.truthy = true then v.toText else genericErrorMessage
          | none => genericErrorMessage)) ∧
    (∀ t : JSString, t ≠ [] →
      bannerMessage (handleFormSubmitSettled p orig
        (FetchOutcome.response false (ResponseBody.value (some (Json.string t)))) now)
        = some t) ∧
    bannerMessage (handleFormSubmitSettled p orig FetchOutcome.rejected now)
      = some networkErrorMessage := by
  have key : ∀ (outcome : FetchOutcome) (m : JSString),
      afterFetch p outcome now = showErrorMessage p m →
      bannerMessage (handleFormSubmitSettled p orig outcome now) = some m := by
    intro outcome m h
    have h1 : bannerMessage (handleFormSubmitSettled p orig outcome now)
        = bannerMessage (afterFetch p outcome now) := rfl
    rw [h1, h]
    exact bannerMessage_showErrorMessage p m e he hs
  have hval : ∀ error : Option Json,
      bannerMessage (handleFormSubmitSettled p orig
        (FetchOutcome.response false (ResponseBody.value error)) now) =
        some (match error with
          | some v => if v.truthy = true then v.toText else genericErrorMessage
          | none => genericErrorMessage) := by
    intro error
    cases error with
    | none => exact key _ _ rfl
    | some v => exact key _ _ rfl
  refine ⟨hval, ?_, key _ _ rfl⟩
  intro t ht
  rw [hval]
  cases t with
  | nil => exact absurd rfl ht
  | cons a l => rfl

/-- C13 amended, on the sample page in flight: the server's text is shown. -/
theorem refused_submission_message_witness :
    bannerMessage (handleFormSubmitSettled inFlightPage (utf16 "Send Message")
      (FetchOutcome.response false
        (ResponseBody.value (some (Json.string (utf16 "Form not found"))))) 5)
      = some (utf16 "Form not found") :=
  (refused_submission_message inFlightPage (utf16 "Send Message") 5
    (mkElement (utf16 "form-error") (utf16 "banner") (some [])) (by decide) rfl).2.1
    (utf16 "Form not found") (by decide)

/-! ## Sanitization -/

theorem sanitizeInput_cons (c : Nat) (r : JSString) :
    sanitizeInput (c :: r) =
      (if c = 38 then [38, 97, 109, 112, 59]
        else if c = 60 then [38, 108, 116, 59]
        else if c = 62 then [38, 103, 116, 59]
        else if c = 160 then [38, 110, 98, 115, 112, 59]
        else [c]) ++ sanitizeInput r := by
  have h1 : utf16 "&amp;" = [38, 97, 109, 112, 59] := by decide
  have h2 : utf16 "&lt;" = [38, 108, 116, 59] := by decide
  have h3 : utf16 "&gt;" = [38, 103, 116, 59] := by decide
  have h4 : utf16 "&nbsp;" = [38, 110, 98, 115, 112, 59] := by decide
  simp only [sanitizeInput, List.flatMap_cons, h1, h2, h3, h4]

theorem sanitizeInput_cases (c : Nat) (r : JSString) :
    (c = 38 ∧ sanitizeInput (c :: r) = 38 :: 97 :: 109 :: 112 :: 59 :: sanitizeInput r) ∨
    (c = 60 ∧ sanitizeInput (c :: r) = 38 :: 108 :: 116 :: 59 :: sanitizeInput r) ∨
    (c = 62 ∧ sanitizeInput (c :: r) = 38 :: 103 :: 116 :: 59 :: sanitizeInput r) ∨
    (c = 160 ∧ sanitizeInput (c :: r) = 38 :: 110 :: 98 :: 115 :: 112 :: 59 :: sanitizeInput r) ∨
    ((c ≠ 38 ∧ c ≠ 60 ∧ c ≠ 62 ∧ c ≠ 160) ∧ sanitizeInput (c :: r) = c :: sanitizeInput r) := by
  rw [sanitizeInput_cons]
  by_cases h1 : c = 38
  · left
    simp [h1]
  · by_cases h2 : c = 60
    · right; left
      simp [h2]
    · by_cases h3 : c = 62
      · right; right; left
        simp [h3]
      · by_cases h4 : c = 160
        · right; right; right; left
          simp [h4]
        · right; right; right; right
          simp [h1, h2, h3, h4]

theorem sanitizeInput_no_angle (s : JSString) : ∀ x ∈ sanitizeInput s, x ≠ 60 ∧ x ≠ 62 := by
  induction s with
  | nil => intro x hx; simp [sanitizeInput] at hx
  | cons c r ih =>
    intro x hx
    rcases sanitizeInput_cases c r with h | h | h | h | h
    all_goals
      rw [h.2] at hx
      simp only [List.mem_cons] at hx
    · rcases hx with hx | hx | hx | hx | hx | hx
      · omega
      · omega
      · omega
      · omega
      · omega
      · exact ih x hx
    · rcases hx with hx | hx | hx | hx | hx
      · omega
      · omega
      · omega
      · omega
      · exact ih x hx
    · rcases hx with hx | hx | hx | hx | hx
      · omega
      · omega
      · omega
      · omega
      · exact ih x hx
    · rcases hx with hx | hx | hx | hx | hx | hx | hx
      · omega
      · omega
      · omega
      · omega
      · omega
      · omega
      · exact ih x hx
    · rcases hx with hx | hx
      · omega
      · exact ih x hx

theorem unescapeEntities_other (c : Nat) (r : JSString) (h : c ≠ 38) :
    unescapeEntities (c :: r) = c :: unescapeEntities r := by
  rw [unescapeEntities]
  all_goals
    intros
    simp_all

theorem unescapeEntities_sanitizeInput (s : JSString) :
    unescapeEntities (sanitizeInput s) = s := by
  induction s with
  | nil => simp [sanitizeInput, unescapeEntities]
  | cons c r ih =>
    rcases sanitizeInput_cases c r with h | h | h | h | h
    · rw [h.2, unescapeEntities, ih, h.1]
    · rw [h.2, unescapeEntities, ih, h.1]
    · rw [h.2, unescapeEntities, ih, h.1]
    · rw [h.2, unescapeEntities, ih, h.1]
    · rw [h.2, unescapeEntities_other c _ h.1.1, ih]

theorem ampersandsBeginEntities_other (c : Nat) (r : JSString) (h : c ≠ 38)
    (hr : ampersandsBeginEntities r = true) : ampersandsBeginEntities (c :: r) = true := by
  simp [ampersandsBeginEntities, h, hr]

theorem ampersandsBeginEntities_entity (e r : JSString) (he : e ∈ entities)
    (hr : ampersandsBeginEntities r = true) : ampersandsBeginEntities (e ++ r) = true := by
  have h1 : utf16 "&amp;" = [38, 97, 109, 112, 59] := by decide
  have h2 : utf16 "&lt;" = [38, 108, 116, 59] := by decide
  have h3 : utf16 "&gt;" = [38, 103, 116, 59] := by decide
  have h4 : utf16 "&nbsp;" = [38, 110, 98, 115, 112, 59] := by decide
  have hpre : ∃ e2 ∈ entities, e2 <+: e ++ r := ⟨e, he, List.prefix_append e r⟩
  simp only [entities, h1, h2, h3, h4, List.mem_cons, List.mem_singleton, List.not_mem_nil,
    or_false] at he
  rcases he with he | he | he | he <;> subst he
  all_goals
    simp only [List.cons_append, List.nil_append] at hpre ⊢
    unfold ampersandsBeginEntities
    simp only [hpre, decide_True, Bool.or_true, Bool.true_and]
    repeat (apply ampersandsBeginEntities_other _ _ (by decide))
    exact hr

theorem ampersandsBeginEntities_sanitizeInput (s : JSString) :
    ampersandsBeginEntities (sanitizeInput s) = true := by
  have h1 : utf16 "&amp;" = [38, 97, 109, 112, 59] := by decide
  have h2 : utf16 "&lt;" = [38, 108, 116, 59] := by decide
  have h3 : utf16 "&gt;" = [38, 103, 116, 59] := by decide
  have h4 : utf16 "&nbsp;" = [38, 110, 98, 115, 112, 59] := by decide
  induction s with
  | nil => rfl
  | cons c r ih =>
    rcases sanitizeInput_cases c r with h | h | h | h | h
    · rw [h.2]
      exact ampersandsBeginEntities_entity [38, 97, 109, 112, 59] _ (by simp [entities, h1]) ih
    · rw [h.2]
      exact ampersandsBeginEntities_entity [38, 108, 116, 59] _ (by simp [entities, h2]) ih
    · rw [h.2]
      exact ampersandsBeginEntities_entity [38, 103, 116, 59] _ (by simp [entities, h3]) ih
    · rw [h.2]
      exact ampersandsBeginEntities_entity [38, 110, 98, 115, 112, 59] _
        (by simp [entities, h4]) ih
    · rw [h.2]
      exact ampersandsBeginEntities_other c _ h.1.1 ih

theorem objSet_values (o : List (JSString × JSString)) (key value : JSString)
    (P : JSString × JSString → Prop) (ho : ∀ kv ∈ o, P kv) (hn : P (key, value)) :
    ∀ kv ∈ objSet o key value, P kv := by
  unfold objSet
  split
  · intro kv hkv
    obtain ⟨a, ha, rfl⟩ := List.mem_map.mp hkv
    split
    · exact hn
    · exact ho a ha
  · intro kv hkv
    rcases List.mem_append.mp hkv with h | h
    · exact ho kv h
    · simp only [List.mem_singleton] at h
      exact h ▸ hn

theorem sanitizedData_values (cs : List Control) :
    ∀ kv ∈ sanitizedData cs, ∃ c ∈ cs, kv.1 = toUSV c.name ∧
      kv.2 = sanitizeInput (toUSV c.value) := by
  unfold sanitizedData
  have key : ∀ (es : List (JSString × JSString)) (o : List (JSString × JSString))
      (P : JSString × JSString → Prop), (∀ kv ∈ o, P kv) →
      (∀ e ∈ es, P (e.1, sanitizeInput e.2)) →
      ∀ kv ∈ es.foldl (fun o kv => objSet o kv.1 (sanitizeInput kv.2)) o, P kv := by
    intro es
    induction es with
    | nil => intro o P ho _; exact ho
    | cons e es ih =>
      intro o P ho he
      rw [List.foldl_cons]
      apply ih
      · exact objSet_values o _ _ P ho (he e (List.mem_cons_self _ _))
      · intro e2 h2
        exact he e2 (List.mem_cons_of_mem _ h2)
  apply key
  · intro kv hkv
    cases hkv
  · intro e he
    unfold formDataEntries at he
    obtain ⟨c, hc, hce⟩ := List.mem_filterMap.mp he
    refine ⟨c, hc, ?_⟩
    split at hce
    · cases hce
    · split at hce
      · split at hce
        · cases hce
          exact ⟨rfl, rfl⟩
        · cases hce
      · split at hce
        · cases hce
          exact ⟨rfl, rfl⟩
        · cases hce
      · cases hce
        exact ⟨rfl, rfl⟩
      · cases hce
        exact ⟨rfl, rfl⟩

theorem toUSV_of_no_surrogate (s : JSString) (h : ∀ c ∈ s, c < 55296 ∨ 57343 < c) :
    toUSV s = s := by
  induction s with
  | nil => rfl
  | cons c r ih =>
    have hc := h c (List.mem_cons_self _ _)
    have hr := ih (fun d hd => h d (List.mem_cons_of_mem _ hd))
    cases r with
    | nil =>
      have : ¬ (55296 ≤ c ∧ c ≤ 57343) := by omega
      simp [toUSV, this]
    | cons d r2 =>
      have h1 : ¬ (55296 ≤ c ∧ c ≤ 56319 ∧ 56320 ≤ d ∧ d ≤ 57343) := by omega
      have h2 : ¬ (55296 ≤ c ∧ c ≤ 57343) := by omega
      simp only [toUSV, h1, h2, if_false]
      rw [hr]

theorem formDataEntries_mem (cs : List Control) (e : JSString × JSString)
    (he : e ∈ formDataEntries cs) :
    ∃ c ∈ cs, c.disabled = false ∧ e = (toUSV c.name, toUSV c.value) := by
  unfold formDataEntries at he
  obtain ⟨c, hc, hce⟩ := List.mem_filterMap.mp he
  refine ⟨c, hc, ?_⟩
  split at hce
  · cases hce
  · next hdis =>
    have hd : c.disabled = false := by
      cases h : c.disabled
      · rfl
      · simp [h] at hdis
    split at hce
    · split at hce
      · cases hce
        exact ⟨hd, rfl⟩
      · cases hce
    · split at hce
      · cases hce
        exact ⟨hd, rfl⟩
      · cases hce
    · cases hce
      exact ⟨hd, rfl⟩
    · cases hce
      exact ⟨hd, rfl⟩

theorem objSet_find (o : List (JSString × JSString)) (key value k : JSString) :
    (objSet o key value).find? (fun kv => decide (kv.1 = k)) =
      if k = key then some (key, value) else o.find? (fun kv => decide (kv.1 = k)) := by
  have hmap : ∀ l : List (JSString × JSString),
      (l.map fun kv => if kv.1 = key then (key, value) else kv).find?
          (fun kv => decide (kv.1 = k)) =
        if k = key then (l.find? (fun kv => decide (kv.1 = key))).map (fun _ => (key, value))
        else l.find? (fun kv => decide (kv.1 = k)) := by
    intro l
    induction l with
    | nil => simp
    | cons a l ih =>
      by_cases hk : k = key
      · subst hk
        simp only [if_true] at ih ⊢
        by_cases ha : a.1 = k
        · simp [List.find?_cons, ha]
        · simp [List.find?_cons, ha, ih]
      · simp only [hk, if_false] at ih ⊢
        by_cases ha : a.1 = key
        · have hne : ¬ key = k := fun h => hk h.symm
          have hne2 : ¬ a.1 = k := fun h => hk (h.symm.trans ha)
          simp [List.find?_cons, ha, hne, hne2, ih]
        · by_cases ha2 : a.1 = k
          · simp [List.find?_cons, ha, ha2, hk]
          · simp [List.find?_cons, ha, ha2, ih]
  unfold objSet
  by_cases hany : o.any (fun kv => decide (kv.1 = key)) = true
  · rw [if_pos hany, hmap]
    by_cases hk : k = key
    · simp only [hk, if_true]
      obtain ⟨a, ha, hak⟩ := List.any_eq_true.mp hany
      cases hf : o.find? (fun kv => decide (kv.1 = key)) with
      | none =>
        have := List.find?_eq_none.mp hf a ha
        exact absurd hak this
      | some b => rfl
    · simp only [hk, if_false]
  · rw [if_neg hany]
    have hno : o.find? (fun kv => decide (kv.1 = key)) = none := by
      rw [List.find?_eq_none]
      intro a ha hak
      exact hany (List.any_eq_true.mpr ⟨a, ha, hak⟩)
    by_cases hk : k = key
    · subst hk
      simp [List.find?_append, hno]
    · have hne : ¬ key = k := fun h => hk h.symm
      simp [List.find?_append, List.find?_cons, hk, hne]

theorem objSet_keys (o : List (JSString × JSString)) (key value : JSString)
    (h : (o.map Prod.fst).Nodup) : ((objSet o key value).map Prod.fst).Nodup := by
  unfold objSet
  split
  · have : (o.map fun kv => if kv.1 = key then (key, value) else kv).map Prod.fst
        = o.map Prod.fst := by
      rw [List.map_map]
      apply List.map_congr_left
      intro a _
      simp only [Function.comp]
      split
      · next h2 => exact h2.symm
      · rfl
    rw [this]
    exact h
  · next hany =>
    rw [List.map_append, List.map_cons, List.map_nil]
    apply List.Nodup.append h (List.nodup_singleton _)
    intro x hx hx2
    simp only [List.mem_singleton] at hx2
    subst hx2
    obtain ⟨a, ha, hak⟩ := List.mem_map.mp hx
    exact hany (List.any_eq_true.mpr ⟨a, ha, by simpa using hak⟩)

theorem find_of_mem_nodup (o : List (JSString × JSString)) (h : (o.map Prod.fst).Nodup)
    (kv : JSString × JSString) (hkv : kv ∈ o) :
    o.find? (fun x => decide (x.1 = kv.1)) = some kv := by
  induction o with
  | nil => cases hkv
  | cons a r ih =>
    rw [List.map_cons, List.nodup_cons] at h
    by_cases ha : a.1 = kv.1
    · rcases List.mem_cons.mp hkv with h1 | h1
      · simp [List.find?_cons, h1]
      · exact absurd (List.mem_map.mpr ⟨kv, h1, ha.symm⟩) h.1
    · rcases List.mem_cons.mp hkv with h1 | h1
      · exact absurd (by rw [h1]) ha
      · simp only [List.find?_cons, ha, decide_False]
        exact ih h.2 h1

theorem sanitizedData_fold (es o : List (JSString × JSString)) (k : JSString)
    (ho : (o.map Prod.fst).Nodup) :
    ((es.foldl (fun o kv => objSet o kv.1 (sanitizeInput kv.2)) o).map Prod.fst).Nodup ∧
    (es.foldl (fun o kv => objSet o kv.1 (sanitizeInput kv.2)) o).find?
        (fun kv => decide (kv.1 = k)) =
      match es.reverse.find? (fun e => decide (e.1 = k)) with
      | some e => some (e.1, sanitizeInput e.2)
      | none => o.find? (fun kv => decide (kv.1 = k)) := by
  induction es generalizing o with
  | nil => exact ⟨ho, rfl⟩
  | cons e es ih =>
    rw [List.foldl_cons]
    obtain ⟨h1, h2⟩ := ih (objSet o e.1 (sanitizeInput e.2)) (objSet_keys o _ _ ho)
    refine ⟨h1, ?_⟩
    rw [h2, List.reverse_cons, List.find?_append, objSet_find]
    cases hf : es.reverse.find? (fun e => decide (e.1 = k)) with
    | some e2 => rfl
    | none =>
      by_cases hk : k = e.1
      · subst hk
        simp [List.find?_cons]
      · have hne : ¬ e.1 = k := fun h => hk h.symm
        simp [List.find?_cons, hk, hne]

theorem sanitizedData_last (cs : List Control) (kv : JSString × JSString)
    (hkv : kv ∈ sanitizedData cs) :
    ∃ c ∈ cs, c.disabled = false ∧ kv.1 = toUSV c.name ∧
      kv.2 = sanitizeInput (toUSV c.value) ∧
      (formDataEntries cs).reverse.find? (fun e => decide (e.1 = kv.1))
        = some (toUSV c.name, toUSV c.value) := by
  unfold sanitizedData at hkv
  obtain ⟨hnd, hfind⟩ := sanitizedData_fold (formDataEntries cs) [] kv.1 (by simp)
  rw [find_of_mem_nodup _ hnd kv hkv] at hfind
  cases hr : (formDataEntries cs).reverse.find? (fun e => decide (e.1 = kv.1)) with
  | none =>
    rw [hr] at hfind
    cases hfind
  | some e =>
    rw [hr] at hfind
    simp only [Option.some.injEq] at hfind
    have hmem : e ∈ formDataEntries cs :=
      List.mem_reverse.mp (List.mem_of_find?_eq_some hr)
    obtain ⟨c, hc, hd, hce⟩ := formDataEntries_mem cs e hmem
    refine ⟨c, hc, hd, ?_, ?_, ?_⟩
    · rw [hfind, hce]
    · rw [hfind, hce]
    · rw [hce]

/-- C14: the payload `sanitizedData` has one value per key, and the value under
a key is `sanitizeInput` of the value `FormData` gives for the corresponding
field: the last enabled control of the form submitted under that name (name and
value as they are when they hold no surrogate code unit); and for every
string `s`, `sanitizeInput s` holds no `<` and no `>`, each `&` in it begins one
of `&amp;`, `&lt;`, `&gt;`, `&nbsp;`, and un-escaping these gives back `s`. -/
theorem sanitizeInput_escapes :
    (∀ (cs : List Control), ∀ kv ∈ sanitizedData cs, ∃ c ∈ cs,
      kv.2 = sanitizeInput (toUSV c.value) ∧
      ((∀ u ∈ c.value, u < 55296 ∨ 57343 < u) → kv.2 = sanitizeInput c.value) ∧
      c.disabled = false ∧ kv.1 = toUSV c.name ∧
      ((∀ u ∈ c.name, u < 55296 ∨ 57343 < u) → kv.1 = c.name) ∧
      (formDataEntries cs).reverse.find? (fun e => decide (e.1 = kv.1))
        = some (toUSV c.name, toUSV c.value)) ∧
    (∀ (cs : List Control), ((sanitizedData cs).map Prod.fst).Nodup) ∧
    (∀ s : JSString, (60 ∉ sanitizeInput s ∧ 62 ∉ sanitizeInput s) ∧
      ampersandsBeginEntities (sanitizeInput s) = true ∧
      unescapeEntities (sanitizeInput s) = s) := by
  refine ⟨?_, ?_, ?_⟩
  · intro cs kv hkv
    obtain ⟨c, hc, hd, hk, hv, hlast⟩ := sanitizedData_last cs kv hkv
    refine ⟨c, hc, hv, ?_, hd, hk, ?_, hlast⟩
    · intro hs
      rw [hv, toUSV_of_no_surrogate c.value hs]
    · intro hs
      rw [hk, toUSV_of_no_surrogate c.name hs]
  · intro cs
    exact (sanitizedData_fold (formDataEntries cs) [] [] (by simp)).1
  · intro s
    refine ⟨⟨?_, ?_⟩, ampersandsBeginEntities_sanitizeInput s, unescapeEntities_sanitizeInput s⟩
    · intro h
      exact (sanitizeInput_no_angle s 60 h).1 rfl
    · intro h
      exact (sanitizeInput_no_angle s 62 h).2 rfl

/-- C14 on a string of markup, and on the sample page with that string as its
message: the payload holds the escaped message under the key `message`. -/
theorem sanitizeInput_escapes_witness :
    sanitizeInput (utf16 "<b>a & b</b>") = utf16 "&lt;b&gt;a &amp; b&lt;/b&gt;" ∧
    sanitizedData (samplePage (utf16 "Al") (utf16 "Lee") (utf16 "a@b.com")
        (utf16 "<b>a & b</b>") true).controls =
      [(utf16 "firstName", utf16 "Al"), (utf16 "lastName", utf16 "Lee"),
       (utf16 "email", utf16 "a@b.com"), (utf16 "inquiry", utf16 "general"),
       (utf16 "message", utf16 "&lt;b&gt;a &amp; b&lt;/b&gt;")] ∧
    (60 ∉ sanitizeInput (utf16 "<b>a & b</b>") ∧ 62 ∉ sanitizeInput (utf16 "<b>a & b</b>")) ∧
    ampersandsBeginEntities (sanitizeInput (utf16 "<b>a & b</b>")) = true ∧
    unescapeEntities (sanitizeInput (utf16 "<b>a & b</b>")) = utf16 "<b>a & b</b>" :=
  ⟨by decide, by decide, sanitizeInput_escapes.2.2 (utf16 "<b>a & b</b>")⟩

theorem sanitizeInput_of_plain (s : JSString)
    (h : ∀ c ∈ s, c ≠ 38 ∧ c ≠ 60 ∧ c ≠ 62 ∧ c ≠ 160) : sanitizeInput s = s := by
  induction s with
  | nil => rfl
  | cons c r ih =>
    have hc := h c (List.mem_cons_self _ _)
    rw [sanitizeInput_cons, ih (fun d hd => h d (List.mem_cons_of_mem _ hd))]
    simp [hc.1, hc.2.1, hc.2.2.1, hc.2.2.2]

/-- C15: `sanitizeInput` gives back unchanged every string that holds none of
`&`, `<`, `>` and U+00A0, in particular every string of letters and digits; and
the payload built from the example snapshot holds its five values unchanged. -/
theorem sanitizeInput_plain_unchanged :
    (∀ s : JSString, (∀ c ∈ s, c ≠ 38 ∧ c ≠ 60 ∧ c ≠ 62 ∧ c ≠ 160) → sanitizeInput s = s) ∧
    (∀ s : JSString,
      (∀ c ∈ s, (48 ≤ c ∧ c ≤ 57) ∨ (65 ≤ c ∧ c ≤ 90) ∨ (97 ≤ c ∧ c ≤ 122)) →
      sanitizeInput s = s) ∧
    sanitizedData validPage.controls =
      [(utf16 "firstName", utf16 "Al"), (utf16 "lastName", utf16 "Lee"),
       (utf16 "email", utf16 "a@b.com"), (utf16 "inquiry", utf16 "general"),
       (utf16 "message", utf16 "Hello there, testing.")] := by
  refine ⟨sanitizeInput_of_plain, ?_, by decide⟩
  intro s h
  apply sanitizeInput_of_plain
  intro c hc
  have := h c hc
  omega

/-- C15 on the email address of the example snapshot. -/
theorem sanitizeInput_plain_unchanged_witness :
    sanitizeInput (utf16 "a@b.com") = utf16 "a@b.com" :=
  sanitizeInput_plain_unchanged.1 (utf16 "a@b.com") (by decide)

/-! ## The verdict is a function of the trimmed value -/

theorem trimEnd_eq_rdropWhile (l : JSString) : trimEnd l = l.rdropWhile isWhiteSpace := rfl

theorem trim_trim (s : JSString) : trim (trim s) = trim s := by
  unfold trim
  rw [trimEnd_eq_rdropWhile, trimEnd_eq_rdropWhile]
  have h1 : ((s.dropWhile isWhiteSpace).rdropWhile isWhiteSpace).dropWhile isWhiteSpace
      = (s.dropWhile isWhiteSpace).rdropWhile isWhiteSpace := by
    cases hy : s.dropWhile isWhiteSpace with
    | nil => simp
    | cons a t =>
      have ha : isWhiteSpace a = false := by
        have := List.head?_dropWhile_not isWhiteSpace s
        rw [hy] at this
        simpa using this
      cases hr : List.rdropWhile isWhiteSpace (a :: t) with
      | nil =>
        have := (List.rdropWhile_eq_nil_iff.mp hr) a (List.mem_cons_self _ _)
        rw [ha] at this
        cases this
      | cons b t2 =>
        obtain ⟨u, hu⟩ := List.rdropWhile_prefix isWhiteSpace (a :: t)
        rw [hr] at hu
        have hb : b = a := by
          simp only [List.cons_append, List.cons.injEq] at hu
          exact hu.1
        subst hb
        simp [List.dropWhile, ha]
  rw [h1, List.rdropWhile_idempotent]

theorem checkField_trim (rules : FieldRule) (n value : JSString) (c : Bool) :
    checkField rules n (trim value) c = checkField rules n value c := by
  unfold checkField
  rw [trim_trim]

theorem checkField_valid_iff (rules : FieldRule) (n value : JSString) (c : Bool)
    (hreq : rules.required = true) (hmax : ∀ hi, rules.maxLength = some hi → hi ≠ 0)
    (hn : n ≠ utf16 "inquiry") :
    (checkField rules n value c).isValid = true ↔
      trim value ≠ [] ∧
      (∀ lo, rules.minLength = some lo → lo ≤ (trim value).length) ∧
      (∀ hi, rules.maxLength = some hi → (trim value).length ≤ hi) ∧
      (∀ r, rules.pattern = some r → r.test (trim value) = true) := by
  by_cases hne : trim value = []
  · rw [checkField_empty rules n value c hreq hne]
    constructor
    · intro h
      cases h
    · intro h
      exact absurd hne h.1
  · by_cases hlo : ∀ lo, rules.minLength = some lo → lo ≤ (trim value).length
    · by_cases hhi : ∀ hi, rules.maxLength = some hi → (trim value).length ≤ hi
      · rw [checkField_within rules n value c hn hne hlo hhi]
        cases hp : rules.pattern with
        | none =>
          simp only [true_iff]
          exact ⟨hne, hlo, hhi, fun r h => by cases h⟩
        | some r =>
          simp only [Option.some.injEq, forall_eq']
          constructor
          · intro h
            exact ⟨hne, hlo, hhi, h⟩
          · intro h
            exact h.2.2.2
      · have hhi2 := hhi
        simp only [not_forall] at hhi2
        obtain ⟨hi, hhis, hlt⟩ := hhi2
        rw [checkField_long rules n value c hi hhis (hmax hi hhis) (by omega)]
        constructor
        · intro h
          cases h
        · intro h
          exact absurd h.2.2.1 hhi
    · have hlo2 := hlo
      simp only [not_forall] at hlo2
      obtain ⟨lo, hlos, hlt⟩ := hlo2
      rw [checkField_short rules n value c lo hlos hne (by omega)]
      constructor
      · intro h
        cases h
      · intro h
        exact absurd h.2.1 hlo

theorem rules_wellformed {n : JSString} {rules : FieldRule}
    (hr : validationRules n = some rules) :
    rules.required = true ∧ ∀ hi, rules.maxLength = some hi → hi ≠ 0 := by
  have hmem := validationRules_some_mem hr
  simp only [ruleNames, List.mem_cons, List.mem_singleton, List.not_mem_nil, or_false] at hmem
  rcases hmem with h | h | h | h | h <;> subst h
  all_goals
    have h2 := hr.symm.trans (by rfl)
    cases h2
    refine ⟨rfl, ?_⟩
    intro hi hh
    cases hh <;> decide

/-- C16: for a field whose name has a rule and is not `inquiry`,
`validateField` decides on the trimmed value: the checks give the same verdict
on `v` and on `trim v`; the field is valid exactly when `trim v` is not empty,
is at least `minLength` and at most `maxLength` long where the rule has these,
and matches the pattern where the rule has one; `validateField` then clears the
field's error and returns true, and in every other case shows the rule's
message and returns false. -/
theorem validateField_decides_on_trimmed (p : Page) (i : Nat) (field : Control)
    (rules : FieldRule) (hf : p.controls[i]? = some field)
    (hr : validationRules field.name = some rules) (hn : field.name ≠ utf16 "inquiry") :
    (∀ v c, checkField rules field.name (trim v) c = checkField rules field.name v c) ∧
    ((validateField p i).2 = true ↔
      trim field.value ≠ [] ∧
      (∀ lo, rules.minLength = some lo → lo ≤ (trim field.value).length) ∧
      (∀ hi, rules.maxLength = some hi → (trim field.value).length ≤ hi) ∧
      (∀ r, rules.pattern = some r → r.test (trim field.value) = true)) ∧
    ((validateField p i).2 = true → validateField p i = (clearFieldError p i, true)) ∧
    ((validateField p i).2 = false →
      validateField p i = (showFieldError p i rules.message, false)) := by
  obtain ⟨hreq, hmax⟩ := rules_wellformed hr
  have hv : (validateField p i).2
      = (checkField rules field.name field.value (inquiryChecked p)).isValid := by
    simp only [validateField, hf, hr]
    cases (checkField rules field.name field.value (inquiryChecked p)).isValid <;> rfl
  have heq := validateField_eq p i field rules hf hr
  refine ⟨fun v c => checkField_trim rules field.name v c, ?_, ?_, ?_⟩
  · rw [hv]
    exact checkField_valid_iff rules field.name field.value _ hreq hmax hn
  · intro h
    rw [heq, if_pos h]
  · intro h
    have h2 : ¬ (validateField p i).2 = true := by
      rw [h]
      exact Bool.false_ne_true
    rw [heq, if_neg h2]

/-- C16 on the message field of the sample page, whose value is padded with
white space. -/
theorem validateField_decides_on_trimmed_witness :
    (validateField (samplePage (utf16 "Al") (utf16 "Lee") (utf16 "a@b.com")
      (utf16 "  Hello there  ") true) 5).2 = true ↔
      trim (utf16 "  Hello there  ") ≠ [] ∧
      (∀ lo, messageRule.minLength = some lo → lo ≤ (trim (utf16 "  Hello there  ")).length) ∧
      (∀ hi, messageRule.maxLength = some hi → (trim (utf16 "  Hello there  ")).length ≤ hi) ∧
      (∀ r, messageRule.pattern = some r → r.test (trim (utf16 "  Hello there  ")) = true) :=
  (validateField_decides_on_trimmed
    (samplePage (utf16 "Al") (utf16 "Lee") (utf16 "a@b.com") (utf16 "  Hello there  ") true) 5
    (mkControl ControlKind.textarea (utf16 "message") (utf16 "  Hello there  ") false)
    messageRule rfl rfl (by decide)).2.1

/-! ## The success notice -/

theorem errorId_ne_success (n : JSString) : errorId n ≠ utf16 "form-success" := by
  intro h
  have h1 : utf16 "-error" = [45, 101, 114, 114, 111, 114] := by decide
  have h2 : utf16 "form-success" = [102, 111, 114, 109, 45, 115, 117, 99, 99, 101, 115, 115] := by
    decide
  unfold errorId at h
  rw [h1, h2] at h
  have h3 := congrArg List.getLast? h
  simp at h3

theorem successShown_clearFieldError (p : Page) (i : Nat) :
    successShown (clearFieldError p i) = successShown p := by
  unfold clearFieldError
  split
  · rfl
  · next field hf =>
    unfold successShown
    simp only []
    rw [getElementById_modifyById_ne _ _ (Ne.symm (errorId_ne_success field.name)) _
      (by intro _; rfl)]

theorem successShown_showFieldError (p : Page) (i : Nat) (m : JSString) :
    successShown (showFieldError p i m) = successShown p := by
  unfold showFieldError
  split
  · rfl
  · next field hf =>
    unfold successShown
    simp only []
    rw [getElementById_modifyById_ne _ _ (Ne.symm (errorId_ne_success field.name)) _
      (by intro _; rfl)]

theorem successShown_validateField (p : Page) (i : Nat) :
    successShown (validateField p i).1 = successShown p := by
  unfold validateField
  split
  · rfl
  · split
    · rfl
    · simp only []
      split
      · exact successShown_showFieldError p i _
      · exact successShown_clearFieldError p i

theorem successShown_updateMessageCounter (p : Page) :
    successShown (updateMessageCounter p) = successShown p := by
  unfold successShown
  rw [getElementById_updateMessageCounter p _ (by decide)]

theorem successShown_hideSuccess (p : Page) : successShown (hideSuccess p) = false := by
  unfold successShown hideSuccess
  simp only []
  rw [getElementById_modifyById_same _ _ (by intro _; rfl)]
  cases getElementById (utf16 "form-success") p.elements with
  | none => rfl
  | some e => simp [Element.hidden, mem_classAdd]

theorem successShown_runTimers (p : Page) (now due : Nat) (hd : due ∈ p.timers)
    (hle : due ≤ now) : successShown (runTimers p now) = false := by
  have key : ∀ (l : List Nat) (q : Page), l ≠ [] →
      successShown (l.foldl (fun q _ => hideSuccess q) q) = false := by
    intro l
    induction l with
    | nil => intro q h; exact absurd rfl h
    | cons a l ih =>
      intro q _
      rw [List.foldl_cons]
      cases l with
      | nil => exact successShown_hideSuccess q
      | cons b l2 => exact ih _ (by simp)
  have hne : (p.timers.filter fun t => decide (t ≤ now)) ≠ [] := by
    intro h
    have : due ∈ p.timers.filter fun t => decide (t ≤ now) := by
      simp [List.mem_filter, hd, hle]
    rw [h] at this
    cases this
  have := key _ p hne
  unfold runTimers
  exact this

/-- C17, as the claim states it, fails: right after a successful submission
answered at time 1000 the notice is on display, and it is still on display
after the user has typed into the message field (`input` event), picked
another inquiry option (`change` event) or left a field (`blur` event), the
timer not yet being due at time 2000. -/
theorem notice_survives_interaction :
    successShown successPage = true ∧
    successShown (runTimers (onInput (editValue successPage 5 (utf16 "Again")) 5) 2000) = true ∧
    successShown (runTimers (onChange successPage 4) 2000) = true ∧
    successShown (runTimers (onBlur successPage 0) 2000) = true := by
  decide

/-- C17, amended: a successful submission answered at time `now` puts the
success notice on display (when the page has one) and leaves a timer due at
`now + 5000`; once a timer is due, the event loop runs its callback and the
notice is hidden; the listeners of the `input`, `change` and `blur` events on
the fields leave the notice and the timers as they are. -/
theorem notice_dismissed_by_timer_only (p : Page) (orig : JSString) (body : ResponseBody)
    (now : Nat) (hs : (getElementById (utf16 "form-success") p.elements).isSome = true) :
    successShown (handleFormSubmitSettled p orig (FetchOutcome.response true body) now) = true ∧
    (now + 5000) ∈
      (handleFormSubmitSettled p orig (FetchOutcome.response true body) now).timers ∧
    (∀ (q : Page) (due later : Nat), due ∈ q.timers → due ≤ later →
      successShown (runTimers q later) = false) ∧
    (∀ (q : Page) (i : Nat),
      (successShown (onInput q i) = successShown q ∧ (onInput q i).timers = q.timers) ∧
      (successShown (onChange q i) = successShown q ∧ (onChange q i).timers = q.timers) ∧
      (successShown (onBlur q i) = successShown q ∧ (onBlur q i).timers = q.timers)) := by
  have hshown : successShown (handleFormSubmitSettled p orig (FetchOutcome.response true body) now)
      = true := by
    obtain ⟨e, he⟩ := Option.isSome_iff_exists.mp hs
    have h1 : successShown (handleFormSubmitSettled p orig (FetchOutcome.response true body) now)
        = successShown (afterFetch p (FetchOutcome.response true body) now) := rfl
    rw [h1, afterFetch_ok, successShown_updateMessageCounter]
    unfold successShown resetForm showSuccessMessage
    simp only []
    rw [getElementById_modifyById_ne _ _ (by decide) _ (by intro _; rfl),
      getElementById_modifyById_same _ _ (by intro _; rfl), he]
    simp [Element.hidden, mem_classRemove]
  have htimer : (now + 5000) ∈
      (handleFormSubmitSettled p orig (FetchOutcome.response true body) now).timers := by
    have h1 : (handleFormSubmitSettled p orig (FetchOutcome.response true body) now).timers
        = (afterFetch p (FetchOutcome.response true body) now).timers := rfl
    rw [h1, afterFetch_ok, (background_ext (updateMessageCounter_frame _).2).2.2.2.2]
    simp [resetForm, showSuccessMessage]
  refine ⟨hshown, htimer, fun q due later hd hle => successShown_runTimers q later due hd hle, ?_⟩
  intro q i
  refine ⟨⟨?_, ?_⟩, ⟨?_, ?_⟩, ⟨successShown_validateField q i, ?_⟩⟩
  · unfold onInput
    simp only []
    split
    · rw [successShown_updateMessageCounter, successShown_clearFieldError]
    · exact successShown_clearFieldError q i
  · unfold onInput
    simp only []
    split
    · rw [(background_ext (updateMessageCounter_frame _).2).2.2.2.2,
        (background_ext (background_clearFieldError q i)).2.2.2.2]
    · exact (background_ext (background_clearFieldError q i)).2.2.2.2
  · unfold onChange
    split
    · split
      · exact successShown_clearFieldError q i
      · rfl
    · rfl
  · unfold onChange
    split
    · split
      · exact (background_ext (background_clearFieldError q i)).2.2.2.2
      · rfl
    · rfl
  · exact (background_ext (background_validateField q i)).2.2.2.2

/-- C17 amended, on the sample page: the notice shown at time 1000 is hidden once
the event loop reaches time 6000. -/
theorem notice_dismissed_by_timer_only_witness :
    successShown successPage = true ∧ successShown (runTimers successPage 6000) = false := by
  have h := notice_dismissed_by_timer_only inFlightPage (utf16 "Send Message")
    ResponseBody.null 1000 (by decide)
  exact ⟨h.1, h.2.2.1 successPage 6000 6000 h.2.1 (Nat.le_refl _)⟩

/-! ## Dark mode -/

theorem Main.agree_enableDarkMode (t : Main.Theme) (h : Main.Agree t) :
    Main.Agree (Main.enableDarkMode t) ∧ (Main.enableDarkMode t).isDarkMode = true := by
  unfold Main.enableDarkMode
  cases hd : t.isDarkMode with
  | true =>
    simp only [if_true]
    exact ⟨h, hd⟩
  | false =>
    simp only [Bool.false_eq_true, if_false]
    simp [Main.updateDarkModeIcons, Main.Agree, mem_classAdd]

theorem Main.agree_disableDarkMode (t : Main.Theme) (h : Main.Agree t) :
    Main.Agree (Main.disableDarkMode t) ∧ (Main.disableDarkMode t).isDarkMode = false := by
  unfold Main.disableDarkMode
  cases hd : t.isDarkMode with
  | false =>
    simp only [Bool.not_false, if_true]
    exact ⟨h, hd⟩
  | true =>
    simp only [Bool.not_true, Bool.false_eq_true, if_false]
    simp [Main.updateDarkModeIcons, Main.Agree, mem_classRemove]

theorem Main.agree_preserved (t : Main.Theme) (h : Main.Agree t) :
    Main.Agree (Main.onToggleClick t) ∧
    (∀ isDark, Main.Agree (Main.onSystemThemeChange t isDark)) ∧
    (∀ prefersDark, Main.Agree (Main.initializeDarkMode t prefersDark)) := by
  refine ⟨?_, ?_, ?_⟩
  · unfold Main.onToggleClick
    split
    · next hd =>
      apply (Main.agree_disableDarkMode _ _).1
      simpa [Main.Agree, hd] using h
    · next hd =>
      apply (Main.agree_enableDarkMode _ _).1
      simpa [Main.Agree, hd] using h
  · intro isDark
    unfold Main.onSystemThemeChange
    split
    · split
      · exact h
      · split
        · exact (Main.agree_enableDarkMode t h).1
        · exact (Main.agree_disableDarkMode t h).1
    · split
      · exact (Main.agree_enableDarkMode t h).1
      · exact (Main.agree_disableDarkMode t h).1
  · intro prefersDark
    unfold Main.initializeDarkMode
    split
    · exact (Main.agree_enableDarkMode t h).1
    · split
      · exact (Main.agree_disableDarkMode t h).1
      · split
        · exact (Main.agree_enableDarkMode t h).1
        · exact (Main.agree_disableDarkMode t h).1

theorem Main.onSystemThemeChange_saved (t : Main.Theme) (isDark : Bool) (saved : JSString)
    (h : t.darkMode = some saved) (hne : saved ≠ []) :
    Main.onSystemThemeChange t isDark = t := by
  simp [Main.onSystemThemeChange, h, truthy_of_ne_nil hne]

/-- C20: the code at the failing inputs. With the preference `light` saved,
`initializeDarkMode` on a page that ships a bare root element returns from
`disableDarkMode` at its guard (the flag starts false): the flag is false but
the root element has no `data-theme="light"`. On a page that ships its root
element with class `dark`, with no preference saved and a light system theme,
the flag is false and the class `dark` is still there, also after a later
change of the system theme to light. In both cases flag and document
disagree. -/
theorem initializeDarkMode_light_leaves_document :
    (Main.initializeDarkMode Main.bareLight false).isDarkMode = false ∧
    (Main.initializeDarkMode Main.bareLight false).dataTheme = none ∧
    ¬ Main.Agree (Main.initializeDarkMode Main.bareLight false) ∧
    (Main.initializeDarkMode Main.darkRoot false).isDarkMode = false ∧
    utf16 "dark" ∈ (Main.initializeDarkMode Main.darkRoot false).rootClassList ∧
    utf16 "dark" ∈
      (Main.onSystemThemeChange (Main.initializeDarkMode Main.darkRoot false) false).rootClassList ∧
    ¬ Main.Agree (Main.initializeDarkMode Main.darkRoot false) := by
  decide

/-! ## The matcher computes the reference meaning -/

theorem Regex.nullable_iff (r : Regex) : r.nullable = true ↔ r.Matches [] := by
  induction r with
  | fail => simp [Regex.nullable, Regex.Matches]
  | eps => simp [Regex.nullable, Regex.Matches]
  | cls p => simp [Regex.nullable, Regex.Matches]
  | seq a b iha ihb =>
    simp only [Regex.nullable, Regex.Matches, Bool.and_eq_true, iha, ihb]
    constructor
    · rintro ⟨h1, h2⟩
      exact ⟨[], [], rfl, h1, h2⟩
    · rintro ⟨u, v, huv, h1, h2⟩
      have := List.append_eq_nil.mp huv.symm
      rw [this.1] at h1
      rw [this.2] at h2
      exact ⟨h1, h2⟩
  | alt a b iha ihb => simp [Regex.nullable, Regex.Matches, iha, ihb]
  | star a _ =>
    simp only [Regex.nullable, Regex.Matches, true_iff]
    exact ⟨[], rfl, fun u hu => by cases hu⟩

theorem Regex.deriv_matches (r : Regex) (c : Nat) (s : JSString) :
    (r.deriv c).Matches s ↔ r.Matches (c :: s) := by
  induction r generalizing s with
  | fail => simp [Regex.deriv, Regex.Matches]
  | eps => simp [Regex.deriv, Regex.Matches]
  | cls p =>
    unfold Regex.deriv
    by_cases hp : p c = true
    · simp only [hp, if_true, Regex.Matches]
      constructor
      · intro h
        exact ⟨c, by rw [h], hp⟩
      · rintro ⟨d, hd, _⟩
        simp only [List.cons.injEq] at hd
        exact hd.2
    · simp only [hp, if_false, Regex.Matches, false_iff]
      rintro ⟨d, hd, hpd⟩
      simp only [List.cons.injEq] at hd
      rw [← hd.1] at hpd
      exact hp hpd
  | seq a b iha ihb =>
    have hsplit : (Regex.seq a b).Matches (c :: s) ↔
        (a.Matches [] ∧ b.Matches (c :: s)) ∨
        ∃ u v, s = u ++ v ∧ a.Matches (c :: u) ∧ b.Matches v := by
      simp only [Regex.Matches]
      constructor
      · rintro ⟨u, v, huv, h1, h2⟩
        cases u with
        | nil =>
          left
          simp only [List.nil_append] at huv
          exact ⟨h1, huv ▸ h2⟩
        | cons d u2 =>
          right
          simp only [List.cons_append, List.cons.injEq] at huv
          exact ⟨u2, v, huv.2, huv.1 ▸ h1, h2⟩
      · rintro (⟨h1, h2⟩ | ⟨u, v, huv, h1, h2⟩)
        · exact ⟨[], c :: s, rfl, h1, h2⟩
        · exact ⟨c :: u, v, by rw [huv]; rfl, h1, h2⟩
    have hd : (Regex.seq (a.deriv c) b).Matches s ↔
        ∃ u v, s = u ++ v ∧ a.Matches (c :: u) ∧ b.Matches v := by
      simp only [Regex.Matches]
      constructor
      · rintro ⟨u, v, huv, h1, h2⟩
        exact ⟨u, v, huv, (iha u).mp h1, h2⟩
      · rintro ⟨u, v, huv, h1, h2⟩
        exact ⟨u, v, huv, (iha u).mpr h1, h2⟩
    rw [hsplit]
    unfold Regex.deriv
    by_cases hn : a.nullable = true
    · have hn2 := (Regex.nullable_iff a).mp hn
      simp only [hn, if_true]
      have : (Regex.alt (Regex.seq (a.deriv c) b) (b.deriv c)).Matches s ↔
          (Regex.seq (a.deriv c) b).Matches s ∨ (b.deriv c).Matches s := by
        simp only [Regex.Matches]
      rw [this, hd, ihb s]
      constructor
      · rintro (h | h)
        · exact Or.inr h
        · exact Or.inl ⟨hn2, h⟩
      · rintro (h | h)
        · exact Or.inr h.2
        · exact Or.inl h
    · have hn2 : ¬ a.Matches [] := fun h => hn ((Regex.nullable_iff a).mpr h)
      simp only [hn, Bool.false_eq_true, if_false]
      rw [hd]
      constructor
      · intro h
        exact Or.inr h
      · rintro (h | h)
        · exact absurd h.1 hn2
        · exact h
  | alt a b iha ihb => simp only [Regex.deriv, Regex.Matches, iha, ihb]
  | star a iha =>
    simp only [Regex.deriv, Regex.Matches]
    constructor
    · rintro ⟨u, v, huv, h1, L, hL, hall⟩
      refine ⟨(c :: u) :: L, ?_, ?_⟩
      · rw [huv, hL]
        rfl
      · intro w hw
        rcases List.mem_cons.mp hw with h | h
        · subst h
          exact ⟨by simp, (iha u).mp h1⟩
        · exact hall w h
    · rintro ⟨L, hL, hall⟩
      cases L with
      | nil => cases hL
      | cons w L2 =>
        obtain ⟨hw, hmw⟩ := hall w (List.mem_cons_self _ _)
        cases w with
        | nil => exact absurd rfl hw
        | cons d w2 =>
          simp only [List.flatten_cons, List.cons_append, List.cons.injEq] at hL
          obtain ⟨hcd, hs⟩ := hL
          subst hcd
          exact ⟨w2, L2.flatten, hs, (iha w2).mpr hmw, L2, rfl,
            fun x hx => hall x (List.mem_cons_of_mem _ hx)⟩

theorem Regex.test_iff (r : Regex) (s : JSString) : r.test s = true ↔ r.Matches s := by
  induction s generalizing r with
  | nil => exact Regex.nullable_iff r
  | cons c s ih =>
    have h : r.test (c :: s) = (r.deriv c).test s := rfl
    rw [h, ih, Regex.deriv_matches]

theorem Regex.star_cls_matches (q : Nat → Bool) (s : JSString) :
    (Regex.star (Regex.cls q)).Matches s ↔ ∀ c ∈ s, q c = true := by
  simp only [Regex.Matches]
  constructor
  · rintro ⟨L, hL, hall⟩ c hc
    rw [hL] at hc
    obtain ⟨w, hw, hcw⟩ := List.mem_flatten.mp hc
    obtain ⟨_, d, hd, hq⟩ := hall w hw
    rw [hd] at hcw
    simp only [List.mem_singleton] at hcw
    rw [hcw]
    exact hq
  · intro h
    refine ⟨s.map (fun c => [c]), ?_, ?_⟩
    · clear h
      induction s with
      | nil => rfl
      | cons c s ih =>
        simp only [List.map_cons, List.flatten_cons, List.singleton_append]
        rw [← ih]
    · intro w hw
      obtain ⟨c, hc, rfl⟩ := List.mem_map.mp hw
      exact ⟨by simp, c, rfl, h c hc⟩

theorem Regex.plus_cls_matches (q : Nat → Bool) (s : JSString) :
    (Regex.plus (Regex.cls q)).Matches s ↔ s ≠ [] ∧ ∀ c ∈ s, q c = true := by
  unfold Regex.plus
  have h : (Regex.seq (Regex.cls q) (Regex.star (Regex.cls q))).Matches s ↔
      ∃ u v, s = u ++ v ∧ (Regex.cls q).Matches u ∧ (Regex.star (Regex.cls q)).Matches v := by
    simp only [Regex.Matches]
  rw [h]
  constructor
  · rintro ⟨u, v, huv, ⟨c, hc, hq⟩, hv⟩
    rw [Regex.star_cls_matches] at hv
    subst hc
    subst huv
    refine ⟨by simp, ?_⟩
    intro d hd
    rcases List.mem_append.mp hd with h1 | h1
    · simp only [List.mem_singleton] at h1
      rw [h1]
      exact hq
    · exact hv d h1
  · rintro ⟨hne, hall⟩
    cases s with
    | nil => exact absurd rfl hne
    | cons c s2 =>
      refine ⟨[c], s2, rfl, ⟨c, rfl, hall c (List.mem_cons_self _ _)⟩, ?_⟩
      rw [Regex.star_cls_matches]
      intro d hd
      exact hall d (List.mem_cons_of_mem _ hd)

theorem Regex.chr_matches (c : Nat) (s : JSString) : (Regex.chr c).Matches s ↔ s = [c] := by
  simp only [Regex.chr, Regex.Matches]
  constructor
  · rintro ⟨d, hd, hq⟩
    have : d = c := by simpa using hq
    rw [hd, this]
  · intro h
    exact ⟨c, h, by simp⟩

theorem namePattern_test (t : JSString) :
    namePattern.test t = true ↔ t ≠ [] ∧ ∀ c ∈ t, nameClass c = true := by
  rw [Regex.test_iff]
  exact Regex.plus_cls_matches nameClass t

theorem emailPattern_test (t : JSString) :
    emailPattern.test t = true ↔
      ∃ a b c, t = a ++ 64 :: (b ++ 46 :: c) ∧
        (a ≠ [] ∧ ∀ x ∈ a, emailClass x = true) ∧
        (b ≠ [] ∧ ∀ x ∈ b, emailClass x = true) ∧
        (c ≠ [] ∧ ∀ x ∈ c, emailClass x = true) := by
  rw [Regex.test_iff]
  unfold emailPattern
  have hseq : ∀ (r1 r2 : Regex) (s : JSString), (Regex.seq r1 r2).Matches s ↔
      ∃ u v, s = u ++ v ∧ r1.Matches u ∧ r2.Matches v := by
    intro r1 r2 s
    simp only [Regex.Matches]
  simp only [hseq, Regex.plus_cls_matches, Regex.chr_matches]
  constructor
  · rintro ⟨a, r1, h1, ha, x, r2, h2, hx, b, r3, h3, hb, y, c, h4, hy, hc⟩
    refine ⟨a, b, c, ?_, ha, hb, hc⟩
    rw [h1, h2, hx, h3, h4, hy]
    rfl
  · rintro ⟨a, b, c, ht, ha, hb, hc⟩
    exact ⟨a, 64 :: (b ++ 46 :: c), ht, ha, [64], b ++ 46 :: c, rfl, rfl, b, 46 :: c, rfl, hb,
      [46], c, rfl, rfl, hc⟩

/-! ## Names and email addresses -/

theorem validateField_snd_eq (p : Page) (i : Nat) (field : Control) (rules : FieldRule)
    (hf : p.controls[i]? = some field) (hr : validationRules field.name = some rules) :
    (validateField p i).2
      = (checkField rules field.name field.value (inquiryChecked p)).isValid := by
  simp only [validateField, hf, hr]
  cases (checkField rules field.name field.value (inquiryChecked p)).isValid <;> rfl

theorem nameClass_iff (c : Nat) :
    nameClass c = true ↔
      asciiLetter c = true ∨ isWhiteSpace c = true ∨ c = 45 ∨ c = 39 := by
  simp only [nameClass, asciiLetter, Bool.or_eq_true, Bool.and_eq_true, decide_eq_true_eq,
    beq_iff_eq]
  tauto

theorem nameRule_valid_iff (rules : FieldRule) (n value : JSString) (c : Bool)
    (hrules : rules.required = true ∧ rules.minLength = some 2 ∧ rules.maxLength = some 50 ∧
      rules.pattern = some namePattern)
    (hn : n ≠ utf16 "inquiry") :
    (checkField rules n value c).isValid = true ↔
      2 ≤ (trim value).length ∧ (trim value).length ≤ 50 ∧
      ∀ x ∈ trim value, asciiLetter x = true ∨ isWhiteSpace x = true ∨ x = 45 ∨ x = 39 := by
  obtain ⟨hreq, hlo, hhi, hpat⟩ := hrules
  rw [checkField_valid_iff rules n value c hreq
    (fun hi h => by rw [hhi] at h; cases h; decide) hn]
  simp only [hlo, hhi, hpat, Option.some.injEq, forall_eq', namePattern_test, nameClass_iff]
  constructor
  · rintro ⟨_, h2, h3, _, h5⟩
    exact ⟨h2, h3, h5⟩
  · rintro ⟨h2, h3, h5⟩
    have hne : trim value ≠ [] := by
      intro h
      rw [h] at h2
      simp at h2
    exact ⟨hne, h2, h3, hne, h5⟩

/-- C18, as the claim states it, fails: the first name `O'Neil` and the last
name `De la Cruz-Ruiz` are accepted, though the one holds an apostrophe and the
other spaces and a hyphen, none of which is a letter. -/
theorem name_with_apostrophe_accepted :
    (validateField (samplePage (utf16 "O'Neil") (utf16 "De la Cruz-Ruiz") (utf16 "a@b.com")
      (utf16 "Hello there, testing.") true) 0).2 = true ∧
    (validateField (samplePage (utf16 "O'Neil") (utf16 "De la Cruz-Ruiz") (utf16 "a@b.com")
      (utf16 "Hello there, testing.") true) 1).2 = true ∧
    39 ∈ trim (utf16 "O'Neil") ∧ asciiLetter 39 = false ∧
    32 ∈ trim (utf16 "De la Cruz-Ruiz") ∧ asciiLetter 32 = false ∧
    45 ∈ trim (utf16 "De la Cruz-Ruiz") ∧ asciiLetter 45 = false := by
  decide

/-- C18, amended: `validateField` accepts a first or last name exactly when its
trimmed value is 2 to 50 code units long and every code unit of it is a letter
of the basic Latin alphabet, a white-space character, a hyphen or an
apostrophe. -/
theorem validateField_name (p : Page) (i : Nat) (field : Control)
    (hf : p.controls[i]? = some field)
    (hn : field.name = utf16 "firstName" ∨ field.name = utf16 "lastName") :
    (validateField p i).2 = true ↔
      2 ≤ (trim field.value).length ∧ (trim field.value).length ≤ 50 ∧
      ∀ x ∈ trim field.value,
        asciiLetter x = true ∨ isWhiteSpace x = true ∨ x = 45 ∨ x = 39 := by
  rcases hn with h | h
  · have hr : validationRules field.name = some firstNameRule := by rw [h]; rfl
    rw [validateField_snd_eq p i field firstNameRule hf hr]
    exact nameRule_valid_iff firstNameRule _ _ _ ⟨rfl, rfl, rfl, rfl⟩ (by rw [h]; decide)
  · have hr : validationRules field.name = some lastNameRule := by rw [h]; rfl
    rw [validateField_snd_eq p i field lastNameRule hf hr]
    exact nameRule_valid_iff lastNameRule _ _ _ ⟨rfl, rfl, rfl, rfl⟩ (by rw [h]; decide)

/-- C18 amended, on the first name of the sample page. -/
theorem validateField_name_witness :
    (validateField validPage 0).2 = true ↔
      2 ≤ (trim (utf16 "Al")).length ∧ (trim (utf16 "Al")).length ≤ 50 ∧
      ∀ x ∈ trim (utf16 "Al"),
        asciiLetter x = true ∨ isWhiteSpace x = true ∨ x = 45 ∨ x = 39 :=
  validateField_name validPage 0
    (mkControl ControlKind.text (utf16 "firstName") (utf16 "Al") false) rfl (Or.inl rfl)

theorem emailClass_iff (x : Nat) : emailClass x = true ↔ isWhiteSpace x = false ∧ x ≠ 64 := by
  unfold emailClass
  cases isWhiteSpace x <;> simp

theorem emailReference_iff (t : JSString) :
    (∃ a b c, t = a ++ 64 :: (b ++ 46 :: c) ∧
      (a ≠ [] ∧ ∀ x ∈ a, emailClass x = true) ∧
      (b ≠ [] ∧ ∀ x ∈ b, emailClass x = true) ∧
      (c ≠ [] ∧ ∀ x ∈ c, emailClass x = true)) ↔ emailReference t := by
  constructor
  · rintro ⟨a, b, c, ht, ⟨ha, hae⟩, ⟨hb, hbe⟩, ⟨hc, hce⟩⟩
    have h64a : (64 : Nat) ∉ a := fun h => ((emailClass_iff 64).mp (hae 64 h)).2 rfl
    have h64b : (64 : Nat) ∉ b := fun h => ((emailClass_iff 64).mp (hbe 64 h)).2 rfl
    have h64c : (64 : Nat) ∉ c := fun h => ((emailClass_iff 64).mp (hce 64 h)).2 rfl
    refine ⟨?_, ?_, a, b ++ 46 :: c, ht, ha, b.length, ?_, ?_, ?_⟩
    · intro x hx
      rw [ht] at hx
      simp only [List.mem_append, List.mem_cons] at hx
      rcases hx with h | h | h | h | h
      · exact ((emailClass_iff x).mp (hae x h)).1
      · rw [h]
        decide
      · exact ((emailClass_iff x).mp (hbe x h)).1
      · rw [h]
        decide
      · exact ((emailClass_iff x).mp (hce x h)).1
    · rw [ht]
      simp [List.count_append, List.count_cons, List.count_eq_zero.mpr h64a,
        List.count_eq_zero.mpr h64b, List.count_eq_zero.mpr h64c]
    · exact List.length_pos.mpr hb
    · have := List.length_pos.mpr hc
      simp only [List.length_append, List.length_cons]
      omega
    · rw [List.getElem?_append_right (Nat.le_refl _)]
      simp
  · rintro ⟨hws, hcount, loc, dom, ht, hloc, j, hj0, hj1, hdj⟩
    obtain ⟨hjlt, hjv⟩ := List.getElem?_eq_some.mp hdj
    have hdom : dom = dom.take j ++ 46 :: dom.drop (j + 1) := by
      have h1 := (List.take_append_drop j dom).symm
      rw [List.drop_eq_getElem_cons hjlt, hjv] at h1
      exact h1
    have hc2 : loc.count 64 + (dom.count 64 + 1) = 1 := by
      rw [ht] at hcount
      simpa [List.count_append, List.count_cons] using hcount
    have h64l : (64 : Nat) ∉ loc := List.count_eq_zero.mp (by omega)
    have h64d : (64 : Nat) ∉ dom := List.count_eq_zero.mp (by omega)
    have hin : ∀ x, x ∈ loc ∨ x ∈ dom → emailClass x = true := by
      intro x hx
      rw [emailClass_iff]
      refine ⟨hws x ?_, ?_⟩
      · rw [ht]
        simp only [List.mem_append, List.mem_cons]
        rcases hx with h | h
        · exact Or.inl h
        · exact Or.inr (Or.inr h)
      · intro h64
        rw [h64] at hx
        rcases hx with h | h
        · exact h64l h
        · exact h64d h
    refine ⟨loc, dom.take j, dom.drop (j + 1), ?_, ⟨hloc, fun x hx => hin x (Or.inl hx)⟩,
      ⟨?_, fun x hx => hin x (Or.inr (List.mem_of_mem_take hx))⟩,
      ⟨?_, fun x hx => hin x (Or.inr (List.mem_of_mem_drop hx))⟩⟩
    · rw [ht]
      congr 2
    · intro h
      have := congrArg List.length h
      simp only [List.length_take, List.length_nil] at this
      omega
    · intro h
      have := congrArg List.length h
      simp only [List.length_drop, List.length_nil] at this
      omega

/-- C19: `validateField` accepts the email field exactly when the trimmed value
has the reference meaning of the pattern: no white-space character, exactly
one `@`, at least one character before it, and after it a `.` that is neither
the first nor the last character of that part; the email rule has no length
limit. -/
theorem validateField_email (p : Page) (i : Nat) (field : Control)
    (hf : p.controls[i]? = some field) (hn : field.name = utf16 "email") :
    ((validateField p i).2 = true ↔ emailReference (trim field.value)) ∧
    emailRule.minLength = none ∧ emailRule.maxLength = none := by
  refine ⟨?_, rfl, rfl⟩
  have hr : validationRules field.name = some emailRule := by rw [hn]; rfl
  rw [validateField_snd_eq p i field emailRule hf hr,
    checkField_valid_iff emailRule _ _ _ rfl (fun hi h => by cases h) (by rw [hn]; decide),
    ← emailReference_iff, ← emailPattern_test]
  constructor
  · intro h
    exact h.2.2.2 emailPattern rfl
  · intro h
    refine ⟨?_, fun lo hlo => (by cases hlo), fun hi hhi => (by cases hhi), ?_⟩
    · intro hnil
      rw [hnil] at h
      exact absurd h (by decide)
    · intro r hr2
      cases hr2
      exact h

/-- C19 on the email address of the sample page. -/
theorem validateField_email_witness :
    (validateField validPage 2).2 = true ↔ emailReference (trim (utf16 "a@b.com")) :=
  (validateField_email validPage 2
    (mkControl ControlKind.text (utf16 "email") (utf16 "a@b.com") false) rfl rfl).1

end ContactForm
